import Mathlib

/-!
Shallow embedding of the Rat-a-Tat Cat game engine (`src/GameLogic.js`) and a
verification of the spec's claims about it.

Modelling conventions:
* JS arrays become `List`s with the same index orientation; `push` appends at
  the end (`l ++ [x]`), `pop` removes the last element (`l.dropLast` /
  `l.getLast?`), `unshift` prepends at the head (`x :: l`).
* The random Fisher-Yates shuffle becomes an explicit function parameter
  `sh : List Card → List Card`; theorems that need it assume `∀ l, (sh l).Perm l`
  (a shuffle is exactly a permutation of its input).
* Player ids (uninterpreted socket-id strings in JS) become `Nat`.
* `null` checks on JS objects become `Option`.  An operation that would throw a
  `TypeError` in JS (e.g. dereferencing `getCurrentPlayer()` when
  `currentPlayerIndex` is out of range) is modelled as returning `none`.
  The single JS behaviour not representable with `List Card` piles is
  `handleDraw2Card('discard')` called while the chain is active but no card is
  pending: JS would push `null` onto the discard pile (corrupting it); the model
  returns `none` there as well.
* Unbounded JS loops (the first-discard redraw loop in `startRound`, the
  `do/while` advance loops in `knock`/`endTurn`, the power-card replacement
  loop in `endRound`) are given explicit fuel; exhausting fuel yields the same
  abnormal `none` (the JS loop would not have terminated / is out of its
  reachable envelope).
-/

/-- Card from `GameLogic.js` (`class Card`): `type ∈ {number, peek, swap, draw2,
addcard}` with `value` present only for number cards. -/
inductive Card where
  | number (v : Nat)
  | peek
  | swap
  | draw2
  | addcard
deriving DecidableEq, Repr

/-- `Card.getPoints()`: value for number cards, 0 for power cards. -/
def Card.getPoints : Card → Nat
  | .number v => v
  | _ => 0

/-- `Card.isPowerCard()`: every non-number card is a power card. -/
def Card.isPowerCard : Card → Bool
  | .number _ => false
  | _ => true

/-- Player from `GameLogic.js` (`class Player`).  `knownCards` is the per-slot
known mask parallel to `hand`. -/
structure Player where
  id : Nat
  name : String
  hand : List Card
  knownCards : List Bool
  score : Nat
  totalScore : Nat
deriving DecidableEq, Repr

/-- `Player.calculateScore()` body: sum of `getPoints()` over the hand. -/
def handPoints (h : List Card) : Nat :=
  (h.map Card.getPoints).sum

/-- Full `RatATatCatGame` state (the `gameId` field is an inert label with no
effect on any transition and is omitted). -/
structure GameState where
  players : List Player
  deck : List Card
  discardPile : List Card
  currentPlayerIndex : Nat
  drawnCard : Option Card
  drawnFromDiscard : Bool
  gameStarted : Bool
  roundEnded : Bool
  knockerId : Option Nat
  finalRoundActive : Bool
  playersCompletedFinalTurn : Nat
  draw2ChainActive : Bool
  draw2CardsRemaining : Int
deriving DecidableEq, Repr

/-- The `new RatATatCatGame(...)` constructor state. -/
def initialGame : GameState :=
  { players := []
    deck := []
    discardPile := []
    currentPlayerIndex := 0
    drawnCard := none
    drawnFromDiscard := false
    gameStarted := false
    roundEnded := false
    knockerId := none
    finalRoundActive := false
    playersCompletedFinalTurn := 0
    draw2ChainActive := false
    draw2CardsRemaining := 0 }

/-- Shuffles are modelled as functions on card lists; see the header comment. -/
abbrev Shuffle := List Card → List Card

/-- The deck built by `initializeDeck()` before its shuffle: numbers 0..8 four
times each (36), nine nines, three each of peek/swap/draw2 (9), two addcards —
56 cards in total (the spec's "72" is a miscount of this very composition). -/
def buildDeck : List Card :=
  ((List.range 9).map (fun v => List.replicate 4 (Card.number v))).flatten
    ++ List.replicate 9 (Card.number 9)
    ++ ((List.range 3).map (fun _ => [Card.peek, Card.swap, Card.draw2])).flatten
    ++ List.replicate 2 Card.addcard

/-- The reshuffle-on-empty step at the top of `drawCard()`: when the deck is
empty and the discard holds more than one card, the discard top is kept back
as the sole discard and the rest is shuffled into a new deck. -/
def reshufflePair (sh : Shuffle) (deck disc : List Card) : List Card × List Card :=
  if deck.length = 0 ∧ 1 < disc.length then
    match disc.getLast? with
    | some top => (sh disc.dropLast, [top])
    | none => (deck, disc)
  else (deck, disc)

/-- `drawCard()` on the raw deck/discard pair: reshuffle if needed, then pop
the deck if possible. -/
def drawCardL (sh : Shuffle) (deck disc : List Card) :
    Option Card × List Card × List Card :=
  match (reshufflePair sh deck disc).1.getLast? with
  | some c =>
    (some c, (reshufflePair sh deck disc).1.dropLast, (reshufflePair sh deck disc).2)
  | none => (none, (reshufflePair sh deck disc).1, (reshufflePair sh deck disc).2)

/-- `drawCard()` lifted to the full game state. -/
def drawCard (sh : Shuffle) (s : GameState) : Option Card × GameState :=
  match drawCardL sh s.deck s.discardPile with
  | (c?, d, dp) => (c?, { s with deck := d, discardPile := dp })

/-- `getCurrentPlayer()`: `players[currentPlayerIndex]` (undefined when out of
range). -/
def getCurrentPlayer (s : GameState) : Option Player :=
  s.players[s.currentPlayerIndex]?

/-- `addPlayer(id, name)`: rejected over 6 players or once started. -/
def addPlayer (pid : Nat) (pname : String) (s : GameState) : Bool × GameState :=
  if 6 ≤ s.players.length then (false, s)
  else if s.gameStarted then (false, s)
  else
    (true,
      { s with
          players := s.players ++
            [{ id := pid, name := pname, hand := [], knownCards := [],
               score := 0, totalScore := 0 }] })

/-- `removePlayer(id)`: filter the player out, reset `currentPlayerIndex` to 0
if it fell out of range, report whether the game is now empty. -/
def removePlayer (pid : Nat) (s : GameState) : Bool × GameState :=
  let ps := s.players.filter (fun p => p.id ≠ pid)
  let idx := if ps.length ≤ s.currentPlayerIndex then 0 else s.currentPlayerIndex
  (ps.length = 0, { s with players := ps, currentPlayerIndex := idx })

/-- Draw `n` cards in order (the dealing loop in `startRound`).  A failing draw
is `none`: in JS the `null` would be pushed into the hand and the round setup
would crash later at `firstDiscard.isPowerCard()`. -/
def drawN (sh : Shuffle) : Nat → GameState → Option (List Card × GameState)
  | 0, s => some ([], s)
  | n + 1, s =>
    match drawCard sh s with
    | (some c, s') =>
      match drawN sh n s' with
      | some (cs, s'') => some (c :: cs, s'')
      | none => none
    | (none, _) => none

/-- The dealing loop of `startRound`: each player's hand and known mask are
reset and refilled with 4 fresh draws (all unknown). -/
def dealPlayers (sh : Shuffle) : List Player → GameState →
    Option (List Player × GameState)
  | [], s => some ([], s)
  | p :: ps, s =>
    match drawN sh 4 s with
    | some (cs, s') =>
      match dealPlayers sh ps s' with
      | some (ps', s'') =>
        some ({ p with hand := cs, knownCards := List.replicate 4 false } :: ps', s'')
      | none => none
    | none => none

/-- The `while (firstDiscard.isPowerCard())` redraw loop of `startRound`: a
power card is `unshift`ed back onto the deck, the deck reshuffled, and a new
card drawn. -/
def firstDiscardLoop (sh : Shuffle) : Nat → Card → GameState →
    Option (Card × GameState)
  | 0, _, _ => none
  | fuel + 1, c, s =>
    if c.isPowerCard then
      let s' := { s with deck := sh (c :: s.deck) }
      match drawCard sh s' with
      | (some c', s'') => firstDiscardLoop sh fuel c' s''
      | (none, _) => none
    else some (c, s)

/-- `startRound()`: requires at least two players; rebuilds and shuffles the
deck, clears the discard and round flags, deals 4 unknown cards to everyone,
then draws the initial discard, redrawing while it is a power card. -/
def startRound (sh : Shuffle) (s : GameState) : Option (Bool × GameState) :=
  if s.players.length < 2 then some (false, s)
  else
    let s1 :=
      { s with
          deck := sh buildDeck
          discardPile := []
          roundEnded := false
          knockerId := none
          finalRoundActive := false
          playersCompletedFinalTurn := 0 }
    match dealPlayers sh s1.players s1 with
    | none => none
    | some (ps, s2) =>
      let s3 := { s2 with players := ps }
      match drawCard sh s3 with
      | (none, _) => none
      | (some c0, s4) =>
        match firstDiscardLoop sh 100 c0 s4 with
        | none => none
        | some (c, s5) =>
          some (true,
            { s5 with
                discardPile := s5.discardPile ++ [c]
                currentPlayerIndex := 0
                gameStarted := true })

/-- The `do { idx = (idx+1) % len } while (cond)` advance loop shared by
`knock` and `endTurn`, with the loop condition `skipP` checked on the player at
the freshly incremented index.  Fuel bounds the number of iterations; `none`
models a loop that never exits (or `players.length = 0`, where JS would index
with `NaN`). -/
def nextIndexLoop (players : List Player) (skipP : Player → Bool) :
    Nat → Nat → Option Nat
  | _, 0 => none
  | idx, fuel + 1 =>
    if players.length = 0 then none
    else
      match players[(idx + 1) % players.length]? with
      | none => none
      | some p =>
        if skipP p then nextIndexLoop players skipP ((idx + 1) % players.length) fuel
        else some ((idx + 1) % players.length)

/-- `replaceSlotLoop`: the `while (player.hand[i].isPowerCard())` loop of
`endRound` for one hand slot.  A drawn number card replaces the slot and marks
it known; a drawn power card is dropped and the loop continues; a failed draw
leaves the slot as it was. -/
def replaceSlotLoop (sh : Shuffle) :
    Nat → Card → Bool → List Card → List Card →
    Card × Bool × List Card × List Card
  | 0, c, k, deck, disc => (c, k, deck, disc)
  | fuel + 1, c, k, deck, disc =>
    if c.isPowerCard then
      match drawCardL sh deck disc with
      | (some r, deck', disc') =>
        if r.isPowerCard then replaceSlotLoop sh fuel c k deck' disc'
        else replaceSlotLoop sh fuel r true deck' disc'
      | (none, deck', disc') => (c, k, deck', disc')
    else (c, k, deck, disc)

/-- The `for (let i = 0; ...)` sweep of `endRound` over one player's hand,
threading deck and discard.  The mask is walked in step with the hand (in every
well-formed state they have equal length). -/
def replaceHandLoop (sh : Shuffle) :
    List Card → List Bool → List Card → List Card →
    List Card × List Bool × List Card × List Card
  | [], ks, deck, disc => ([], ks, deck, disc)
  | c :: cs, [], deck, disc => (c :: cs, [], deck, disc)
  | c :: cs, k :: ks, deck, disc =>
    let r1 := replaceSlotLoop sh (deck.length + disc.length + 1) c k deck disc
    let r2 := replaceHandLoop sh cs ks r1.2.2.1 r1.2.2.2
    (r1.1 :: r2.1, r1.2.1 :: r2.2.1, r2.2.2)

/-- The `players.forEach` body of `endRound`: replace power cards, then
`calculateScore()` and accumulate `totalScore`. -/
def endRoundPlayers (sh : Shuffle) :
    List Player → List Card → List Card → List Player × List Card × List Card
  | [], deck, disc => ([], deck, disc)
  | p :: ps, deck, disc =>
    let r := replaceHandLoop sh p.hand p.knownCards deck disc
    let sc := handPoints r.1
    let p' := { p with hand := r.1, knownCards := r.2.1, score := sc,
                       totalScore := p.totalScore + sc }
    let rest := endRoundPlayers sh ps r.2.2.1 r.2.2.2
    (p' :: rest.1, rest.2)

/-- `endRound()`: replace all power cards in hands, compute scores, mark the
round ended.  Drawn power-card replacements are dropped and replaced hand cards
are overwritten, so this is the one operation that does not conserve cards. -/
def endRound (sh : Shuffle) (s : GameState) : GameState :=
  let r := endRoundPlayers sh s.players s.deck s.discardPile
  { s with players := r.1, deck := r.2.1, discardPile := r.2.2, roundEnded := true }

/-- The advance portion of `endTurn` (the final `do/while`). -/
def endTurnAdvance (s : GameState) : Option GameState :=
  match nextIndexLoop s.players
      (fun p => s.finalRoundActive && s.knockerId == some p.id)
      s.currentPlayerIndex s.players.length with
  | some i => some { s with currentPlayerIndex := i }
  | none => none

/-- The pending-card clearing at the top of `endTurn()`. -/
def clearPending (s : GameState) : GameState :=
  { s with drawnCard := none, drawnFromDiscard := false }

/-- The final-round completion-counter increment inside `endTurn()`. -/
def bumpFinal (s : GameState) : GameState :=
  { s with playersCompletedFinalTurn := s.playersCompletedFinalTurn + 1 }

/-- `endTurn()`: clear the pending card, count final-round turns (ending the
round once every non-knocker has finished), otherwise advance the turn,
skipping the knocker while the final round is active. -/
def endTurn (sh : Shuffle) (s : GameState) : Option GameState :=
  if s.finalRoundActive then
    if s.players.length - 1 ≤ s.playersCompletedFinalTurn + 1 then
      some (endRound sh (bumpFinal (clearPending s)))
    else endTurnAdvance (bumpFinal (clearPending s))
  else endTurnAdvance (clearPending s)

/-- Structured action result (`{ success, error, ... }` objects).  Fields not
set by a given return site keep their defaults. -/
structure ActionResult where
  success : Bool
  error : Option String := none
  card : Option Card := none
  mustUse : Bool := false
  revealedCard : Option Card := none
  swappedWith : Option String := none
  chaining : Bool := false
  cardsRemaining : Option Int := none
  draw2Complete : Bool := false
  addedCard : Option Card := none
deriving DecidableEq, Repr

/-- Failure result `{ success: false, error: e }`. -/
def errRes (e : String) : ActionResult := { success := false, error := some e }

/-- Bare success result `{ success: true }`. -/
def okRes : ActionResult := { success := true }

/-- `drawFromDiscardPile()`: pop the discard top; power cards are pushed back
and refused; a number card becomes the pending card (must-use). -/
def drawFromDiscardPile (s : GameState) : Option (ActionResult × GameState) :=
  if s.drawnCard.isSome then some (errRes "Already drawn a card this turn", s)
  else if s.discardPile.length = 0 then some (errRes "Discard pile empty", s)
  else
    match s.discardPile.getLast? with
    | none => none
    | some c =>
      let rest := s.discardPile.dropLast
      if c.isPowerCard then
        some (errRes "Cannot draw power cards from discard pile",
              { s with discardPile := rest ++ [c] })
      else
        some ({ okRes with card := some c, mustUse := true },
              { s with discardPile := rest, drawnCard := some c,
                       drawnFromDiscard := true })

/-- `drawFromDeck()`: draw (with reshuffle fallback) into the pending card. -/
def drawFromDeck (sh : Shuffle) (s : GameState) : Option (ActionResult × GameState) :=
  if s.drawnCard.isSome then some (errRes "Already drawn a card this turn", s)
  else
    match drawCard sh s with
    | (none, s') => some (errRes "Deck is empty", s')
    | (some c, s') =>
      some ({ okRes with card := some c },
            { s' with drawnCard := some c, drawnFromDiscard := false })

/-- `replaceCardInHand(i)`: swap the pending card into the hand slot, discard
the old card, end the turn. -/
def replaceCardInHand (sh : Shuffle) (i : Int) (s : GameState) :
    Option (ActionResult × GameState) :=
  match s.drawnCard with
  | none => some (errRes "No card drawn", s)
  | some dc =>
    match getCurrentPlayer s with
    | none => none
    | some p =>
      if i < 0 ∨ (p.hand.length : Int) ≤ i then some (errRes "Invalid card index", s)
      else
        let idx := i.toNat
        let old := p.hand.getD idx (Card.number 0)
        let p' := { p with hand := p.hand.set idx dc }
        let s1 :=
          { s with players := s.players.set s.currentPlayerIndex p'
                   discardPile := s.discardPile ++ [old]
                   drawnCard := none
                   drawnFromDiscard := false }
        match endTurn sh s1 with
        | none => none
        | some s2 => some (okRes, s2)

/-- `discardDrawnCard()`: only legal for deck-drawn cards; pushes the pending
card to the discard and ends the turn. -/
def discardDrawnCard (sh : Shuffle) (s : GameState) :
    Option (ActionResult × GameState) :=
  match s.drawnCard with
  | none => some (errRes "No card drawn", s)
  | some dc =>
    if s.drawnFromDiscard then
      some (errRes "Cannot discard card from discard pile", s)
    else
      let s1 := { s with discardPile := s.discardPile ++ [dc], drawnCard := none }
      match endTurn sh s1 with
      | none => none
      | some s2 => some (okRes, s2)

/-- `usePeek(i)`: reveal the indexed own card in the response only (the known
mask is deliberately not touched), discard the peek card, end the turn. -/
def usePeek (sh : Shuffle) (i : Int) (s : GameState) :
    Option (ActionResult × GameState) :=
  match s.drawnCard with
  | some Card.peek =>
    match getCurrentPlayer s with
    | none => none
    | some p =>
      if i < 0 ∨ (p.hand.length : Int) ≤ i then some (errRes "Invalid card index", s)
      else
        let peeked := p.hand.getD i.toNat (Card.number 0)
        let s1 := { s with discardPile := s.discardPile ++ [Card.peek]
                           drawnCard := none
                           drawnFromDiscard := false }
        match endTurn sh s1 with
        | none => none
        | some s2 => some ({ okRes with revealedCard := some peeked }, s2)
  | _ => some (errRes "No peek card drawn", s)

/-- The per-side effect of a swap: the slot receives the other side's card and
its known flag is forced to false. -/
def swapPlayer (pl : Player) (idx : Nat) (c : Card) : Player :=
  { pl with hand := pl.hand.set idx c, knownCards := pl.knownCards.set idx false }

/-- `useSwap(myIdx, oppId, oppIdx)`: validations, then the blind in-place
exchange; both touched slots become unknown; discard the swap card; end the
turn. -/
def useSwap (sh : Shuffle) (myIdx : Int) (oppId : Nat) (oppIdx : Int)
    (s : GameState) : Option (ActionResult × GameState) :=
  match s.drawnCard with
  | some Card.swap =>
    match getCurrentPlayer s with
    | none => none
    | some p =>
      match s.players.findIdx? (fun q => q.id == oppId) with
      | none => some (errRes "Invalid opponent", s)
      | some j =>
        match s.players[j]? with
        | none => none
        | some opp =>
          if opp.id = p.id then some (errRes "Cannot swap with yourself", s)
          else if myIdx < 0 ∨ (p.hand.length : Int) ≤ myIdx then
            some (errRes "Invalid your card index", s)
          else if oppIdx < 0 ∨ (opp.hand.length : Int) ≤ oppIdx then
            some (errRes "Invalid opponent card index", s)
          else
            let mi := myIdx.toNat
            let oi := oppIdx.toNat
            let myCard := p.hand.getD mi (Card.number 0)
            let theirCard := opp.hand.getD oi (Card.number 0)
            let p' := swapPlayer p mi theirCard
            let opp' := swapPlayer opp oi myCard
            let s1 :=
              { s with players := (s.players.set s.currentPlayerIndex p').set j opp'
                       discardPile := s.discardPile ++ [Card.swap]
                       drawnCard := none
                       drawnFromDiscard := false }
            match endTurn sh s1 with
            | none => none
            | some s2 => some ({ okRes with swappedWith := some opp.name }, s2)
  | _ => some (errRes "No swap card drawn", s)

/-- `declineSwap()`: discard the swap card unused and end the turn. -/
def declineSwap (sh : Shuffle) (s : GameState) : Option (ActionResult × GameState) :=
  match s.drawnCard with
  | some Card.swap =>
    let s1 := { s with discardPile := s.discardPile ++ [Card.swap]
                       drawnCard := none
                       drawnFromDiscard := false }
    match endTurn sh s1 with
    | none => none
    | some s2 => some (okRes, s2)
  | _ => some (errRes "No swap card drawn", s)

/-- The chained-Draw-Two block that `useDraw2` and `handleDraw2Card` both
contain verbatim: discard the freshly drawn Draw-Two, reset the counter to 2,
and draw the next card (unchecked) as the new pending card. -/
def chainDraw (sh : Shuffle) (t : GameState) : ActionResult × GameState :=
  match drawCard sh { t with discardPile := t.discardPile ++ [Card.draw2]
                             drawnCard := none
                             draw2CardsRemaining := 2 } with
  | (c2?, s4) =>
    ({ okRes with card := c2?, chaining := true, cardsRemaining := some 2 },
     { s4 with drawnCard := c2? })

/-- `useDraw2()`: discard the draw2, activate the chain at 2, draw the first
card; an immediate chained draw2 is discarded with the counter reset to 2 and
the next card drawn unchecked. -/
def useDraw2 (sh : Shuffle) (s : GameState) : Option (ActionResult × GameState) :=
  match s.drawnCard with
  | some Card.draw2 =>
    let s1 := { s with discardPile := s.discardPile ++ [Card.draw2]
                       drawnCard := none
                       draw2ChainActive := true
                       draw2CardsRemaining := 2 }
    match drawCard sh s1 with
    | (none, s2) =>
      let s3 := { s2 with draw2ChainActive := false }
      match endTurn sh s3 with
      | none => none
      | some s4 => some (errRes "Deck empty", s4)
    | (some c, s2) =>
      if c = Card.draw2 then some (chainDraw sh s2)
      else
        some ({ okRes with card := some c, cardsRemaining := some 2 },
              { s2 with drawnCard := some c })
  | _ => some (errRes "No draw2 card drawn", s)

/-- The `action` argument of `handleDraw2Card`: `'use'` with a non-null index,
`'discard'`, or anything else (including `'use'` with a null index, which JS
sends to the final invalid-action return). -/
inductive D2Act where
  | useCard (i : Int)
  | discardCard
  | invalidAct
deriving DecidableEq, Repr

/-- `handleDraw2Card(action, i)`: resolve the pending chain card by using it
(which also terminates the chain) or discarding it (decrement, then draw the
next card, a chained draw2 again resetting the counter, until the counter runs
out and the turn ends). -/
def handleDraw2Card (sh : Shuffle) (a : D2Act) (s : GameState) :
    Option (ActionResult × GameState) :=
  if ¬ s.draw2ChainActive then some (errRes "No Draw 2 active", s)
  else
    match a with
    | .useCard i =>
      match replaceCardInHand sh i s with
      | none => none
      | some (r, s') =>
        if r.success then
          some (r, { s' with draw2ChainActive := false, draw2CardsRemaining := 0 })
        else some (r, s')
    | .discardCard =>
      match s.drawnCard with
      | none => none
      | some dc =>
        let s1 := { s with discardPile := s.discardPile ++ [dc]
                           drawnCard := none
                           draw2CardsRemaining := s.draw2CardsRemaining - 1 }
        if 0 < s1.draw2CardsRemaining then
          match drawCard sh s1 with
          | (none, s2) =>
            let s3 := { s2 with draw2ChainActive := false }
            match endTurn sh s3 with
            | none => none
            | some s4 => some (errRes "Deck empty", s4)
          | (some c, s2) =>
            if c = Card.draw2 then some (chainDraw sh s2)
            else
              some ({ okRes with card := some c,
                                 cardsRemaining := some s1.draw2CardsRemaining },
                    { s2 with drawnCard := some c })
        else
          let s2 := { s1 with draw2ChainActive := false }
          match endTurn sh s2 with
          | none => none
          | some s3 => some ({ okRes with draw2Complete := true }, s3)
    | .invalidAct => some (errRes "Invalid action", s)

/-- `Player.addCard(card)`: push the card and an unknown-mask entry. -/
def Player.addCard (p : Player) (c : Card) : Player :=
  { p with hand := p.hand ++ [c], knownCards := p.knownCards ++ [false] }

/-- The `if (newCard) currentPlayer.addCard(newCard)` step of `useAddCard`. -/
def addDrawn (p : Player) (idx : Nat) (c? : Option Card) (t : GameState) : GameState :=
  match c? with
  | some nc => { t with players := t.players.set idx (p.addCard nc) }
  | none => t

/-- `useAddCard()`: draw a card into the acting player's hand (silently skipped
if none is available), discard the addcard, end the turn. -/
def useAddCard (sh : Shuffle) (s : GameState) : Option (ActionResult × GameState) :=
  match s.drawnCard with
  | some Card.addcard =>
    match getCurrentPlayer s with
    | none => none
    | some p =>
      match drawCard sh s with
      | (newC?, s1) =>
        let s2 := addDrawn p s1.currentPlayerIndex newC? s1
        let s3 := { s2 with discardPile := s2.discardPile ++ [Card.addcard]
                            drawnCard := none
                            drawnFromDiscard := false }
        match endTurn sh s3 with
        | none => none
        | some s4 => some ({ okRes with addedCard := newC? }, s4)
  | _ => some (errRes "No addcard drawn", s)

/-- `knock()`: record the knocker, activate the final round, clear pending
state, and advance to the next player who is not the knocker. -/
def knock (s : GameState) : Option (ActionResult × GameState) :=
  if s.knockerId.isSome then some (errRes "Someone already knocked", s)
  else
    match getCurrentPlayer s with
    | none => none
    | some p =>
      let s1 := { s with knockerId := some p.id
                         finalRoundActive := true
                         playersCompletedFinalTurn := 0
                         drawnCard := none
                         drawnFromDiscard := false }
      match nextIndexLoop s1.players (fun q => s1.knockerId == some q.id)
          s1.currentPlayerIndex s1.players.length with
      | some i => some (okRes, { s1 with currentPlayerIndex := i })
      | none => none

/-- One slot of a hand as seen in a projection: `card = none` is the
`{ type: 'hidden' }` placeholder. -/
structure CardSlotView where
  card : Option Card
  isKnown : Bool
  isOuter : Bool
deriving DecidableEq, Repr

/-- One player entry of `getGameState`'s `players` array. -/
structure PlayerView where
  id : Nat
  name : String
  handSize : Nat
  hand : List CardSlotView
  score : Option Nat
  totalScore : Nat
deriving DecidableEq, Repr

/-- The full object returned by `getGameState(playerId)`. -/
structure GameView where
  players : List PlayerView
  currentPlayerId : Option Nat
  isMyTurn : Bool
  discardTop : Option Card
  deckSize : Nat
  drawnCard : Option Card
  drawnFromDiscard : Bool
  draw2Active : Bool
  draw2Remaining : Int
  gameStarted : Bool
  roundEnded : Bool
  knockerId : Option Nat
  finalRoundActive : Bool
deriving DecidableEq, Repr

/-- The hand projection for the requesting player's own hand: a slot's card is
shown when the round has ended, the slot is known, or the slot is outer
(index 0 or last). -/
def ownHandView (ended : Bool) (hand : List Card) (mask : List Bool) :
    List CardSlotView :=
  hand.enum.map (fun ci =>
    let isOuter := ci.1 = 0 ∨ ci.1 = hand.length - 1
    { card := if ended = true ∨ mask.getD ci.1 false = true ∨ isOuter
              then some ci.2 else none
      isKnown := ended || mask.getD ci.1 false
      isOuter := decide isOuter })

/-- The hand projection for any other player's hand: fully masked until the
round has ended. -/
def otherHandView (ended : Bool) (hand : List Card) : List CardSlotView :=
  hand.map (fun c =>
    { card := if ended then some c else none
      isKnown := ended
      isOuter := false })

/-- `getGameState(playerId)`: the per-player information-hiding projection. -/
def getGameState (pid : Nat) (s : GameState) : GameView :=
  { players := s.players.map (fun p =>
      { id := p.id
        name := p.name
        handSize := p.hand.length
        hand := if p.id = pid then ownHandView s.roundEnded p.hand p.knownCards
                else otherHandView s.roundEnded p.hand
        score := if s.roundEnded then some p.score else none
        totalScore := p.totalScore })
    currentPlayerId := (getCurrentPlayer s).map (·.id)
    isMyTurn := (getCurrentPlayer s).map (·.id) == some pid
    discardTop := s.discardPile.getLast?
    deckSize := s.deck.length
    drawnCard := if (getCurrentPlayer s).map (·.id) == some pid
                 then s.drawnCard else none
    drawnFromDiscard := s.drawnFromDiscard
    draw2Active := s.draw2ChainActive
    draw2Remaining := s.draw2CardsRemaining
    gameStarted := s.gameStarted
    roundEnded := s.roundEnded
    knockerId := s.knockerId
    finalRoundActive := s.finalRoundActive }

/-- One member of the action API of §4 plus `knock`: the `{success, ...}`
returning methods a client command can invoke on a running match. -/
inductive Act where
  | aDrawDeck
  | aDrawDiscard
  | aReplace (i : Int)
  | aDiscardDrawn
  | aPeek (i : Int)
  | aSwap (myIdx : Int) (oppId : Nat) (oppIdx : Int)
  | aDeclineSwap
  | aUseDraw2
  | aD2 (d : D2Act)
  | aAddCard
  | aKnock
deriving DecidableEq, Repr

/-- Dispatch an action to the corresponding method. -/
def applyAct (sh : Shuffle) : Act → GameState → Option (ActionResult × GameState)
  | .aDrawDeck => drawFromDeck sh
  | .aDrawDiscard => drawFromDiscardPile
  | .aReplace i => replaceCardInHand sh i
  | .aDiscardDrawn => discardDrawnCard sh
  | .aPeek i => usePeek sh i
  | .aSwap m oid oi => useSwap sh m oid oi
  | .aDeclineSwap => declineSwap sh
  | .aUseDraw2 => useDraw2 sh
  | .aD2 d => handleDraw2Card sh d
  | .aAddCard => useAddCard sh
  | .aKnock => knock

/-- One action step under a guard `G` restricting which actions may fire from
which states (the unrestricted relation uses `anyGuard`). -/
def ActStep (sh : Shuffle) (G : Act → GameState → Prop) (s t : GameState) : Prop :=
  ∃ a r, G a s ∧ applyAct sh a s = some (r, t)

/-- No restriction: every action call the transport layer could relay. -/
def anyGuard : Act → GameState → Prop := fun _ _ => True

/-- The guard of the amended card-conservation claim: `knock` is only invoked
while no drawn card is pending (otherwise `knock` destroys the pending card). -/
def knockGuard : Act → GameState → Prop := fun a s =>
  a = Act.aKnock → s.drawnCard = none

/-- Reflexive-transitive closure of guarded action steps. -/
inductive Steps (sh : Shuffle) (G : Act → GameState → Prop) :
    GameState → GameState → Prop
  | refl (s : GameState) : Steps sh G s s
  | tail {s t u : GameState} : Steps sh G s t → ActStep sh G t u → Steps sh G s u

/-- Lobby states: a fresh `RatATatCatGame` on which only `addPlayer` /
`removePlayer` have been called (the normal pre-round lifecycle). -/
inductive Lobby : GameState → Prop
  | init : Lobby initialGame
  | add {s : GameState} (pid : Nat) (pname : String) :
      Lobby s → Lobby (addPlayer pid pname s).2
  | remove {s : GameState} (pid : Nat) :
      Lobby s → Lobby (removePlayer pid s).2

/-- States reachable within a round: a successful `startRound` on a lobby
state followed by any `G`-guarded sequence of action calls. -/
def ReachRound (sh : Shuffle) (G : Act → GameState → Prop) (s : GameState) : Prop :=
  ∃ s0 s1, Lobby s0 ∧ startRound sh s0 = some (true, s1) ∧ Steps sh G s1 s

/-- All states reachable through the public surface: lifecycle operations
(`addPlayer`, `removePlayer`, `startRound`) and action calls interleaved. -/
inductive ReachAll (sh : Shuffle) : GameState → Prop
  | init : ReachAll sh initialGame
  | add {s : GameState} (pid : Nat) (pname : String) :
      ReachAll sh s → ReachAll sh (addPlayer pid pname s).2
  | remove {s : GameState} (pid : Nat) :
      ReachAll sh s → ReachAll sh (removePlayer pid s).2
  | start {s : GameState} {b : Bool} {s' : GameState} :
      ReachAll sh s → startRound sh s = some (b, s') → ReachAll sh s'
  | act {s t : GameState} :
      ReachAll sh s → ActStep sh anyGuard s t → ReachAll sh t

/-- A step that is either an action call or a `removePlayer` (the step set of
the knock-exclusion claim, which quantifies over removals as well). -/
def ActOrRemoveStep (sh : Shuffle) (s t : GameState) : Prop :=
  ActStep sh anyGuard s t ∨ ∃ pid, t = (removePlayer pid s).2

/-- Closure of `ActOrRemoveStep`. -/
inductive StepsRem (sh : Shuffle) : GameState → GameState → Prop
  | refl (s : GameState) : StepsRem sh s s
  | tail {s t u : GameState} : StepsRem sh s t → ActOrRemoveStep sh t u → StepsRem sh s u

/-- The multiset of cards sitting in all hands. -/
def handsCards (ps : List Player) : Multiset Card :=
  (ps.map (fun p => (p.hand : Multiset Card))).sum

/-- The multiset held by an optional pending card. -/
def pendingCards : Option Card → Multiset Card
  | some c => {c}
  | none => 0

/-- Every card in play: draw pile + discard pile + all hands + the pending
drawn card. -/
def potCards (s : GameState) : Multiset Card :=
  (s.deck : Multiset Card) + (s.discardPile : Multiset Card)
    + handsCards s.players + pendingCards s.drawnCard

/-- The card pool named by the card-conservation claim: draw pile + discard
pile + all hands, without the pending card. -/
def claimPool (s : GameState) : Multiset Card :=
  (s.deck : Multiset Card) + (s.discardPile : Multiset Card) + handsCards s.players

/-- The fixed 72-card multiset of a round. -/
def fullDeckCards : Multiset Card := (buildDeck : Multiset Card)


/-- A freshly added player holding a given hand with a parallel all-false mask
(used to build concrete test states). -/
def mkPlayer (pid : Nat) (pname : String) (h : List Card) : Player :=
  { id := pid, name := pname, hand := h,
    knownCards := List.replicate h.length false, score := 0, totalScore := 0 }

/-- A lobby with Alice (1) and Bob (2). -/
def lobbyTwo : GameState :=
  (addPlayer 2 "Bob" (addPlayer 1 "Alice" initialGame).2).2

/-- The round produced by a successful `startRound` on `lobbyTwo` with the
identity shuffle. -/
def roundStart : GameState :=
  match startRound id lobbyTwo with
  | some (_, s) => s
  | none => initialGame

/-- `roundStart` after Alice draws from the deck. -/
def afterDraw : GameState :=
  match drawFromDeck id roundStart with
  | some (_, s) => s
  | none => initialGame

/-- The action result of that deck draw. -/
def drawRes : ActionResult :=
  match drawFromDeck id roundStart with
  | some (r, _) => r
  | none => { success := false }

/-- A match state holding a pending Draw-Two over an exhausted deck and empty
discard: `useDraw2` from here returns a failure that has already mutated. -/
def d2FailState : GameState :=
  { players := [mkPlayer 1 "Alice"
        [Card.number 1, Card.number 2, Card.number 3, Card.number 4],
      mkPlayer 2 "Bob"
        [Card.number 5, Card.number 6, Card.number 7, Card.number 8]]
    deck := []
    discardPile := []
    currentPlayerIndex := 0
    drawnCard := some Card.draw2
    drawnFromDiscard := false
    gameStarted := true
    roundEnded := false
    knockerId := none
    finalRoundActive := false
    playersCompletedFinalTurn := 0
    draw2ChainActive := false
    draw2CardsRemaining := 0 }

/-- A match state with a pending Draw-Two whose deck ends in two further
Draw-Twos: after the chained Draw-Two, the next drawn card is again a Draw-Two
and becomes the pending card unchecked. -/
def chainState : GameState :=
  { players := [mkPlayer 1 "Alice"
        [Card.number 1, Card.number 2, Card.number 3, Card.number 4],
      mkPlayer 2 "Bob"
        [Card.number 5, Card.number 6, Card.number 7, Card.number 8]]
    deck := [Card.number 3, Card.draw2, Card.draw2]
    discardPile := [Card.number 5]
    currentPlayerIndex := 0
    drawnCard := some Card.draw2
    drawnFromDiscard := false
    gameStarted := true
    roundEnded := false
    knockerId := none
    finalRoundActive := false
    playersCompletedFinalTurn := 0
    draw2ChainActive := false
    draw2CardsRemaining := 0 }

/-- A final-round state (Bob knocked) where Alice holds a pending Swap and her
slot 0 is a Peek card: the swap completes the round and the end-of-round sweep
rewrites the freshly swapped slot. -/
def swapFinalState : GameState :=
  { players := [mkPlayer 1 "Alice"
        [Card.peek, Card.number 1, Card.number 2, Card.number 3],
      mkPlayer 2 "Bob"
        [Card.number 5, Card.number 6, Card.number 7, Card.number 8]]
    deck := [Card.number 9]
    discardPile := [Card.number 4]
    currentPlayerIndex := 0
    drawnCard := some Card.swap
    drawnFromDiscard := false
    gameStarted := true
    roundEnded := false
    knockerId := some 2
    finalRoundActive := true
    playersCompletedFinalTurn := 0
    draw2ChainActive := false
    draw2CardsRemaining := 0 }

/-- A three-player mid-round state about to be hit by knock + removal. -/
def knockBase : GameState :=
  { players := [mkPlayer 1 "Kay"
        [Card.number 1, Card.number 1, Card.number 1, Card.number 1],
      mkPlayer 2 "Ann"
        [Card.number 2, Card.number 2, Card.number 2, Card.number 2],
      mkPlayer 3 "Ben"
        [Card.number 3, Card.number 3, Card.number 3, Card.number 3]]
    deck := [Card.number 5, Card.number 6]
    discardPile := [Card.number 7]
    currentPlayerIndex := 0
    drawnCard := none
    drawnFromDiscard := false
    gameStarted := true
    roundEnded := false
    knockerId := none
    finalRoundActive := false
    playersCompletedFinalTurn := 0
    draw2ChainActive := false
    draw2CardsRemaining := 0 }

/-- A mid-round state used to exercise the projection. -/
def viewStateA : GameState :=
  { players := [mkPlayer 1 "Alice"
        [Card.number 1, Card.number 2, Card.number 3, Card.number 4],
      mkPlayer 2 "Bob"
        [Card.number 5, Card.number 6, Card.number 7, Card.number 8]]
    deck := [Card.number 9]
    discardPile := [Card.number 4]
    currentPlayerIndex := 0
    drawnCard := some (Card.number 9)
    drawnFromDiscard := false
    gameStarted := true
    roundEnded := false
    knockerId := none
    finalRoundActive := false
    playersCompletedFinalTurn := 0
    draw2ChainActive := false
    draw2CardsRemaining := 0 }

/-- `viewStateA` with every card of Bob's hand changed. -/
def viewStateB : GameState :=
  { viewStateA with
      players := [mkPlayer 1 "Alice"
          [Card.number 1, Card.number 2, Card.number 3, Card.number 4],
        mkPlayer 2 "Bob"
          [Card.number 0, Card.number 0, Card.number 0, Card.number 0]] }

/-- Alice about to be scored: a hidden Peek in slot 0. -/
def scoreAlice : Player :=
  { id := 1
    name := "Alice"
    hand := [Card.peek, Card.number 2]
    knownCards := [false, false]
    score := 0
    totalScore := 10 }

/-- Bob about to be scored: a hidden Swap in slot 1, slot 0 known. -/
def scoreBob : Player :=
  { id := 2
    name := "Bob"
    hand := [Card.number 3, Card.swap]
    knownCards := [true, false]
    score := 0
    totalScore := 0 }

/-- A round ready to be scored: a Peek in Alice's hand and a Swap in Bob's,
with the deck holding replacements. -/
def scoreState : GameState :=
  { players := [scoreAlice, scoreBob]
    deck := [Card.number 7, Card.addcard, Card.number 5]
    discardPile := [Card.number 4]
    currentPlayerIndex := 0
    drawnCard := none
    drawnFromDiscard := false
    gameStarted := true
    roundEnded := false
    knockerId := none
    finalRoundActive := false
    playersCompletedFinalTurn := 0
    draw2ChainActive := false
    draw2CardsRemaining := 0 }

/-- `scoreState` after its round is scored by `endRound`. -/
def scoredState : GameState := endRound id scoreState

/-- The result/state pair of `useDraw2` on `d2FailState` (the failing call that
has already mutated). -/
def d2FailOut : ActionResult × GameState :=
  match useDraw2 id d2FailState with
  | some p => p
  | none => ({ success := false }, d2FailState)

/-- The result/state pair of drawing from the deck again while a card is
already pending (a pure validation failure). -/
def redrawOut : ActionResult × GameState :=
  match drawFromDeck id afterDraw with
  | some p => p
  | none => ({ success := false }, afterDraw)

/-- The result/state pair of `useDraw2` on `chainState` (a chained Draw-Two
followed by an unchecked Draw-Two draw). -/
def chainOut : ActionResult × GameState :=
  match useDraw2 id chainState with
  | some p => p
  | none => ({ success := false }, chainState)

/-- The result/state pair of `useSwap(0, 2, 0)` on `swapFinalState` (a
successful swap whose `endTurn` immediately ends the round). -/
def swapOut : ActionResult × GameState :=
  match useSwap id 0 2 0 swapFinalState with
  | some p => p
  | none => ({ success := false }, swapFinalState)

/-- `swapFinalState` without the final round: a successful swap that does not
end the round. -/
def swapMidState : GameState :=
  { swapFinalState with knockerId := none, finalRoundActive := false }

/-- The result/state pair of `useSwap(0, 2, 0)` on `swapMidState`. -/
def swapMidOut : ActionResult × GameState :=
  match useSwap id 0 2 0 swapMidState with
  | some p => p
  | none => ({ success := false }, swapMidState)

/-- `knockBase` after Kay (id 1) knocks. -/
def knockOut1 : ActionResult × GameState :=
  match knock knockBase with
  | some p => p
  | none => ({ success := false }, knockBase)

/-- ... after Ann (id 2) draws from the deck. -/
def drawOut2 : ActionResult × GameState :=
  match drawFromDeck id knockOut1.2 with
  | some p => p
  | none => ({ success := false }, knockOut1.2)

/-- ... after Ann discards the drawn card, passing the turn to Ben. -/
def discOut3 : ActionResult × GameState :=
  match discardDrawnCard id drawOut2.2 with
  | some p => p
  | none => ({ success := false }, drawOut2.2)

/-- ... after Ann (id 2) is removed: `removePlayer` resets the index to 0,
which is the knocker Kay. -/
def removedS4 : GameState := (removePlayer 2 discOut3.2).2

/-- The knock-exclusion invariant: while the final round is active and the
round has not ended, the current player is never the knocker `kid`. -/
def KnockInv (kid : Nat) (s : GameState) : Prop :=
  s.finalRoundActive = true ∧ s.knockerId = some kid ∧
    (s.roundEnded = false → ∀ p, s.players[s.currentPlayerIndex]? = some p →
      p.id ≠ kid)

/-- The turn-index sanity invariant: whenever players remain, the current
player index is in range. -/
def IdxOk (s : GameState) : Prop :=
  s.players ≠ [] → s.currentPlayerIndex < s.players.length

/-- The inductive strengthening of `IdxOk`: the index is 0 (the reset value,
also held by the empty lobby) or strictly in range. -/
def IdxInv (s : GameState) : Prop :=
  s.currentPlayerIndex = 0 ∨ s.currentPlayerIndex < s.players.length

/-- Card conservation (with the pending card counted) holds until the round
ends. -/
def PotFull (s : GameState) : Prop :=
  s.roundEnded = false → potCards s = fullDeckCards

attribute [ext] GameState Player ActionResult

/-- Length-preserving restatement of the shuffle hypothesis. -/
def shuffleLen (sh : Shuffle) : Prop := ∀ l, (sh l).length = l.length

/-- Permutation shuffle hypothesis: the Fisher-Yates shuffle permutes. -/
def shufflePerm (sh : Shuffle) : Prop := ∀ l, (sh l).Perm l

theorem shufflePerm.len {sh : Shuffle} (h : shufflePerm sh) : shuffleLen sh :=
  fun l => (h l).length_eq

theorem shufflePerm_id : shufflePerm id := fun _ => List.Perm.refl _

theorem dropLast_append_getLast? {α : Type} {l : List α} {c : α}
    (h : l.getLast? = some c) : l.dropLast ++ [c] = l := by
  cases l with
  | nil => simp at h
  | cons a as =>
    have hne : (a :: as) ≠ ([] : List α) := by simp
    rw [List.getLast?_eq_getLast (a :: as) hne] at h
    have hc : (a :: as).getLast hne = c := by injection h
    rw [← hc]
    exact List.dropLast_append_getLast hne

theorem coe_dropLast_add_getLast? {α : Type} {l : List α} {c : α}
    (h : l.getLast? = some c) :
    (l.dropLast : Multiset α) + {c} = (l : Multiset α) := by
  have h1 := dropLast_append_getLast? h
  calc (l.dropLast : Multiset α) + {c}
      = ((l.dropLast ++ [c] : List α) : Multiset α) := by
        rw [← Multiset.coe_add]; rfl
    _ = (l : Multiset α) := by rw [h1]

theorem coe_set_add_getD {α : Type} :
    ∀ (l : List α) (i : Nat) (c d : α), i < l.length →
      ((l.set i c : List α) : Multiset α) + {l.getD i d} = (l : Multiset α) + {c}
  | [], i, c, d, h => by simp at h
  | a :: as, 0, c, d, _ => by
      have l1 : (a :: as).set 0 c = c :: as := rfl
      have l2 : (a :: as).getD 0 d = a := rfl
      rw [l1, l2]
      have e1 : ((c :: as : List α) : Multiset α) = c ::ₘ (as : Multiset α) := rfl
      have e2 : ((a :: as : List α) : Multiset α) = a ::ₘ (as : Multiset α) := rfl
      rw [e1, e2, Multiset.cons_add, Multiset.cons_add]
      have e3 : (as : Multiset α) + {a} = a ::ₘ (as : Multiset α) := by
        rw [add_comm, Multiset.singleton_add]
      have e4 : (as : Multiset α) + {c} = c ::ₘ (as : Multiset α) := by
        rw [add_comm, Multiset.singleton_add]
      rw [e3, e4, Multiset.cons_swap]
  | a :: as, i + 1, c, d, h => by
      have ih := coe_set_add_getD as i c d (by simpa using h)
      have l1 : (a :: as).set (i + 1) c = a :: as.set i c := rfl
      have l2 : (a :: as).getD (i + 1) d = as.getD i d := rfl
      rw [l1, l2]
      have e1 : ((a :: as.set i c : List α) : Multiset α)
          = a ::ₘ ((as.set i c : List α) : Multiset α) := rfl
      have e2 : ((a :: as : List α) : Multiset α) = a ::ₘ (as : Multiset α) := rfl
      rw [e1, e2, Multiset.cons_add, Multiset.cons_add, ih]

theorem getLast?_eq_none_iff_nil {α : Type} {l : List α} :
    l.getLast? = none ↔ l = [] := by
  cases l with
  | nil => simp
  | cons a as => simp [List.getLast?_eq_getLast]

theorem reshufflePair_pot {sh : Shuffle} (hp : shufflePerm sh)
    (deck disc : List Card) :
    ((reshufflePair sh deck disc).1 : Multiset Card)
        + ((reshufflePair sh deck disc).2 : Multiset Card)
      = (deck : Multiset Card) + (disc : Multiset Card) := by
  unfold reshufflePair
  split
  · next hc =>
    cases hgl : disc.getLast? with
    | none => simp
    | some top =>
      simp only
      have h1 : ((sh disc.dropLast : List Card) : Multiset Card)
          = (disc.dropLast : Multiset Card) := Multiset.coe_eq_coe.mpr (hp _)
      have h2 : ((([top] : List Card)) : Multiset Card) = ({top} : Multiset Card) := rfl
      have h3 : (deck : Multiset Card) = 0 := by
        have hdeck : deck = [] := List.length_eq_zero.mp hc.1
        rw [hdeck]; rfl
      rw [h1, h2, h3, coe_dropLast_add_getLast? hgl]
      simp
  · rfl

theorem reshufflePair_fst_ne_nil {sh : Shuffle} (hlen : shuffleLen sh)
    {deck disc : List Card} (h : deck ≠ [] ∨ 2 ≤ disc.length) :
    (reshufflePair sh deck disc).1 ≠ [] := by
  unfold reshufflePair
  split
  · next hc =>
    cases hgl : disc.getLast? with
    | none =>
      exfalso
      have hdisc : disc = [] := getLast?_eq_none_iff_nil.mp hgl
      rw [hdisc] at hc
      simp at hc
    | some top =>
      simp only
      intro hnil
      have hl := hlen disc.dropLast
      rw [hnil] at hl
      simp at hl
      have hdl : disc.dropLast.length = disc.length - 1 := List.length_dropLast disc
      omega
  · next hc =>
    rcases h with h | h
    · exact h
    · intro hnil
      apply hc
      refine ⟨?_, by omega⟩
      show deck.length = 0
      simp only at hnil
      rw [hnil]
      rfl

theorem drawCardL_none {sh : Shuffle} (hlen : shuffleLen sh)
    {deck disc d' p' : List Card}
    (h : drawCardL sh deck disc = (none, d', p')) :
    d' = deck ∧ p' = disc ∧ deck = [] ∧ disc.length ≤ 1 := by
  by_cases hok : deck ≠ [] ∨ 2 ≤ disc.length
  · exfalso
    have hne := reshufflePair_fst_ne_nil hlen hok
    cases hgl : (reshufflePair sh deck disc).1.getLast? with
    | none => exact hne (getLast?_eq_none_iff_nil.mp hgl)
    | some c =>
      unfold drawCardL at h
      rw [hgl] at h
      simp at h
  · push_neg at hok
    obtain ⟨hd, hl⟩ := hok
    have hdeck : deck = [] := hd
    have hrs : reshufflePair sh deck disc = (deck, disc) := by
      unfold reshufflePair
      rw [if_neg]
      intro hc
      omega
    unfold drawCardL at h
    rw [hrs, hdeck] at h
    simp only [List.getLast?] at h
    injection h with h1 h2
    injection h2 with h2 h3
    exact ⟨hdeck ▸ h2.symm, h3.symm, hdeck, by omega⟩

theorem drawCardL_pot {sh : Shuffle} (hp : shufflePerm sh)
    {deck disc : List Card} {c? : Option Card} {d' p' : List Card}
    (h : drawCardL sh deck disc = (c?, d', p')) :
    (d' : Multiset Card) + (p' : Multiset Card) + pendingCards c?
      = (deck : Multiset Card) + (disc : Multiset Card) := by
  have hpair := reshufflePair_pot hp deck disc
  unfold drawCardL at h
  cases hgl : (reshufflePair sh deck disc).1.getLast? with
  | none =>
    rw [hgl] at h
    injection h with h1 h2
    injection h2 with h2 h3
    subst h1; subst h2; subst h3
    simpa [pendingCards] using hpair
  | some c =>
    rw [hgl] at h
    injection h with h1 h2
    injection h2 with h2 h3
    subst h1; subst h2; subst h3
    simp only [pendingCards]
    have hdl := coe_dropLast_add_getLast? hgl
    calc ((reshufflePair sh deck disc).1.dropLast : Multiset Card)
          + ((reshufflePair sh deck disc).2 : Multiset Card) + {c}
        = ((reshufflePair sh deck disc).1.dropLast : Multiset Card) + {c}
          + ((reshufflePair sh deck disc).2 : Multiset Card) := add_right_comm _ _ _
      _ = ((reshufflePair sh deck disc).1 : Multiset Card)
          + ((reshufflePair sh deck disc).2 : Multiset Card) := by rw [hdl]
      _ = (deck : Multiset Card) + (disc : Multiset Card) := hpair

theorem drawCardL_isSome {sh : Shuffle} (hlen : shuffleLen sh)
    {deck disc : List Card} (h : deck ≠ [] ∨ 2 ≤ disc.length) :
    ∃ c d' p', drawCardL sh deck disc = (some c, d', p') := by
  have hne := reshufflePair_fst_ne_nil hlen h
  cases hgl : (reshufflePair sh deck disc).1.getLast? with
  | none => exact absurd (getLast?_eq_none_iff_nil.mp hgl) hne
  | some c =>
    refine ⟨c, (reshufflePair sh deck disc).1.dropLast, (reshufflePair sh deck disc).2, ?_⟩
    unfold drawCardL
    rw [hgl]


theorem tripleEta (t : Option Card × List Card × List Card) :
    t = (t.1, t.2.1, t.2.2) := rfl

theorem drawCard_eq (sh : Shuffle) (s : GameState) :
    drawCard sh s =
      ((drawCardL sh s.deck s.discardPile).1,
       { s with deck := (drawCardL sh s.deck s.discardPile).2.1,
                discardPile := (drawCardL sh s.deck s.discardPile).2.2 }) := by
  unfold drawCard
  cases h : drawCardL sh s.deck s.discardPile with
  | mk c? rest =>
    cases rest with
    | mk d dp => rfl

theorem drawCard_none_eq {sh : Shuffle} (hlen : shuffleLen sh) {s s' : GameState}
    (h : drawCard sh s = (none, s')) : s' = s := by
  have heq := drawCard_eq sh s
  rw [h] at heq
  injection heq with h1 h2
  have hx : drawCardL sh s.deck s.discardPile
      = (none, (drawCardL sh s.deck s.discardPile).2.1,
         (drawCardL sh s.deck s.discardPile).2.2) := by
    conv_lhs => rw [tripleEta (drawCardL sh s.deck s.discardPile)]
    rw [← h1]
  obtain ⟨hd, hp, _, _⟩ := drawCardL_none hlen hx
  rw [h2, hd, hp]

theorem drawCard_pot {sh : Shuffle} (hp : shufflePerm sh) {s : GameState}
    {c? : Option Card} {s' : GameState} (h : drawCard sh s = (c?, s')) :
    (s'.deck : Multiset Card) + (s'.discardPile : Multiset Card) + pendingCards c?
        = (s.deck : Multiset Card) + (s.discardPile : Multiset Card)
      ∧ s'.players = s.players ∧ s'.currentPlayerIndex = s.currentPlayerIndex
      ∧ s'.drawnCard = s.drawnCard ∧ s'.drawnFromDiscard = s.drawnFromDiscard
      ∧ s'.gameStarted = s.gameStarted ∧ s'.roundEnded = s.roundEnded
      ∧ s'.knockerId = s.knockerId ∧ s'.finalRoundActive = s.finalRoundActive
      ∧ s'.playersCompletedFinalTurn = s.playersCompletedFinalTurn
      ∧ s'.draw2ChainActive = s.draw2ChainActive
      ∧ s'.draw2CardsRemaining = s.draw2CardsRemaining := by
  have heq := drawCard_eq sh s
  rw [h] at heq
  injection heq with h1 h2
  have hx : drawCardL sh s.deck s.discardPile
      = (c?, (drawCardL sh s.deck s.discardPile).2.1,
         (drawCardL sh s.deck s.discardPile).2.2) := by
    conv_lhs => rw [tripleEta (drawCardL sh s.deck s.discardPile)]
    rw [← h1]
  have hpot := drawCardL_pot hp hx
  rw [h2]
  exact ⟨hpot, rfl, rfl, rfl, rfl, rfl, rfl, rfl, rfl, rfl, rfl, rfl⟩

theorem drawCard_some_of {sh : Shuffle} (hlen : shuffleLen sh) {s : GameState}
    (h : s.deck ≠ [] ∨ 2 ≤ s.discardPile.length) :
    ∃ c s', drawCard sh s = (some c, s') := by
  obtain ⟨c, d', p', hc⟩ := drawCardL_isSome hlen h
  refine ⟨c, { s with deck := d', discardPile := p' }, ?_⟩
  rw [drawCard_eq, hc]

theorem nextIndexLoop_spec {players : List Player} {skipP : Player → Bool} :
    ∀ {fuel idx i : Nat}, nextIndexLoop players skipP idx fuel = some i →
      i < players.length ∧ ∀ p, players[i]? = some p → skipP p = false := by
  intro fuel
  induction fuel with
  | zero => intro idx i h; simp [nextIndexLoop] at h
  | succ n ih =>
    intro idx i h
    unfold nextIndexLoop at h
    split at h
    · exact absurd h (by simp)
    · next hlen0 =>
      have hlt : (idx + 1) % players.length < players.length :=
        Nat.mod_lt _ (Nat.pos_of_ne_zero (by omega))
      cases hg : players[(idx + 1) % players.length]? with
      | none =>
        rw [hg] at h
        exact absurd h (by simp)
      | some p =>
        rw [hg] at h
        dsimp only at h
        by_cases hsk : skipP p
        · rw [if_pos hsk] at h
          exact ih h
        · rw [if_neg hsk] at h
          injection h with h
          subst h
          refine ⟨hlt, ?_⟩
          intro q hq
          rw [hg] at hq
          injection hq with hq
          subst hq
          exact Bool.not_eq_true _ |>.mp hsk

theorem replaceHandLoop_nil (sh : Shuffle) (ks : List Bool) (deck disc : List Card) :
    replaceHandLoop sh [] ks deck disc = ([], ks, deck, disc) := by
  cases ks <;> rfl

theorem replaceHandLoop_cons (sh : Shuffle) (c : Card) (cs : List Card)
    (k : Bool) (ks : List Bool) (deck disc : List Card) :
    replaceHandLoop sh (c :: cs) (k :: ks) deck disc =
      ((replaceSlotLoop sh (deck.length + disc.length + 1) c k deck disc).1 ::
         (replaceHandLoop sh cs ks
           (replaceSlotLoop sh (deck.length + disc.length + 1) c k deck disc).2.2.1
           (replaceSlotLoop sh (deck.length + disc.length + 1) c k deck disc).2.2.2).1,
       (replaceSlotLoop sh (deck.length + disc.length + 1) c k deck disc).2.1 ::
         (replaceHandLoop sh cs ks
           (replaceSlotLoop sh (deck.length + disc.length + 1) c k deck disc).2.2.1
           (replaceSlotLoop sh (deck.length + disc.length + 1) c k deck disc).2.2.2).2.1,
       (replaceHandLoop sh cs ks
         (replaceSlotLoop sh (deck.length + disc.length + 1) c k deck disc).2.2.1
         (replaceSlotLoop sh (deck.length + disc.length + 1) c k deck disc).2.2.2).2.2) := rfl

theorem replaceHandLoop_len (sh : Shuffle) :
    ∀ (cs : List Card) (ks : List Bool) (deck disc : List Card),
      (replaceHandLoop sh cs ks deck disc).1.length = cs.length ∧
      (replaceHandLoop sh cs ks deck disc).2.1.length = ks.length
  | [], ks, deck, disc => by rw [replaceHandLoop_nil]; exact ⟨rfl, rfl⟩
  | c :: cs, [], deck, disc => ⟨rfl, rfl⟩
  | c :: cs, k :: ks, deck, disc => by
    rw [replaceHandLoop_cons]
    have ih := replaceHandLoop_len sh cs ks
      (replaceSlotLoop sh (deck.length + disc.length + 1) c k deck disc).2.2.1
      (replaceSlotLoop sh (deck.length + disc.length + 1) c k deck disc).2.2.2
    exact ⟨by simp [ih.1], by simp [ih.2]⟩

theorem endRoundPlayers_cons (sh : Shuffle) (p : Player) (ps : List Player)
    (deck disc : List Card) :
    endRoundPlayers sh (p :: ps) deck disc =
      ({ p with
           hand := (replaceHandLoop sh p.hand p.knownCards deck disc).1,
           knownCards := (replaceHandLoop sh p.hand p.knownCards deck disc).2.1,
           score := handPoints (replaceHandLoop sh p.hand p.knownCards deck disc).1,
           totalScore := p.totalScore
             + handPoints (replaceHandLoop sh p.hand p.knownCards deck disc).1 } ::
         (endRoundPlayers sh ps
           (replaceHandLoop sh p.hand p.knownCards deck disc).2.2.1
           (replaceHandLoop sh p.hand p.knownCards deck disc).2.2.2).1,
       (endRoundPlayers sh ps
         (replaceHandLoop sh p.hand p.knownCards deck disc).2.2.1
         (replaceHandLoop sh p.hand p.knownCards deck disc).2.2.2).2) := rfl

theorem endRoundPlayers_len (sh : Shuffle) :
    ∀ (ps : List Player) (deck disc : List Card),
      (endRoundPlayers sh ps deck disc).1.length = ps.length
  | [], _, _ => rfl
  | p :: ps, deck, disc => by
    rw [endRoundPlayers_cons]
    simp only [List.length_cons]
    rw [endRoundPlayers_len sh ps]

theorem endRound_players_eq (sh : Shuffle) (s : GameState) :
    (endRound sh s).players = (endRoundPlayers sh s.players s.deck s.discardPile).1 := rfl

theorem endRound_flag_eq (sh : Shuffle) (s : GameState) :
    (endRound sh s).roundEnded = true ∧
    (endRound sh s).currentPlayerIndex = s.currentPlayerIndex ∧
    (endRound sh s).drawnCard = s.drawnCard ∧
    (endRound sh s).drawnFromDiscard = s.drawnFromDiscard ∧
    (endRound sh s).gameStarted = s.gameStarted ∧
    (endRound sh s).knockerId = s.knockerId ∧
    (endRound sh s).finalRoundActive = s.finalRoundActive ∧
    (endRound sh s).playersCompletedFinalTurn = s.playersCompletedFinalTurn ∧
    (endRound sh s).draw2ChainActive = s.draw2ChainActive ∧
    (endRound sh s).draw2CardsRemaining = s.draw2CardsRemaining :=
  ⟨rfl, rfl, rfl, rfl, rfl, rfl, rfl, rfl, rfl, rfl⟩

theorem endRound_players_len (sh : Shuffle) (s : GameState) :
    (endRound sh s).players.length = s.players.length := by
  rw [endRound_players_eq, endRoundPlayers_len]

theorem endTurnAdvance_eq_some {s s' : GameState} (h : endTurnAdvance s = some s') :
    ∃ i, i < s.players.length ∧ s' = { s with currentPlayerIndex := i } ∧
      ∀ p, s.players[i]? = some p →
        (s.finalRoundActive && s.knockerId == some p.id) = false := by
  unfold endTurnAdvance at h
  cases hnx : nextIndexLoop s.players
      (fun p => s.finalRoundActive && s.knockerId == some p.id)
      s.currentPlayerIndex s.players.length with
  | none => rw [hnx] at h; exact absurd h (by simp)
  | some i =>
    rw [hnx] at h
    injection h with h
    obtain ⟨hlt, hsk⟩ := nextIndexLoop_spec hnx
    exact ⟨i, hlt, h.symm, hsk⟩

theorem endTurn_cases {sh : Shuffle} {s s' : GameState} (h : endTurn sh s = some s') :
    (∃ i, i < s.players.length ∧
        s' = { s with
                 drawnCard := none
                 drawnFromDiscard := false
                 playersCompletedFinalTurn :=
                   if s.finalRoundActive then s.playersCompletedFinalTurn + 1
                   else s.playersCompletedFinalTurn
                 currentPlayerIndex := i } ∧
        (s.finalRoundActive = true → ∀ p, s.players[i]? = some p →
           (s.knockerId == some p.id) = false))
  ∨ (s.finalRoundActive = true ∧
       s' = endRound sh { s with
                            drawnCard := none
                            drawnFromDiscard := false
                            playersCompletedFinalTurn :=
                              s.playersCompletedFinalTurn + 1 }) := by
  unfold endTurn at h
  by_cases hf : s.finalRoundActive
  · rw [if_pos hf] at h
    by_cases hc : s.players.length - 1 ≤ s.playersCompletedFinalTurn + 1
    · rw [if_pos hc] at h
      injection h with h
      right
      refine ⟨hf, ?_⟩
      rw [← h]
      rfl
    · rw [if_neg hc] at h
      obtain ⟨i, hlt, heq, hsk⟩ := endTurnAdvance_eq_some h
      left
      refine ⟨i, by simpa [bumpFinal, clearPending] using hlt, ?_, ?_⟩
      · rw [heq]
        simp only [bumpFinal, clearPending]
        rw [if_pos hf]
      · intro _ p hp
        have := hsk p (by simpa [bumpFinal, clearPending] using hp)
        simpa [bumpFinal, clearPending, hf] using this
  · rw [if_neg hf] at h
    obtain ⟨i, hlt, heq, hsk⟩ := endTurnAdvance_eq_some h
    left
    refine ⟨i, by simpa [clearPending] using hlt, ?_, ?_⟩
    · rw [heq]
      simp only [clearPending]
      rw [if_neg hf]
    · intro hfa
      exact absurd hfa (by simpa using hf)

theorem someProdInj {α β : Type} {a : α} {b : β} {r : α} {t : β}
    (h : some (a, b) = some (r, t)) : r = a ∧ t = b := by
  injection h with h
  injection h with h1 h2
  exact ⟨h1.symm, h2.symm⟩

theorem drawFromDiscardPile_fail {s : GameState} {r : ActionResult} {s' : GameState}
    (h : drawFromDiscardPile s = some (r, s')) (hf : r.success = false) : s' = s := by
  unfold drawFromDiscardPile at h
  split at h
  · exact (someProdInj h).2
  · split at h
    · exact (someProdInj h).2
    · split at h
      · exact absurd h (by simp)
      · next c hgl =>
        split at h
        · obtain ⟨hr, hs⟩ := someProdInj h
          rw [hs, dropLast_append_getLast? hgl]
        · obtain ⟨hr, hs⟩ := someProdInj h
          rw [hr] at hf
          simp [okRes] at hf

theorem drawFromDeck_fail {sh : Shuffle} (hlen : shuffleLen sh)
    {s : GameState} {r : ActionResult} {s' : GameState}
    (h : drawFromDeck sh s = some (r, s')) (hf : r.success = false) : s' = s := by
  unfold drawFromDeck at h
  split at h
  · exact (someProdInj h).2
  · split at h
    · next c? st hdc =>
      obtain ⟨hr, hs⟩ := someProdInj h
      rw [hs]
      exact drawCard_none_eq hlen hdc
    · obtain ⟨hr, hs⟩ := someProdInj h
      rw [hr] at hf
      simp [okRes] at hf

theorem replaceCardInHand_fail {sh : Shuffle} {i : Int}
    {s : GameState} {r : ActionResult} {s' : GameState}
    (h : replaceCardInHand sh i s = some (r, s')) (hf : r.success = false) : s' = s := by
  unfold replaceCardInHand at h
  dsimp only at h
  split at h
  · exact (someProdInj h).2
  · split at h
    · exact absurd h (by simp)
    · split at h
      · exact (someProdInj h).2
      · split at h
        · exact absurd h (by simp)
        · obtain ⟨hr, hs⟩ := someProdInj h
          rw [hr] at hf
          simp [okRes] at hf

theorem discardDrawnCard_fail {sh : Shuffle}
    {s : GameState} {r : ActionResult} {s' : GameState}
    (h : discardDrawnCard sh s = some (r, s')) (hf : r.success = false) : s' = s := by
  unfold discardDrawnCard at h
  dsimp only at h
  split at h
  · exact (someProdInj h).2
  · split at h
    · exact (someProdInj h).2
    · split at h
      · exact absurd h (by simp)
      · obtain ⟨hr, hs⟩ := someProdInj h
        rw [hr] at hf
        simp [okRes] at hf

theorem usePeek_fail {sh : Shuffle} {i : Int}
    {s : GameState} {r : ActionResult} {s' : GameState}
    (h : usePeek sh i s = some (r, s')) (hf : r.success = false) : s' = s := by
  unfold usePeek at h
  dsimp only at h
  split at h
  · split at h
    · exact absurd h (by simp)
    · split at h
      · exact (someProdInj h).2
      · split at h
        · exact absurd h (by simp)
        · obtain ⟨hr, hs⟩ := someProdInj h
          rw [hr] at hf
          simp [okRes] at hf
  · exact (someProdInj h).2

theorem useSwap_fail {sh : Shuffle} {m : Int} {oid : Nat} {oi : Int}
    {s : GameState} {r : ActionResult} {s' : GameState}
    (h : useSwap sh m oid oi s = some (r, s')) (hf : r.success = false) : s' = s := by
  unfold useSwap at h
  dsimp only at h
  split at h
  · split at h
    · exact absurd h (by simp)
    · split at h
      · exact (someProdInj h).2
      · split at h
        · exact absurd h (by simp)
        · split at h
          · exact (someProdInj h).2
          · split at h
            · exact (someProdInj h).2
            · split at h
              · exact (someProdInj h).2
              · split at h
                · exact absurd h (by simp)
                · obtain ⟨hr, hs⟩ := someProdInj h
                  rw [hr] at hf
                  simp [okRes] at hf
  · exact (someProdInj h).2

theorem declineSwap_fail {sh : Shuffle}
    {s : GameState} {r : ActionResult} {s' : GameState}
    (h : declineSwap sh s = some (r, s')) (hf : r.success = false) : s' = s := by
  unfold declineSwap at h
  dsimp only at h
  split at h
  · split at h
    · exact absurd h (by simp)
    · obtain ⟨hr, hs⟩ := someProdInj h
      rw [hr] at hf
      simp [okRes] at hf
  · exact (someProdInj h).2

theorem useDraw2_fail {sh : Shuffle}
    {s : GameState} {r : ActionResult} {s' : GameState}
    (h : useDraw2 sh s = some (r, s')) (hf : r.success = false) :
    s' = s ∨ r.error = some "Deck empty" := by
  unfold useDraw2 at h
  dsimp only at h
  split at h
  · split at h
    · split at h
      · exact absurd h (by simp)
      · obtain ⟨hr, hs⟩ := someProdInj h
        right
        rw [hr]
        rfl
    · split at h
      · obtain ⟨hr, hs⟩ := someProdInj h
        rw [hr] at hf
        simp [okRes] at hf
      · obtain ⟨hr, hs⟩ := someProdInj h
        rw [hr] at hf
        simp [okRes] at hf
  · left
    exact (someProdInj h).2

theorem useAddCard_fail {sh : Shuffle}
    {s : GameState} {r : ActionResult} {s' : GameState}
    (h : useAddCard sh s = some (r, s')) (hf : r.success = false) : s' = s := by
  unfold useAddCard at h
  dsimp only at h
  split at h
  · split at h
    · exact absurd h (by simp)
    · split at h
      · exact absurd h (by simp)
      · obtain ⟨hr, hs⟩ := someProdInj h
        rw [hr] at hf
        simp [okRes] at hf
  · exact (someProdInj h).2

theorem knock_fail {s : GameState} {r : ActionResult} {s' : GameState}
    (h : knock s = some (r, s')) (hf : r.success = false) : s' = s := by
  unfold knock at h
  dsimp only at h
  split at h
  · exact (someProdInj h).2
  · split at h
    · exact absurd h (by simp)
    · split at h
      · obtain ⟨hr, hs⟩ := someProdInj h
        rw [hr] at hf
        simp [okRes] at hf
      · exact absurd h (by simp)

theorem handleDraw2Card_fail {sh : Shuffle} {a : D2Act}
    {s : GameState} {r : ActionResult} {s' : GameState}
    (h : handleDraw2Card sh a s = some (r, s')) (hf : r.success = false) :
    s' = s ∨ r.error = some "Deck empty" := by
  unfold handleDraw2Card at h
  dsimp only at h
  split at h
  · left
    exact (someProdInj h).2
  · split at h
    · next i =>
      split at h
      · exact absurd h (by simp)
      · next rr ss hrep =>
        split at h
        · next hsucc =>
          obtain ⟨hr, hs⟩ := someProdInj h
          rw [hr] at hf
          rw [hf] at hsucc
          exact absurd hsucc (by simp)
        · next hsucc =>
          obtain ⟨hr, hs⟩ := someProdInj h
          left
          rw [hs]
          exact replaceCardInHand_fail hrep (by rw [hr] at hf; exact hf)
    · split at h
      · exact absurd h (by simp)
      · split at h
        · split at h
          · split at h
            · exact absurd h (by simp)
            · obtain ⟨hr, hs⟩ := someProdInj h
              right
              rw [hr]
              rfl
          · split at h
            · obtain ⟨hr, hs⟩ := someProdInj h
              rw [hr] at hf
              simp [okRes] at hf
            · obtain ⟨hr, hs⟩ := someProdInj h
              rw [hr] at hf
              simp [okRes] at hf
        · split at h
          · exact absurd h (by simp)
          · obtain ⟨hr, hs⟩ := someProdInj h
            rw [hr] at hf
            simp [okRes] at hf
    · left
      exact (someProdInj h).2

theorem handsCards_set :
    ∀ {ps : List Player} {k : Nat} {p : Player}, ps[k]? = some p →
      ∀ p' : Player,
        handsCards (ps.set k p') + (p.hand : Multiset Card)
          = handsCards ps + (p'.hand : Multiset Card) := by
  intro ps
  induction ps with
  | nil => intro k p h; simp at h
  | cons q qs ih =>
    intro k p h p'
    cases k with
    | zero =>
      simp only [List.getElem?_cons_zero] at h
      injection h with h
      subst h
      show (p'.hand : Multiset Card) + handsCards qs + (q.hand : Multiset Card)
          = (q.hand : Multiset Card) + handsCards qs + (p'.hand : Multiset Card)
      abel
    | succ n =>
      have h' : qs[n]? = some p := by simpa using h
      have := ih h' p'
      show (q.hand : Multiset Card) + handsCards (qs.set n p')
            + (p.hand : Multiset Card)
          = (q.hand : Multiset Card) + handsCards qs + (p'.hand : Multiset Card)
      calc (q.hand : Multiset Card) + handsCards (qs.set n p') + (p.hand : Multiset Card)
          = (q.hand : Multiset Card) + (handsCards (qs.set n p') + (p.hand : Multiset Card)) := by abel
        _ = (q.hand : Multiset Card) + (handsCards qs + (p'.hand : Multiset Card)) := by rw [this]
        _ = (q.hand : Multiset Card) + handsCards qs + (p'.hand : Multiset Card) := by abel

theorem potCards_congr {t u : GameState} (hd : u.deck = t.deck)
    (hp : u.discardPile = t.discardPile) (hps : u.players = t.players)
    (hdc : u.drawnCard = t.drawnCard) : potCards u = potCards t := by
  simp [potCards, hd, hp, hps, hdc]

theorem coe_append_single (l : List Card) (c : Card) :
    ((l ++ [c] : List Card) : Multiset Card) = (l : Multiset Card) + {c} := by
  rw [← Multiset.coe_add]
  rfl

theorem pot_push_pending {t : GameState} {c : Card} (h : t.drawnCard = some c)
    {u : GameState} (hd : u.deck = t.deck)
    (hp : u.discardPile = t.discardPile ++ [c]) (hps : u.players = t.players)
    (hdc : u.drawnCard = none) : potCards u = potCards t := by
  show (u.deck : Multiset Card) + (u.discardPile : Multiset Card)
      + handsCards u.players + pendingCards u.drawnCard
    = (t.deck : Multiset Card) + (t.discardPile : Multiset Card)
      + handsCards t.players + pendingCards t.drawnCard
  rw [hd, hp, hps, hdc, h, coe_append_single]
  show _ + ((t.discardPile : Multiset Card) + {c}) + _ + 0 = _ + _ + _ + {c}
  abel

theorem endTurn_pot {sh : Shuffle} {s s' : GameState} (h : endTurn sh s = some s')
    (hnd : s.drawnCard = none) :
    (potCards s' = potCards s ∨ s'.roundEnded = true)
      ∧ (s.roundEnded = true → s'.roundEnded = true)
      ∧ s'.players.length = s.players.length := by
  rcases endTurn_cases h with ⟨i, hlt, heq, _⟩ | ⟨hfa, heq⟩
  · subst heq
    refine ⟨Or.inl ?_, fun ht => ht, rfl⟩
    exact potCards_congr rfl rfl rfl (by rw [hnd])
  · subst heq
    refine ⟨Or.inr rfl, fun _ => rfl, ?_⟩
    rw [endRound_players_len]

theorem not_isSome_eq_none {c : Option Card} (h : ¬ c.isSome = true) : c = none := by
  cases c with
  | none => rfl
  | some x => simp at h

theorem drawFromDiscardPile_pot {s : GameState} {r : ActionResult} {s' : GameState}
    (h : drawFromDiscardPile s = some (r, s')) :
    (potCards s' = potCards s ∨ s'.roundEnded = true)
      ∧ (s.roundEnded = true → s'.roundEnded = true) := by
  unfold drawFromDiscardPile at h
  dsimp only at h
  split at h
  · obtain ⟨hr, hs⟩ := someProdInj h
    subst hs
    exact ⟨Or.inl rfl, fun ht => ht⟩
  · next hnd =>
    split at h
    · obtain ⟨hr, hs⟩ := someProdInj h
      subst hs
      exact ⟨Or.inl rfl, fun ht => ht⟩
    · split at h
      · exact absurd h (by simp)
      · next c hgl =>
        split at h
        · obtain ⟨hr, hs⟩ := someProdInj h
          subst hs
          refine ⟨Or.inl ?_, fun ht => ht⟩
          exact potCards_congr rfl (dropLast_append_getLast? hgl) rfl rfl
        · obtain ⟨hr, hs⟩ := someProdInj h
          subst hs
          refine ⟨Or.inl ?_, fun ht => ht⟩
          have hn : s.drawnCard = none := not_isSome_eq_none hnd
          have key := coe_dropLast_add_getLast? hgl
          simp only [potCards, pendingCards, hn]
          rw [← key]
          abel

theorem drawFromDeck_pot {sh : Shuffle} (hp : shufflePerm sh)
    {s : GameState} {r : ActionResult} {s' : GameState}
    (h : drawFromDeck sh s = some (r, s')) :
    (potCards s' = potCards s ∨ s'.roundEnded = true)
      ∧ (s.roundEnded = true → s'.roundEnded = true) := by
  unfold drawFromDeck at h
  dsimp only at h
  split at h
  · obtain ⟨hr, hs⟩ := someProdInj h
    subst hs
    exact ⟨Or.inl rfl, fun ht => ht⟩
  · next hnd =>
    split at h
    · next c? st hdc =>
      obtain ⟨hr, hs⟩ := someProdInj h
      subst hs
      have := drawCard_none_eq hp.len hdc
      subst this
      exact ⟨Or.inl rfl, fun ht => ht⟩
    · next c st hdc =>
      obtain ⟨hr, hs⟩ := someProdInj h
      subst hs
      obtain ⟨hpot, hps, _, hdcd, _, _, hre, _, _, _, _, _⟩ := drawCard_pot hp hdc
      have hn : s.drawnCard = none := not_isSome_eq_none hnd
      refine ⟨Or.inl ?_, fun ht => by
        show st.roundEnded = true
        rw [hre]; exact ht⟩
      show (st.deck : Multiset Card) + (st.discardPile : Multiset Card)
          + handsCards st.players + pendingCards (some c)
        = (s.deck : Multiset Card) + (s.discardPile : Multiset Card)
          + handsCards s.players + pendingCards s.drawnCard
      rw [hn, hps]
      show (st.deck : Multiset Card) + (st.discardPile : Multiset Card)
          + handsCards s.players + pendingCards (some c) = _ + _ + _ + 0
      calc (st.deck : Multiset Card) + (st.discardPile : Multiset Card)
            + handsCards s.players + pendingCards (some c)
          = (st.deck : Multiset Card) + (st.discardPile : Multiset Card)
            + pendingCards (some c) + handsCards s.players := by abel
        _ = (s.deck : Multiset Card) + (s.discardPile : Multiset Card)
            + handsCards s.players := by rw [hpot]
        _ = (s.deck : Multiset Card) + (s.discardPile : Multiset Card)
            + handsCards s.players + 0 := by abel

theorem discardDrawnCard_pot {sh : Shuffle}
    {s : GameState} {r : ActionResult} {s' : GameState}
    (h : discardDrawnCard sh s = some (r, s')) :
    (potCards s' = potCards s ∨ s'.roundEnded = true)
      ∧ (s.roundEnded = true → s'.roundEnded = true) := by
  unfold discardDrawnCard at h
  dsimp only at h
  split at h
  · obtain ⟨hr, hs⟩ := someProdInj h
    subst hs
    exact ⟨Or.inl rfl, fun ht => ht⟩
  · next dc hdc =>
    split at h
    · obtain ⟨hr, hs⟩ := someProdInj h
      subst hs
      exact ⟨Or.inl rfl, fun ht => ht⟩
    · split at h
      · exact absurd h (by simp)
      · next s2 hET =>
        obtain ⟨hr, hs⟩ := someProdInj h
        subst hs
        obtain ⟨hpot2, hmono2, _⟩ := endTurn_pot hET rfl
        refine ⟨?_, fun ht => hmono2 ht⟩
        rcases hpot2 with h2 | h2
        · left
          rw [h2]
          exact pot_push_pending hdc rfl rfl rfl rfl
        · exact Or.inr h2

theorem usePeek_pot {sh : Shuffle} {i : Int}
    {s : GameState} {r : ActionResult} {s' : GameState}
    (h : usePeek sh i s = some (r, s')) :
    (potCards s' = potCards s ∨ s'.roundEnded = true)
      ∧ (s.roundEnded = true → s'.roundEnded = true) := by
  unfold usePeek at h
  dsimp only at h
  split at h
  · next hdc =>
    split at h
    · exact absurd h (by simp)
    · split at h
      · obtain ⟨hr, hs⟩ := someProdInj h
        subst hs
        exact ⟨Or.inl rfl, fun ht => ht⟩
      · split at h
        · exact absurd h (by simp)
        · next s2 hET =>
          obtain ⟨hr, hs⟩ := someProdInj h
          subst hs
          obtain ⟨hpot2, hmono2, _⟩ := endTurn_pot hET rfl
          refine ⟨?_, fun ht => hmono2 ht⟩
          rcases hpot2 with h2 | h2
          · left
            rw [h2]
            exact pot_push_pending hdc rfl rfl rfl rfl
          · exact Or.inr h2
  · obtain ⟨hr, hs⟩ := someProdInj h
    subst hs
    exact ⟨Or.inl rfl, fun ht => ht⟩

theorem declineSwap_pot {sh : Shuffle}
    {s : GameState} {r : ActionResult} {s' : GameState}
    (h : declineSwap sh s = some (r, s')) :
    (potCards s' = potCards s ∨ s'.roundEnded = true)
      ∧ (s.roundEnded = true → s'.roundEnded = true) := by
  unfold declineSwap at h
  dsimp only at h
  split at h
  · next hdc =>
    split at h
    · exact absurd h (by simp)
    · next s2 hET =>
      obtain ⟨hr, hs⟩ := someProdInj h
      subst hs
      obtain ⟨hpot2, hmono2, _⟩ := endTurn_pot hET rfl
      refine ⟨?_, fun ht => hmono2 ht⟩
      rcases hpot2 with h2 | h2
      · left
        rw [h2]
        exact pot_push_pending hdc rfl rfl rfl rfl
      · exact Or.inr h2
  · obtain ⟨hr, hs⟩ := someProdInj h
    subst hs
    exact ⟨Or.inl rfl, fun ht => ht⟩

theorem knock_pot {s : GameState} {r : ActionResult} {s' : GameState}
    (h : knock s = some (r, s')) (hnd : s.drawnCard = none) :
    (potCards s' = potCards s ∨ s'.roundEnded = true)
      ∧ (s.roundEnded = true → s'.roundEnded = true) := by
  unfold knock at h
  dsimp only at h
  split at h
  · obtain ⟨hr, hs⟩ := someProdInj h
    subst hs
    exact ⟨Or.inl rfl, fun ht => ht⟩
  · split at h
    · exact absurd h (by simp)
    · split at h
      · obtain ⟨hr, hs⟩ := someProdInj h
        subst hs
        refine ⟨Or.inl ?_, fun ht => ht⟩
        exact potCards_congr rfl rfl rfl (by rw [hnd])
      · exact absurd h (by simp)

theorem replaceCardInHand_pot {sh : Shuffle} {i : Int}
    {s : GameState} {r : ActionResult} {s' : GameState}
    (h : replaceCardInHand sh i s = some (r, s')) :
    (potCards s' = potCards s ∨ s'.roundEnded = true)
      ∧ (s.roundEnded = true → s'.roundEnded = true) := by
  unfold replaceCardInHand at h
  dsimp only at h
  split at h
  · obtain ⟨hr, hs⟩ := someProdInj h
    subst hs
    exact ⟨Or.inl rfl, fun ht => ht⟩
  · next dc hdc =>
    split at h
    · exact absurd h (by simp)
    · next p hp =>
      split at h
      · obtain ⟨hr, hs⟩ := someProdInj h
        subst hs
        exact ⟨Or.inl rfl, fun ht => ht⟩
      · next hidx =>
        split at h
        · exact absurd h (by simp)
        · next s2 hET =>
          obtain ⟨hr, hs⟩ := someProdInj h
          subst hs
          obtain ⟨hpot2, hmono2, _⟩ := endTurn_pot hET rfl
          refine ⟨?_, fun ht => hmono2 ht⟩
          rcases hpot2 with h2 | h2
          · left
            rw [h2]
            have hple : i.toNat < p.hand.length := by
              push_neg at hidx
              omega
            have hget : s.players[s.currentPlayerIndex]? = some p := hp
            have hhs := handsCards_set hget
              { p with hand := p.hand.set i.toNat dc }
            have hcs := coe_set_add_getD p.hand i.toNat dc (Card.number 0) hple
            simp only [potCards, pendingCards, hdc, coe_append_single]
            have hfin :
                (s.deck : Multiset Card)
                  + ((s.discardPile : Multiset Card)
                      + {p.hand.getD i.toNat (Card.number 0)})
                  + handsCards (s.players.set s.currentPlayerIndex
                      { p with hand := p.hand.set i.toNat dc })
                  + 0 + (p.hand : Multiset Card)
                = (s.deck : Multiset Card) + (s.discardPile : Multiset Card)
                  + handsCards s.players + {dc} + (p.hand : Multiset Card) := by
              calc (s.deck : Multiset Card)
                    + ((s.discardPile : Multiset Card)
                        + {p.hand.getD i.toNat (Card.number 0)})
                    + handsCards (s.players.set s.currentPlayerIndex
                        { p with hand := p.hand.set i.toNat dc })
                    + 0 + (p.hand : Multiset Card)
                  = (s.deck : Multiset Card) + (s.discardPile : Multiset Card)
                    + {p.hand.getD i.toNat (Card.number 0)}
                    + (handsCards (s.players.set s.currentPlayerIndex
                        { p with hand := p.hand.set i.toNat dc })
                      + (p.hand : Multiset Card)) := by abel
                _ = (s.deck : Multiset Card) + (s.discardPile : Multiset Card)
                    + {p.hand.getD i.toNat (Card.number 0)}
                    + (handsCards s.players
                      + ((p.hand.set i.toNat dc : List Card) : Multiset Card)) := by
                      rw [hhs]
                _ = (s.deck : Multiset Card) + (s.discardPile : Multiset Card)
                    + handsCards s.players
                    + (((p.hand.set i.toNat dc : List Card) : Multiset Card)
                      + {p.hand.getD i.toNat (Card.number 0)}) := by abel
                _ = (s.deck : Multiset Card) + (s.discardPile : Multiset Card)
                    + handsCards s.players
                    + ((p.hand : Multiset Card) + {dc}) := by rw [hcs]
                _ = (s.deck : Multiset Card) + (s.discardPile : Multiset Card)
                    + handsCards s.players + {dc} + (p.hand : Multiset Card) := by
                      abel
            exact add_right_cancel hfin
          · exact Or.inr h2

theorem swapPlayer_hand (pl : Player) (idx : Nat) (c : Card) :
    (swapPlayer pl idx c).hand = pl.hand.set idx c := rfl

theorem swap_hands_balance {p opp : Player} {mi oi : Nat}
    (hple : mi < p.hand.length) (hole : oi < opp.hand.length) :
    ((swapPlayer p mi (opp.hand.getD oi (Card.number 0))).hand : Multiset Card)
        + ((swapPlayer opp oi (p.hand.getD mi (Card.number 0))).hand : Multiset Card)
      = (p.hand : Multiset Card) + (opp.hand : Multiset Card) := by
  have hcs1 := coe_set_add_getD p.hand mi
    (opp.hand.getD oi (Card.number 0)) (Card.number 0) hple
  have hcs2 := coe_set_add_getD opp.hand oi
    (p.hand.getD mi (Card.number 0)) (Card.number 0) hole
  rw [swapPlayer_hand, swapPlayer_hand]
  have hfin :
      ((p.hand.set mi (opp.hand.getD oi (Card.number 0)) : List Card) : Multiset Card)
          + ((opp.hand.set oi (p.hand.getD mi (Card.number 0)) : List Card) : Multiset Card)
          + ({p.hand.getD mi (Card.number 0)} + {opp.hand.getD oi (Card.number 0)})
        = (p.hand : Multiset Card) + (opp.hand : Multiset Card)
          + ({p.hand.getD mi (Card.number 0)} + {opp.hand.getD oi (Card.number 0)}) := by
    calc ((p.hand.set mi (opp.hand.getD oi (Card.number 0)) : List Card) : Multiset Card)
          + ((opp.hand.set oi (p.hand.getD mi (Card.number 0)) : List Card) : Multiset Card)
          + ({p.hand.getD mi (Card.number 0)} + {opp.hand.getD oi (Card.number 0)})
        = (((p.hand.set mi (opp.hand.getD oi (Card.number 0)) : List Card) : Multiset Card)
            + {p.hand.getD mi (Card.number 0)})
          + (((opp.hand.set oi (p.hand.getD mi (Card.number 0)) : List Card) : Multiset Card)
            + {opp.hand.getD oi (Card.number 0)}) := by abel
      _ = ((p.hand : Multiset Card) + {opp.hand.getD oi (Card.number 0)})
          + ((opp.hand : Multiset Card) + {p.hand.getD mi (Card.number 0)}) := by
          rw [hcs1, hcs2]
      _ = (p.hand : Multiset Card) + (opp.hand : Multiset Card)
          + ({p.hand.getD mi (Card.number 0)} + {opp.hand.getD oi (Card.number 0)}) := by
          abel
  exact add_right_cancel hfin

theorem useSwap_pot {sh : Shuffle} {m : Int} {oid : Nat} {oi : Int}
    {s : GameState} {r : ActionResult} {s' : GameState}
    (h : useSwap sh m oid oi s = some (r, s')) :
    (potCards s' = potCards s ∨ s'.roundEnded = true)
      ∧ (s.roundEnded = true → s'.roundEnded = true) := by
  unfold useSwap at h
  dsimp only at h
  split at h
  · next hdc =>
    split at h
    · exact absurd h (by simp)
    · next p hp =>
      split at h
      · obtain ⟨hr, hs⟩ := someProdInj h
        subst hs
        exact ⟨Or.inl rfl, fun ht => ht⟩
      · next j hfj =>
        split at h
        · exact absurd h (by simp)
        · next opp hopp =>
          split at h
          · obtain ⟨hr, hs⟩ := someProdInj h
            subst hs
            exact ⟨Or.inl rfl, fun ht => ht⟩
          · next hne =>
            split at h
            · obtain ⟨hr, hs⟩ := someProdInj h
              subst hs
              exact ⟨Or.inl rfl, fun ht => ht⟩
            · next hm =>
              split at h
              · obtain ⟨hr, hs⟩ := someProdInj h
                subst hs
                exact ⟨Or.inl rfl, fun ht => ht⟩
              · next ho =>
                split at h
                · exact absurd h (by simp)
                · next s2 hET =>
                  obtain ⟨hr, hs⟩ := someProdInj h
                  subst hs
                  obtain ⟨hpot2, hmono2, _⟩ := endTurn_pot hET rfl
                  refine ⟨?_, fun ht => hmono2 ht⟩
                  rcases hpot2 with h2 | h2
                  · left
                    rw [h2]
                    have hcur : s.players[s.currentPlayerIndex]? = some p := hp
                    have hij : s.currentPlayerIndex ≠ j := by
                      intro heq
                      rw [heq, hopp] at hcur
                      injection hcur with hcur
                      exact hne (by rw [hcur])
                    have hple : m.toNat < p.hand.length := by push_neg at hm; omega
                    have hole : oi.toNat < opp.hand.length := by push_neg at ho; omega
                    have hcur2 : s.players[s.currentPlayerIndex]? = some p := hp
                    have hget2 : (s.players.set s.currentPlayerIndex
                        (swapPlayer p m.toNat
                          (opp.hand.getD oi.toNat (Card.number 0))))[j]? = some opp := by
                      rw [List.getElem?_set_ne hij]
                      exact hopp
                    have hhs2 := handsCards_set hget2
                      (swapPlayer opp oi.toNat (p.hand.getD m.toNat (Card.number 0)))
                    have hhs1 := handsCards_set hcur2
                      (swapPlayer p m.toNat (opp.hand.getD oi.toNat (Card.number 0)))
                    have hbal := swap_hands_balance hple hole
                    have hfin :
                        handsCards ((s.players.set s.currentPlayerIndex
                              (swapPlayer p m.toNat
                                (opp.hand.getD oi.toNat (Card.number 0)))).set j
                              (swapPlayer opp oi.toNat
                                (p.hand.getD m.toNat (Card.number 0))))
                            + ((opp.hand : Multiset Card) + (p.hand : Multiset Card))
                          = handsCards s.players
                            + ((opp.hand : Multiset Card) + (p.hand : Multiset Card)) := by
                      calc handsCards ((s.players.set s.currentPlayerIndex
                              (swapPlayer p m.toNat
                                (opp.hand.getD oi.toNat (Card.number 0)))).set j
                              (swapPlayer opp oi.toNat
                                (p.hand.getD m.toNat (Card.number 0))))
                            + ((opp.hand : Multiset Card) + (p.hand : Multiset Card))
                          = (handsCards ((s.players.set s.currentPlayerIndex
                              (swapPlayer p m.toNat
                                (opp.hand.getD oi.toNat (Card.number 0)))).set j
                              (swapPlayer opp oi.toNat
                                (p.hand.getD m.toNat (Card.number 0))))
                            + (opp.hand : Multiset Card)) + (p.hand : Multiset Card) := by
                            abel
                        _ = (handsCards (s.players.set s.currentPlayerIndex
                              (swapPlayer p m.toNat
                                (opp.hand.getD oi.toNat (Card.number 0))))
                            + ((swapPlayer opp oi.toNat
                                (p.hand.getD m.toNat (Card.number 0))).hand :
                                  Multiset Card)) + (p.hand : Multiset Card) := by
                            rw [hhs2]
                        _ = (handsCards (s.players.set s.currentPlayerIndex
                              (swapPlayer p m.toNat
                                (opp.hand.getD oi.toNat (Card.number 0))))
                            + (p.hand : Multiset Card))
                            + ((swapPlayer opp oi.toNat
                                (p.hand.getD m.toNat (Card.number 0))).hand :
                                  Multiset Card) := by abel
                        _ = (handsCards s.players
                            + ((swapPlayer p m.toNat
                                (opp.hand.getD oi.toNat (Card.number 0))).hand :
                                  Multiset Card))
                            + ((swapPlayer opp oi.toNat
                                (p.hand.getD m.toNat (Card.number 0))).hand :
                                  Multiset Card) := by rw [hhs1]
                        _ = handsCards s.players
                            + (((swapPlayer p m.toNat
                                (opp.hand.getD oi.toNat (Card.number 0))).hand :
                                  Multiset Card)
                              + ((swapPlayer opp oi.toNat
                                (p.hand.getD m.toNat (Card.number 0))).hand :
                                  Multiset Card)) := by abel
                        _ = handsCards s.players
                            + ((p.hand : Multiset Card) + (opp.hand : Multiset Card)) := by
                            rw [hbal]
                        _ = _ := by abel
                    have HH := add_right_cancel hfin
                    simp only [potCards, pendingCards, hdc, coe_append_single, HH]
                    abel
                  · exact Or.inr h2
  · obtain ⟨hr, hs⟩ := someProdInj h
    subst hs
    exact ⟨Or.inl rfl, fun ht => ht⟩

theorem pot_push_card {c : Card} {t u : GameState} (hd : u.deck = t.deck)
    (hpp : u.discardPile = t.discardPile ++ [c]) (hps : u.players = t.players)
    (hdc : u.drawnCard = t.drawnCard) : potCards u = potCards t + {c} := by
  show (u.deck : Multiset Card) + (u.discardPile : Multiset Card)
      + handsCards u.players + pendingCards u.drawnCard = potCards t + {c}
  rw [hd, hpp, hps, hdc, coe_append_single]
  show _ = (t.deck : Multiset Card) + (t.discardPile : Multiset Card)
      + handsCards t.players + pendingCards t.drawnCard + {c}
  abel

theorem pot_pending_opt {c? : Option Card} {t u : GameState} (hd : u.deck = t.deck)
    (hpp : u.discardPile = t.discardPile) (hps : u.players = t.players)
    (ht : t.drawnCard = none) (hu : u.drawnCard = c?) :
    potCards u = potCards t + pendingCards c? := by
  show (u.deck : Multiset Card) + (u.discardPile : Multiset Card)
      + handsCards u.players + pendingCards u.drawnCard = potCards t + pendingCards c?
  rw [hd, hpp, hps, hu]
  show _ = (t.deck : Multiset Card) + (t.discardPile : Multiset Card)
      + handsCards t.players + pendingCards t.drawnCard + pendingCards c?
  rw [ht]
  show _ + _ + _ + pendingCards c? = _ + _ + _ + 0 + pendingCards c?
  abel

theorem drawCard_pot_simple {sh : Shuffle} (hp : shufflePerm sh) {t : GameState}
    {c? : Option Card} {s2 : GameState} (h : drawCard sh t = (c?, s2)) :
    potCards s2 + pendingCards c? = potCards t
      ∧ s2.players = t.players ∧ s2.drawnCard = t.drawnCard
      ∧ s2.roundEnded = t.roundEnded
      ∧ s2.currentPlayerIndex = t.currentPlayerIndex
      ∧ s2.draw2ChainActive = t.draw2ChainActive
      ∧ s2.finalRoundActive = t.finalRoundActive := by
  obtain ⟨hpot, hps, hidx, hdcd, hfd, hgs, hre, hki, hfa, hct, hca, hrem⟩ :=
    drawCard_pot hp h
  refine ⟨?_, hps, hdcd, hre, hidx, hca, hfa⟩
  show (s2.deck : Multiset Card) + (s2.discardPile : Multiset Card)
      + handsCards s2.players + pendingCards s2.drawnCard + pendingCards c?
    = (t.deck : Multiset Card) + (t.discardPile : Multiset Card)
      + handsCards t.players + pendingCards t.drawnCard
  rw [hps, hdcd]
  calc (s2.deck : Multiset Card) + (s2.discardPile : Multiset Card)
      + handsCards t.players + pendingCards t.drawnCard + pendingCards c?
      = (s2.deck : Multiset Card) + (s2.discardPile : Multiset Card) + pendingCards c?
        + handsCards t.players + pendingCards t.drawnCard := by abel
    _ = (t.deck : Multiset Card) + (t.discardPile : Multiset Card)
        + handsCards t.players + pendingCards t.drawnCard := by rw [hpot]


theorem drawCard_disc_top (sh : Shuffle) (s : GameState) :
    ((drawCard sh s).2).discardPile.getLast? = s.discardPile.getLast? := by
  rw [drawCard_eq]
  show (drawCardL sh s.deck s.discardPile).2.2.getLast? = s.discardPile.getLast?
  unfold drawCardL
  cases hgl : (reshufflePair sh s.deck s.discardPile).1.getLast? <;>
    · show (reshufflePair sh s.deck s.discardPile).2.getLast? = s.discardPile.getLast?
      unfold reshufflePair
      split
      · cases hg2 : s.discardPile.getLast? with
        | none => exact hg2
        | some top => rfl
      · rfl

theorem chainDraw_spec {sh : Shuffle} (hp : shufflePerm sh) {t : GameState}
    (hnd : t.drawnCard = none) :
    potCards (chainDraw sh t).2 = potCards t + {Card.draw2}
      ∧ (chainDraw sh t).2.roundEnded = t.roundEnded
      ∧ (chainDraw sh t).1.success = true
      ∧ (chainDraw sh t).2.players = t.players
      ∧ (chainDraw sh t).2.draw2ChainActive = t.draw2ChainActive
      ∧ (chainDraw sh t).2.draw2CardsRemaining = 2
      ∧ (chainDraw sh t).2.currentPlayerIndex = t.currentPlayerIndex
      ∧ (chainDraw sh t).2.finalRoundActive = t.finalRoundActive
      ∧ (chainDraw sh t).2.knockerId = t.knockerId
      ∧ (chainDraw sh t).1.chaining = true := by
  unfold chainDraw
  cases hd : drawCard sh { t with discardPile := t.discardPile ++ [Card.draw2]
                                  drawnCard := none
                                  draw2CardsRemaining := 2 } with
  | mk c2? s4 =>
    dsimp only
    obtain ⟨hpot, hps, hdcd, hre, hidx, hca, hfa⟩ := drawCard_pot_simple hp hd
    obtain ⟨_, _, _, _, _, _, _, hki, _, _, _, hrem⟩ := drawCard_pot hp hd
    refine ⟨?_, hre, rfl, hps, hca, hrem, hidx, hfa, hki, rfl⟩
    have h1 : potCards { s4 with drawnCard := c2? } = potCards s4 + pendingCards c2? :=
      pot_pending_opt rfl rfl rfl (by rw [hdcd]) rfl
    have h2 : potCards { t with discardPile := t.discardPile ++ [Card.draw2]
                                drawnCard := none
                                draw2CardsRemaining := 2 }
        = potCards t + {Card.draw2} :=
      pot_push_card rfl rfl rfl (by rw [hnd])
    rw [h1, ← h2, ← hpot]

theorem chainDraw_pending {sh : Shuffle} (hlen : shuffleLen sh) {t : GameState}
    (hdisc : t.discardPile ≠ []) : (chainDraw sh t).2.drawnCard.isSome := by
  unfold chainDraw
  have hsome : ∃ c s', drawCard sh { t with discardPile := t.discardPile ++ [Card.draw2]
                                            drawnCard := none
                                            draw2CardsRemaining := 2 } = (some c, s') := by
    apply drawCard_some_of hlen
    right
    show 2 ≤ (t.discardPile ++ [Card.draw2]).length
    rw [List.length_append]
    have : t.discardPile.length ≠ 0 := by
      intro h0
      exact hdisc (List.length_eq_zero.mp h0)
    simp
    omega
  obtain ⟨c, st, hc⟩ := hsome
  rw [hc]
  rfl

theorem chainDraw_disc_top (sh : Shuffle) (t : GameState) :
    (chainDraw sh t).2.discardPile.getLast? = some Card.draw2 := by
  unfold chainDraw
  cases hd : drawCard sh { t with discardPile := t.discardPile ++ [Card.draw2]
                                  drawnCard := none
                                  draw2CardsRemaining := 2 } with
  | mk c2? s4 =>
    dsimp only
    have := drawCard_disc_top sh { t with discardPile := t.discardPile ++ [Card.draw2]
                                          drawnCard := none
                                          draw2CardsRemaining := 2 }
    rw [hd] at this
    show s4.discardPile.getLast? = some Card.draw2
    rw [this]
    show (t.discardPile ++ [Card.draw2]).getLast? = some Card.draw2
    simp

theorem useDraw2_pot {sh : Shuffle} (hp : shufflePerm sh)
    {s : GameState} {r : ActionResult} {s' : GameState}
    (h : useDraw2 sh s = some (r, s')) :
    (potCards s' = potCards s ∨ s'.roundEnded = true)
      ∧ (s.roundEnded = true → s'.roundEnded = true) := by
  unfold useDraw2 at h
  dsimp only at h
  split at h
  · next hdc =>
    split at h
    · next s2 hdc1 =>
      split at h
      · exact absurd h (by simp)
      · next s4 hET =>
        obtain ⟨hr, hs⟩ := someProdInj h
        subst hs
        obtain ⟨hpot1, hps1, hdcd1, hre1, _, _, _⟩ := drawCard_pot_simple hp hdc1
        obtain ⟨hpot2, hmono2, _⟩ := endTurn_pot hET
          (by show s2.drawnCard = none; rw [hdcd1])
        refine ⟨?_, ?_⟩
        · rcases hpot2 with h2 | h2
          · left
            rw [h2]
            have e1 : potCards { s2 with draw2ChainActive := false } = potCards s2 :=
              potCards_congr rfl rfl rfl rfl
            have e3 := hpot1
            rw [show pendingCards (none : Option Card) = 0 from rfl, add_zero] at e3
            rw [e1, e3]
            exact pot_push_pending hdc rfl rfl rfl rfl
          · exact Or.inr h2
        · intro ht
          apply hmono2
          show s2.roundEnded = true
          rw [hre1]
          exact ht
    · next c s2 hdc1 =>
      obtain ⟨hpot1, hps1, hdcd1, hre1, _, _, _⟩ := drawCard_pot_simple hp hdc1
      split at h
      · next hcd2 =>
        subst hcd2
        obtain ⟨hr, hs⟩ := someProdInj h
        have hs2 : s' = (chainDraw sh s2).2 := hs
        obtain ⟨hcpot, hcre, _, _, _, _, _, _, _, _⟩ :=
          chainDraw_spec hp (show s2.drawnCard = none by rw [hdcd1])
        refine ⟨Or.inl ?_, ?_⟩
        · rw [hs2, hcpot]
          have e3 := hpot1
          rw [show pendingCards (some Card.draw2) = {Card.draw2} from rfl] at e3
          rw [e3]
          exact pot_push_pending hdc rfl rfl rfl rfl
        · intro ht
          rw [hs2, hcre]
          show s2.roundEnded = true
          rw [hre1]
          exact ht
      · obtain ⟨hr, hs⟩ := someProdInj h
        subst hs
        refine ⟨Or.inl ?_, ?_⟩
        · have e1 : potCards { s2 with drawnCard := some c }
              = potCards s2 + pendingCards (some c) :=
            pot_pending_opt rfl rfl rfl (by rw [hdcd1]) rfl
          rw [e1, hpot1]
          exact pot_push_pending hdc rfl rfl rfl rfl
        · intro ht
          show s2.roundEnded = true
          rw [hre1]
          exact ht
  · obtain ⟨hr, hs⟩ := someProdInj h
    subst hs
    exact ⟨Or.inl rfl, fun ht => ht⟩

theorem handleDraw2Card_pot {sh : Shuffle} (hp : shufflePerm sh) {a : D2Act}
    {s : GameState} {r : ActionResult} {s' : GameState}
    (h : handleDraw2Card sh a s = some (r, s')) :
    (potCards s' = potCards s ∨ s'.roundEnded = true)
      ∧ (s.roundEnded = true → s'.roundEnded = true) := by
  unfold handleDraw2Card at h
  dsimp only at h
  split at h
  · obtain ⟨hr, hs⟩ := someProdInj h
    subst hs
    exact ⟨Or.inl rfl, fun ht => ht⟩
  · split at h
    · next i =>
      split at h
      · exact absurd h (by simp)
      · next rr ss hrep =>
        obtain ⟨hpotr, hmonor⟩ := replaceCardInHand_pot hrep
        split at h
        · obtain ⟨hr, hs⟩ := someProdInj h
          subst hs
          refine ⟨?_, ?_⟩
          · rcases hpotr with h2 | h2
            · left
              rw [← h2]
              exact potCards_congr rfl rfl rfl rfl
            · right
              exact h2
          · intro ht
            exact hmonor ht
        · obtain ⟨hr, hs⟩ := someProdInj h
          subst hs
          exact ⟨hpotr, hmonor⟩
    · split at h
      · exact absurd h (by simp)
      · next dc hdc =>
        split at h
        · split at h
          · next s2 hdc1 =>
            split at h
            · exact absurd h (by simp)
            · next s4 hET =>
              obtain ⟨hr, hs⟩ := someProdInj h
              subst hs
              obtain ⟨hpot1, hps1, hdcd1, hre1, _, _, _⟩ := drawCard_pot_simple hp hdc1
              obtain ⟨hpot2, hmono2, _⟩ := endTurn_pot hET
                (by show s2.drawnCard = none; rw [hdcd1])
              refine ⟨?_, ?_⟩
              · rcases hpot2 with h2 | h2
                · left
                  rw [h2]
                  have e1 : potCards { s2 with draw2ChainActive := false }
                      = potCards s2 := potCards_congr rfl rfl rfl rfl
                  have e3 := hpot1
                  rw [show pendingCards (none : Option Card) = 0 from rfl, add_zero] at e3
                  rw [e1, e3]
                  exact pot_push_pending hdc rfl rfl rfl rfl
                · exact Or.inr h2
              · intro ht
                apply hmono2
                show s2.roundEnded = true
                rw [hre1]
                exact ht
          · next c s2 hdc1 =>
            obtain ⟨hpot1, hps1, hdcd1, hre1, _, _, _⟩ := drawCard_pot_simple hp hdc1
            split at h
            · next hcd2 =>
              subst hcd2
              obtain ⟨hr, hs⟩ := someProdInj h
              have hs2 : s' = (chainDraw sh s2).2 := hs
              obtain ⟨hcpot, hcre, _, _, _, _, _, _, _, _⟩ :=
                chainDraw_spec hp (show s2.drawnCard = none by rw [hdcd1])
              refine ⟨Or.inl ?_, ?_⟩
              · rw [hs2, hcpot]
                have e3 := hpot1
                rw [show pendingCards (some Card.draw2) = {Card.draw2} from rfl] at e3
                rw [e3]
                exact pot_push_pending hdc rfl rfl rfl rfl
              · intro ht
                rw [hs2, hcre]
                show s2.roundEnded = true
                rw [hre1]
                exact ht
            · obtain ⟨hr, hs⟩ := someProdInj h
              subst hs
              refine ⟨Or.inl ?_, ?_⟩
              · have e1 : potCards { s2 with drawnCard := some c }
                    = potCards s2 + pendingCards (some c) :=
                  pot_pending_opt rfl rfl rfl (by rw [hdcd1]) rfl
                rw [e1, hpot1]
                exact pot_push_pending hdc rfl rfl rfl rfl
              · intro ht
                show s2.roundEnded = true
                rw [hre1]
                exact ht
        · split at h
          · exact absurd h (by simp)
          · next s3 hET =>
            obtain ⟨hr, hs⟩ := someProdInj h
            subst hs
            obtain ⟨hpot2, hmono2, _⟩ := endTurn_pot hET rfl
            refine ⟨?_, fun ht => hmono2 ht⟩
            rcases hpot2 with h2 | h2
            · left
              rw [h2]
              exact pot_push_pending hdc rfl rfl rfl rfl
            · exact Or.inr h2
    · obtain ⟨hr, hs⟩ := someProdInj h
      subst hs
      exact ⟨Or.inl rfl, fun ht => ht⟩

theorem addDrawn_pot {p : Player} {idx : Nat} {c? : Option Card} {t : GameState}
    (hget : t.players[idx]? = some p) :
    potCards (addDrawn p idx c? t) = potCards t + pendingCards c?
      ∧ (addDrawn p idx c? t).roundEnded = t.roundEnded
      ∧ (addDrawn p idx c? t).deck = t.deck
      ∧ (addDrawn p idx c? t).discardPile = t.discardPile
      ∧ (addDrawn p idx c? t).drawnCard = t.drawnCard := by
  cases c? with
  | none =>
    refine ⟨?_, rfl, rfl, rfl, rfl⟩
    show potCards t = potCards t + 0
    abel
  | some nc =>
    refine ⟨?_, rfl, rfl, rfl, rfl⟩
    have hhs := handsCards_set hget (p.addCard nc)
    have hfin : handsCards (t.players.set idx (p.addCard nc)) + (p.hand : Multiset Card)
        = (handsCards t.players + {nc}) + (p.hand : Multiset Card) := by
      rw [hhs]
      show handsCards t.players + ((p.hand ++ [nc] : List Card) : Multiset Card) = _
      rw [coe_append_single]
      abel
    have HH := add_right_cancel hfin
    show (t.deck : Multiset Card) + (t.discardPile : Multiset Card)
        + handsCards (t.players.set idx (p.addCard nc)) + pendingCards t.drawnCard
      = potCards t + {nc}
    rw [HH]
    show _ = (t.deck : Multiset Card) + (t.discardPile : Multiset Card)
        + handsCards t.players + pendingCards t.drawnCard + {nc}
    abel

theorem useAddCard_pot {sh : Shuffle} (hp : shufflePerm sh)
    {s : GameState} {r : ActionResult} {s' : GameState}
    (h : useAddCard sh s = some (r, s')) :
    (potCards s' = potCards s ∨ s'.roundEnded = true)
      ∧ (s.roundEnded = true → s'.roundEnded = true) := by
  unfold useAddCard at h
  dsimp only at h
  split at h
  · next hdc =>
    split at h
    · exact absurd h (by simp)
    · next p hcp =>
      split at h
      · exact absurd h (by simp)
      · next s4 hET =>
        obtain ⟨hr, hs⟩ := someProdInj h
        subst hs
        have hdraw : drawCard sh s = ((drawCard sh s).1, (drawCard sh s).2) := rfl
        obtain ⟨hpot1, hps1, hdcd1, hre1, hidx1, _, _⟩ := drawCard_pot_simple hp hdraw
        have hget : (drawCard sh s).2.players[(drawCard sh s).2.currentPlayerIndex]?
            = some p := by
          rw [hps1, hidx1]
          exact hcp
        obtain ⟨hpotA, hreA, hdA, hdpA, hdcA⟩ := addDrawn_pot hget
        obtain ⟨hpot2, hmono2, _⟩ := endTurn_pot hET rfl
        refine ⟨?_, ?_⟩
        · rcases hpot2 with h2 | h2
          · left
            rw [h2]
            have hpend : (addDrawn p (drawCard sh s).2.currentPlayerIndex
                (drawCard sh s).1 (drawCard sh s).2).drawnCard = some Card.addcard := by
              rw [hdcA, hdcd1]
              exact hdc
            refine Eq.trans ?_ (hpotA.trans hpot1)
            exact pot_push_pending hpend rfl rfl rfl rfl
          · exact Or.inr h2
        · intro ht
          apply hmono2
          show (addDrawn p (drawCard sh s).2.currentPlayerIndex
              (drawCard sh s).1 (drawCard sh s).2).roundEnded = true
          rw [hreA, hre1]
          exact ht
  · obtain ⟨hr, hs⟩ := someProdInj h
    subst hs
    exact ⟨Or.inl rfl, fun ht => ht⟩

theorem applyAct_pot {sh : Shuffle} (hp : shufflePerm sh) {a : Act}
    {s : GameState} {r : ActionResult} {s' : GameState}
    (h : applyAct sh a s = some (r, s'))
    (hknock : a = Act.aKnock → s.drawnCard = none) :
    (potCards s' = potCards s ∨ s'.roundEnded = true)
      ∧ (s.roundEnded = true → s'.roundEnded = true) := by
  cases a with
  | aDrawDeck => exact drawFromDeck_pot hp h
  | aDrawDiscard => exact drawFromDiscardPile_pot h
  | aReplace i => exact replaceCardInHand_pot h
  | aDiscardDrawn => exact discardDrawnCard_pot h
  | aPeek i => exact usePeek_pot h
  | aSwap m oid oi => exact useSwap_pot h
  | aDeclineSwap => exact declineSwap_pot h
  | aUseDraw2 => exact useDraw2_pot hp h
  | aD2 d => exact handleDraw2Card_pot hp h
  | aAddCard => exact useAddCard_pot hp h
  | aKnock => exact knock_pot h (hknock rfl)

theorem applyAct_fail {sh : Shuffle} (hp : shufflePerm sh) {a : Act}
    {s : GameState} {r : ActionResult} {s' : GameState}
    (h : applyAct sh a s = some (r, s')) (hf : r.success = false) :
    s' = s ∨ r.error = some "Deck empty" := by
  cases a with
  | aDrawDeck => exact Or.inl (drawFromDeck_fail hp.len h hf)
  | aDrawDiscard => exact Or.inl (drawFromDiscardPile_fail h hf)
  | aReplace i => exact Or.inl (replaceCardInHand_fail h hf)
  | aDiscardDrawn => exact Or.inl (discardDrawnCard_fail h hf)
  | aPeek i => exact Or.inl (usePeek_fail h hf)
  | aSwap m oid oi => exact Or.inl (useSwap_fail h hf)
  | aDeclineSwap => exact Or.inl (declineSwap_fail h hf)
  | aUseDraw2 => exact useDraw2_fail h hf
  | aD2 d => exact handleDraw2Card_fail h hf
  | aAddCard => exact Or.inl (useAddCard_fail h hf)
  | aKnock => exact Or.inl (knock_fail h hf)

theorem drawN_spec {sh : Shuffle} (hp : shufflePerm sh) :
    ∀ {n : Nat} {t : GameState} {cs : List Card} {t' : GameState},
      drawN sh n t = some (cs, t') →
      ((t'.deck : Multiset Card) + (t'.discardPile : Multiset Card)
          + (cs : Multiset Card)
        = (t.deck : Multiset Card) + (t.discardPile : Multiset Card))
      ∧ cs.length = n
      ∧ t'.players = t.players ∧ t'.drawnCard = t.drawnCard
      ∧ t'.roundEnded = t.roundEnded ∧ t'.gameStarted = t.gameStarted
      ∧ t'.currentPlayerIndex = t.currentPlayerIndex ∧ t'.knockerId = t.knockerId
      ∧ t'.finalRoundActive = t.finalRoundActive
      ∧ t'.playersCompletedFinalTurn = t.playersCompletedFinalTurn
      ∧ t'.draw2ChainActive = t.draw2ChainActive
      ∧ t'.draw2CardsRemaining = t.draw2CardsRemaining
      ∧ t'.drawnFromDiscard = t.drawnFromDiscard := by
  intro n
  induction n with
  | zero =>
    intro t cs t' h
    unfold drawN at h
    obtain ⟨hcs, ht⟩ := someProdInj h
    subst hcs
    subst ht
    refine ⟨?_, rfl, rfl, rfl, rfl, rfl, rfl, rfl, rfl, rfl, rfl, rfl, rfl⟩
    show _ + _ + (0 : Multiset Card) = _
    abel
  | succ n ih =>
    intro t cs t' h
    unfold drawN at h
    split at h
    · next c tmid hdc =>
      split at h
      · next cs0 t2 hdn =>
        obtain ⟨hcs, ht⟩ := someProdInj h
        subst hcs
        subst ht
        obtain ⟨hpm, hlen, hfields⟩ := ih hdn
        obtain ⟨hpot, hps, hidx, hdcd, hfd, hgs, hre, hki, hfa, hct, hca, hrem⟩ :=
          drawCard_pot hp hdc
        constructor
        · show (t'.deck : Multiset Card) + (t'.discardPile : Multiset Card)
              + ((c :: cs0 : List Card) : Multiset Card)
            = (t.deck : Multiset Card) + (t.discardPile : Multiset Card)
          have hc : ((c :: cs0 : List Card) : Multiset Card)
              = (cs0 : Multiset Card) + {c} := by
            show c ::ₘ (cs0 : Multiset Card) = _
            rw [add_comm, Multiset.singleton_add]
          rw [hc]
          calc (t'.deck : Multiset Card) + (t'.discardPile : Multiset Card)
              + ((cs0 : Multiset Card) + {c})
              = ((t'.deck : Multiset Card) + (t'.discardPile : Multiset Card)
                + (cs0 : Multiset Card)) + {c} := by abel
            _ = ((tmid.deck : Multiset Card) + (tmid.discardPile : Multiset Card)) + {c} := by
                rw [hpm]
            _ = (tmid.deck : Multiset Card) + (tmid.discardPile : Multiset Card)
                + pendingCards (some c) := rfl
            _ = (t.deck : Multiset Card) + (t.discardPile : Multiset Card) := hpot
        · refine ⟨by simp [hlen], ?_⟩
          obtain ⟨f1, f2, f3, f4, f5, f6, f7, f8, f9, f10, f11⟩ := hfields
          exact ⟨f1.trans hps, f2.trans hdcd, f3.trans hre, f4.trans hgs,
            f5.trans hidx, f6.trans hki, f7.trans hfa, f8.trans hct,
            f9.trans hca, f10.trans hrem, f11.trans hfd⟩
      · exact absurd h (by simp)
    · exact absurd h (by simp)

theorem handsCards_cons (q : Player) (ps : List Player) :
    handsCards (q :: ps) = (q.hand : Multiset Card) + handsCards ps := by
  simp [handsCards]

theorem dealPlayers_spec {sh : Shuffle} (hp : shufflePerm sh) :
    ∀ {ps : List Player} {t : GameState} {ps' : List Player} {t' : GameState},
      dealPlayers sh ps t = some (ps', t') →
      ((t'.deck : Multiset Card) + (t'.discardPile : Multiset Card)
          + handsCards ps'
        = (t.deck : Multiset Card) + (t.discardPile : Multiset Card))
      ∧ List.Forall₂ (fun q p => q.id = p.id ∧ q.name = p.name
          ∧ q.score = p.score ∧ q.totalScore = p.totalScore
          ∧ q.hand.length = 4
          ∧ q.knownCards = List.replicate 4 false) ps' ps
      ∧ t'.players = t.players ∧ t'.drawnCard = t.drawnCard
      ∧ t'.roundEnded = t.roundEnded ∧ t'.gameStarted = t.gameStarted
      ∧ t'.currentPlayerIndex = t.currentPlayerIndex ∧ t'.knockerId = t.knockerId
      ∧ t'.finalRoundActive = t.finalRoundActive
      ∧ t'.playersCompletedFinalTurn = t.playersCompletedFinalTurn
      ∧ t'.draw2ChainActive = t.draw2ChainActive
      ∧ t'.draw2CardsRemaining = t.draw2CardsRemaining
      ∧ t'.drawnFromDiscard = t.drawnFromDiscard := by
  intro ps
  induction ps with
  | nil =>
    intro t ps' t' h
    unfold dealPlayers at h
    obtain ⟨hcs, ht⟩ := someProdInj h
    subst hcs
    subst ht
    refine ⟨?_, List.Forall₂.nil, rfl, rfl, rfl, rfl, rfl, rfl, rfl, rfl, rfl,
      rfl, rfl⟩
    show _ + _ + (0 : Multiset Card) = _
    abel
  | cons p ps ih =>
    intro t ps' t' h
    unfold dealPlayers at h
    split at h
    · next cs tmid hdn =>
      split at h
      · next qs t2 hdp =>
        obtain ⟨hcs, ht⟩ := someProdInj h
        subst hcs
        subst ht
        obtain ⟨hpm1, hlen, f1, f2, f3, f4, f5, f6, f7, f8, f9, f10, f11⟩ :=
          drawN_spec hp hdn
        obtain ⟨hpm2, hfor, g1, g2, g3, g4, g5, g6, g7, g8, g9, g10, g11⟩ :=
          ih hdp
        constructor
        · rw [handsCards_cons]
          show (t'.deck : Multiset Card) + (t'.discardPile : Multiset Card)
              + ((cs : Multiset Card) + handsCards qs)
            = (t.deck : Multiset Card) + (t.discardPile : Multiset Card)
          calc (t'.deck : Multiset Card) + (t'.discardPile : Multiset Card)
              + ((cs : Multiset Card) + handsCards qs)
              = ((t'.deck : Multiset Card) + (t'.discardPile : Multiset Card)
                + handsCards qs) + (cs : Multiset Card) := by abel
            _ = ((tmid.deck : Multiset Card)
                + (tmid.discardPile : Multiset Card)) + (cs : Multiset Card) := by
                rw [hpm2]
            _ = (t.deck : Multiset Card) + (t.discardPile : Multiset Card) :=
                hpm1
        · refine ⟨List.Forall₂.cons ⟨rfl, rfl, rfl, rfl, hlen, rfl⟩ hfor, ?_⟩
          exact ⟨g1.trans f1, g2.trans f2, g3.trans f3, g4.trans f4,
            g5.trans f5, g6.trans f6, g7.trans f7, g8.trans f8,
            g9.trans f9, g10.trans f10, g11.trans f11⟩
      · exact absurd h (by simp)
    · exact absurd h (by simp)

theorem firstDiscardLoop_spec {sh : Shuffle} (hp : shufflePerm sh) :
    ∀ {fuel : Nat} {c : Card} {t : GameState} {c' : Card} {t' : GameState},
      firstDiscardLoop sh fuel c t = some (c', t') →
      ((t'.deck : Multiset Card) + (t'.discardPile : Multiset Card)
          + ({c'} : Multiset Card)
        = (t.deck : Multiset Card) + (t.discardPile : Multiset Card)
          + ({c} : Multiset Card))
      ∧ c'.isPowerCard = false
      ∧ t'.players = t.players ∧ t'.drawnCard = t.drawnCard
      ∧ t'.roundEnded = t.roundEnded ∧ t'.gameStarted = t.gameStarted
      ∧ t'.currentPlayerIndex = t.currentPlayerIndex ∧ t'.knockerId = t.knockerId
      ∧ t'.finalRoundActive = t.finalRoundActive
      ∧ t'.playersCompletedFinalTurn = t.playersCompletedFinalTurn
      ∧ t'.draw2ChainActive = t.draw2ChainActive
      ∧ t'.draw2CardsRemaining = t.draw2CardsRemaining
      ∧ t'.drawnFromDiscard = t.drawnFromDiscard := by
  intro fuel
  induction fuel with
  | zero =>
    intro c t c' t' h
    exact absurd h (by simp [firstDiscardLoop])
  | succ fuel ih =>
    intro c t c' t' h
    unfold firstDiscardLoop at h
    split at h
    · next hpw =>
      dsimp only at h
      split at h
      · next cnew t2 hdc =>
        obtain ⟨hpm, hnp, f1, f2, f3, f4, f5, f6, f7, f8, f9, f10, f11⟩ := ih h
        obtain ⟨hpot, hps, hidx, hdcd, hfd, hgs, hre, hki, hfa, hct, hca, hrem⟩ :=
          drawCard_pot hp hdc
        have hdk : ((sh (c :: t.deck) : List Card) : Multiset Card)
            = ({c} : Multiset Card) + (t.deck : Multiset Card) := by
          rw [Multiset.coe_eq_coe.2 (hp (c :: t.deck))]
          rw [Multiset.singleton_add]
          rfl
        constructor
        · calc (t'.deck : Multiset Card) + (t'.discardPile : Multiset Card)
              + ({c'} : Multiset Card)
              = (t2.deck : Multiset Card) + (t2.discardPile : Multiset Card)
                + ({cnew} : Multiset Card) := hpm
            _ = ((sh (c :: t.deck) : List Card) : Multiset Card)
                + (t.discardPile : Multiset Card) := hpot
            _ = ({c} : Multiset Card) + (t.deck : Multiset Card)
                + (t.discardPile : Multiset Card) := by rw [hdk]
            _ = (t.deck : Multiset Card) + (t.discardPile : Multiset Card)
                + ({c} : Multiset Card) := by abel
        · refine ⟨hnp, ?_⟩
          exact ⟨f1.trans hps, f2.trans hdcd, f3.trans hre, f4.trans hgs,
            f5.trans hidx, f6.trans hki, f7.trans hfa, f8.trans hct,
            f9.trans hca, f10.trans hrem, f11.trans hfd⟩
      · exact absurd h (by simp)
    · next hpw =>
      obtain ⟨hcs, ht⟩ := someProdInj h
      subst hcs
      subst ht
      exact ⟨rfl, by simpa using hpw, rfl, rfl, rfl, rfl, rfl, rfl, rfl, rfl,
        rfl, rfl, rfl⟩

theorem drawCardL_disc_nil (sh : Shuffle) (deck : List Card) :
    (drawCardL sh deck []).2.2 = [] := by
  unfold drawCardL reshufflePair
  have hcond : ¬(deck.length = 0 ∧ 1 < ([] : List Card).length) :=
    fun hc => absurd hc.2 (by decide)
  simp only [if_neg hcond]
  split
  · rfl
  · rfl

theorem drawCard_disc_nil {sh : Shuffle} {s : GameState} {c? : Option Card}
    {s' : GameState} (h : drawCard sh s = (c?, s'))
    (hd : s.discardPile = []) : s'.discardPile = [] := by
  rw [drawCard_eq] at h
  injection h with h1 h2
  rw [← h2]
  show (drawCardL sh s.deck s.discardPile).2.2 = []
  rw [hd, drawCardL_disc_nil]

theorem drawN_disc_nil {sh : Shuffle} :
    ∀ {n : Nat} {t : GameState} {cs : List Card} {t' : GameState},
      drawN sh n t = some (cs, t') → t.discardPile = [] →
      t'.discardPile = [] := by
  intro n
  induction n with
  | zero =>
    intro t cs t' h hd
    unfold drawN at h
    obtain ⟨_, ht⟩ := someProdInj h
    subst ht
    exact hd
  | succ n ih =>
    intro t cs t' h hd
    unfold drawN at h
    split at h
    · next c tmid hdc =>
      split at h
      · next cs0 t2 hdn =>
        obtain ⟨_, ht⟩ := someProdInj h
        subst ht
        exact ih hdn (drawCard_disc_nil hdc hd)
      · exact absurd h (by simp)
    · exact absurd h (by simp)

theorem dealPlayers_disc_nil {sh : Shuffle} :
    ∀ {ps : List Player} {t : GameState} {ps' : List Player} {t' : GameState},
      dealPlayers sh ps t = some (ps', t') → t.discardPile = [] →
      t'.discardPile = [] := by
  intro ps
  induction ps with
  | nil =>
    intro t ps' t' h hd
    unfold dealPlayers at h
    obtain ⟨_, ht⟩ := someProdInj h
    subst ht
    exact hd
  | cons p ps ih =>
    intro t ps' t' h hd
    unfold dealPlayers at h
    split at h
    · next cs tmid hdn =>
      split at h
      · next qs t2 hdp =>
        obtain ⟨_, ht⟩ := someProdInj h
        subst ht
        exact ih hdp (drawN_disc_nil hdn hd)
      · exact absurd h (by simp)
    · exact absurd h (by simp)

theorem firstDiscardLoop_disc_nil {sh : Shuffle} :
    ∀ {fuel : Nat} {c : Card} {t : GameState} {c' : Card} {t' : GameState},
      firstDiscardLoop sh fuel c t = some (c', t') → t.discardPile = [] →
      t'.discardPile = [] := by
  intro fuel
  induction fuel with
  | zero =>
    intro c t c' t' h hd
    exact absurd h (by simp [firstDiscardLoop])
  | succ fuel ih =>
    intro c t c' t' h hd
    unfold firstDiscardLoop at h
    split at h
    · next hpw =>
      dsimp only at h
      split at h
      · next cnew t2 hdc =>
        exact ih h (drawCard_disc_nil hdc hd)
      · exact absurd h (by simp)
    · next hpw =>
      obtain ⟨_, ht⟩ := someProdInj h
      subst ht
      exact hd

theorem startRound_lt2 {sh : Shuffle} (s : GameState)
    (hlt : s.players.length < 2) : startRound sh s = some (false, s) := by
  unfold startRound
  rw [if_pos hlt]

theorem startRound_true_spec {sh : Shuffle} (hp : shufflePerm sh)
    {s0 s' : GameState} (h : startRound sh s0 = some (true, s')) :
    2 ≤ s0.players.length
      ∧ s'.currentPlayerIndex = 0 ∧ s'.gameStarted = true
      ∧ s'.roundEnded = false ∧ s'.knockerId = none
      ∧ s'.finalRoundActive = false ∧ s'.playersCompletedFinalTurn = 0
      ∧ s'.drawnCard = s0.drawnCard ∧ s'.draw2ChainActive = s0.draw2ChainActive
      ∧ s'.draw2CardsRemaining = s0.draw2CardsRemaining
      ∧ s'.drawnFromDiscard = s0.drawnFromDiscard
      ∧ (∃ c, s'.discardPile = [c] ∧ c.isPowerCard = false)
      ∧ List.Forall₂ (fun q p => q.id = p.id ∧ q.name = p.name
          ∧ q.score = p.score ∧ q.totalScore = p.totalScore
          ∧ q.hand.length = 4
          ∧ q.knownCards = List.replicate 4 false) s'.players s0.players
      ∧ (s'.deck : Multiset Card) + (s'.discardPile : Multiset Card)
          + handsCards s'.players = fullDeckCards := by
  unfold startRound at h
  split at h
  · exact absurd (someProdInj h).1 (by simp)
  · next hge =>
    dsimp only at h
    split at h
    · exact absurd h (by simp)
    · next ps s2 hdp =>
      split at h
      · exact absurd h (by simp)
      · next c0 s4 hdc
        =>
        split at h
        · exact absurd h (by simp)
        · next c s5 hfl =>
          obtain ⟨_, ht⟩ := someProdInj h
          subst ht
          obtain ⟨hpm1, hfor, g1, g2, g3, g4, g5, g6, g7, g8, g9, g10, g11⟩ :=
            dealPlayers_spec hp hdp
          obtain ⟨hpot4, hps4, hidx4, hdcd4, hfd4, hgs4, hre4, hki4, hfa4,
            hct4, hca4, hrem4⟩ := drawCard_pot hp hdc
          obtain ⟨hpm5, hnp5, k1, k2, k3, k4, k5, k6, k7, k8, k9, k10, k11⟩ :=
            firstDiscardLoop_spec hp hfl
          have hd2nil : s2.discardPile = [] := dealPlayers_disc_nil hdp rfl
          have hd4nil : s4.discardPile = [] := by
            have : ({ s2 with players := ps } :
                GameState).discardPile = [] := hd2nil
            exact drawCard_disc_nil hdc this
          have hd5nil : s5.discardPile = [] := firstDiscardLoop_disc_nil hfl hd4nil
          have hps5 : s5.players = ps := by
            rw [k1]
            rw [hps4]
          refine ⟨Nat.le_of_not_lt hge, rfl, rfl, k3.trans (hre4.trans g3),
            k6.trans (hki4.trans g6), k7.trans (hfa4.trans g7),
            k8.trans (hct4.trans g8), k2.trans (hdcd4.trans g2),
            k9.trans (hca4.trans g9), k10.trans (hrem4.trans g10),
            k11.trans (hfd4.trans g11), ⟨c, by rw [hd5nil]; rfl, hnp5⟩, ?_, ?_⟩
          · have hcast : List.Forall₂ (fun q p => q.id = p.id ∧ q.name = p.name
                ∧ q.score = p.score ∧ q.totalScore = p.totalScore
                ∧ q.hand.length = 4
                ∧ q.knownCards = List.replicate 4 false) ps s0.players := hfor
            dsimp only
            rw [hps5]
            exact hcast
          · dsimp only
            rw [hps5, hd5nil]
            show (s5.deck : Multiset Card)
                + (([] ++ [c] : List Card) : Multiset Card)
                + handsCards ps = fullDeckCards
            simp only [List.nil_append]
            have hstep5 : (s5.deck : Multiset Card)
                + (s5.discardPile : Multiset Card) + ({c} : Multiset Card)
                = (s4.deck : Multiset Card) + (s4.discardPile : Multiset Card)
                  + ({c0} : Multiset Card) := hpm5
            have hstep4 : (s4.deck : Multiset Card)
                + (s4.discardPile : Multiset Card) + ({c0} : Multiset Card)
                = (s2.deck : Multiset Card) + (s2.discardPile : Multiset Card) :=
              hpot4
            have hstep2 : (s2.deck : Multiset Card)
                + (s2.discardPile : Multiset Card) + handsCards ps
                = ((sh buildDeck : List Card) : Multiset Card) := by
              have := hpm1
              rw [this]
              show ((sh buildDeck : List Card) : Multiset Card)
                  + (([] : List Card) : Multiset Card) = _
              simp
            have hfull : ((sh buildDeck : List Card) : Multiset Card)
                = fullDeckCards := Multiset.coe_eq_coe.2 (hp buildDeck)
            rw [hd5nil] at hstep5
            rw [hd4nil] at hstep5 hstep4
            rw [hd2nil] at hstep4 hstep2
            simp only [Multiset.coe_nil, add_zero] at hstep5 hstep4 hstep2
            calc (s5.deck : Multiset Card) + (([c] : List Card) : Multiset Card)
                + handsCards ps
                = (s5.deck : Multiset Card) + ({c} : Multiset Card)
                  + handsCards ps := by rfl
              _ = (s4.deck : Multiset Card) + ({c0} : Multiset Card)
                  + handsCards ps := by rw [hstep5]
              _ = (s2.deck : Multiset Card) + handsCards ps := by rw [hstep4]
              _ = ((sh buildDeck : List Card) : Multiset Card) := hstep2
              _ = fullDeckCards := hfull

theorem Lobby_drawn_none {s : GameState} (h : Lobby s) : s.drawnCard = none := by
  induction h with
  | init => rfl
  | add pid pname _ ih =>
    unfold addPlayer
    split
    · exact ih
    · split
      · exact ih
      · exact ih
  | remove pid _ ih => exact ih

theorem startRound_pot {sh : Shuffle} (hp : shufflePerm sh) {s0 s1 : GameState}
    (h : startRound sh s0 = some (true, s1)) (hd : s0.drawnCard = none) :
    potCards s1 = fullDeckCards ∧ s1.roundEnded = false := by
  obtain ⟨_, _, _, hre, _, _, _, hdrawn, _, _, _, _, _, hpot⟩ :=
    startRound_true_spec hp h
  refine ⟨?_, hre⟩
  unfold potCards
  rw [hdrawn, hd]
  show _ + _ + _ + pendingCards none = _
  rw [show pendingCards none = (0 : Multiset Card) from rfl, add_zero]
  exact hpot

theorem steps_potFull {sh : Shuffle} (hp : shufflePerm sh) {s t : GameState}
    (hst : Steps sh knockGuard s t) (h0 : PotFull s) : PotFull t := by
  induction hst with
  | refl => exact h0
  | tail hst hstep ih =>
    intro hre
    obtain ⟨a, r, hg, happ⟩ := hstep
    obtain ⟨hpot, hmono⟩ := applyAct_pot hp happ hg
    next t u =>
    have htre : t.roundEnded = false := by
      cases ht : t.roundEnded
      · rfl
      · exact absurd (hmono ht) (by rw [hre]; simp)
    cases hpot with
    | inl heq => rw [heq]; exact ih htre
    | inr hend => exact absurd hend (by rw [hre]; simp)

theorem lobbyTwo_lobby : Lobby lobbyTwo :=
  Lobby.add 2 "Bob" (Lobby.add 1 "Alice" Lobby.init)

theorem startRound_lobbyTwo : startRound id lobbyTwo = some (true, roundStart) := by
  rfl

theorem drawStep_afterDraw :
    applyAct id Act.aDrawDeck roundStart = some (drawRes, afterDraw) := by
  rfl

theorem reach_afterDraw (G : Act → GameState → Prop)
    (hG : G Act.aDrawDeck roundStart) : ReachRound id G afterDraw :=
  ⟨lobbyTwo, roundStart, lobbyTwo_lobby, startRound_lobbyTwo,
    Steps.tail (Steps.refl roundStart)
      ⟨Act.aDrawDeck, drawRes, hG, drawStep_afterDraw⟩⟩

theorem handsCards_card (ps : List Player) :
    Multiset.card (handsCards ps) = (ps.map (fun p => p.hand.length)).sum := by
  induction ps with
  | nil => rfl
  | cons p ps ih =>
    rw [handsCards_cons]
    simp only [Multiset.card_add, Multiset.coe_card, List.map_cons, List.sum_cons,
      ih]

theorem potCards_card (s : GameState) :
    Multiset.card (potCards s)
      = s.deck.length + s.discardPile.length
        + (s.players.map (fun p => p.hand.length)).sum
        + Multiset.card (pendingCards s.drawnCard) := by
  unfold potCards
  simp only [Multiset.card_add, Multiset.coe_card, handsCards_card]

/-- C1: CORRECTED.  The claimed invariant fails as stated, in two ways: the
full deck built by `initializeDeck()` holds 56 cards, not 72 (36 numbers 0-8,
9 nines, 3+3+3 Peek/Swap/Draw-Two and 2 Add-Card), and the pool named by the
claim (deck + discard + hands) drops to 55 while a drawn card is pending,
since the pending card sits in none of the three places.  Moreover `knock()`
with a card pending destroys that card.  Amended: over every state reachable
within a round under the guard that `knock` is only called with no pending
card, the deck, discard pile, hands and the pending drawn card together form
exactly the 56-card deck multiset (so the numeric sum including the pending
card is 56) for as long as the round has not ended. -/
theorem C1_card_conservation {sh : Shuffle} (hp : shufflePerm sh)
    {s : GameState} (h : ReachRound sh knockGuard s)
    (hre : s.roundEnded = false) :
    potCards s = fullDeckCards
      ∧ s.deck.length + s.discardPile.length
          + (s.players.map (fun p => p.hand.length)).sum
          + Multiset.card (pendingCards s.drawnCard) = 56 := by
  obtain ⟨s0, s1, hlob, hsr, hsteps⟩ := h
  have hbase := startRound_pot hp hsr (Lobby_drawn_none hlob)
  have hpot : potCards s = fullDeckCards :=
    steps_potFull hp hsteps (fun _ => hbase.1) hre
  refine ⟨hpot, ?_⟩
  have hc := congrArg Multiset.card hpot
  rw [potCards_card] at hc
  rw [hc]
  decide

/-- C1 counterexample: after one legitimate deck draw the reachable state
`afterDraw` has `|deck| + |discard| + Σ|hands| = 55` (the pending drawn card
is counted nowhere), and the full deck itself has 56 cards, not the claimed
72, so the claimed pool never equals a 72-card multiset in any round. -/
theorem C1_counterexample :
    ReachRound id anyGuard afterDraw
      ∧ afterDraw.roundEnded = false
      ∧ afterDraw.deck.length + afterDraw.discardPile.length
          + (afterDraw.players.map (fun p => p.hand.length)).sum = 55
      ∧ Multiset.card fullDeckCards = 56
      ∧ claimPool afterDraw ≠ fullDeckCards := by
  refine ⟨reach_afterDraw anyGuard trivial, rfl, by decide, by decide, ?_⟩
  intro heq
  have h1 := congrArg Multiset.card heq
  have h2 : Multiset.card (claimPool afterDraw) = 55 := by decide
  have h3 : Multiset.card fullDeckCards = 56 := by decide
  rw [h2, h3] at h1
  exact absurd h1 (by decide)

/-- C1 witness: the amended conservation theorem applied at the concrete
reachable state `afterDraw` under the identity shuffle. -/
theorem C1_card_conservation_witness :
    shufflePerm id ∧ ReachRound id knockGuard afterDraw
      ∧ afterDraw.roundEnded = false
      ∧ potCards afterDraw = fullDeckCards :=
  ⟨fun l => List.Perm.refl l,
    reach_afterDraw knockGuard (fun heq => absurd heq (by decide)),
    rfl,
    (C1_card_conservation (fun l => List.Perm.refl l)
      (reach_afterDraw knockGuard (fun heq => absurd heq (by decide))) rfl).1⟩

/-- C2: CORRECTED.  Validation does not fully precede mutation: when `useDraw2`
or `handleDraw2Card` hits an exhausted deck (error `"Deck empty"`), the failing
call has already discarded the pending Draw-Two, deactivated the chain and
ended the turn.  Amended: every failed action call either leaves the state
exactly unchanged or is one of those deck-exhaustion failures, which are the
only mutating failures of the action surface. -/
theorem C2_failure_purity {sh : Shuffle} (hp : shufflePerm sh) {a : Act}
    {s : GameState} {r : ActionResult} {s' : GameState}
    (h : applyAct sh a s = some (r, s')) (hf : r.success = false) :
    s' = s ∨ r.error = some "Deck empty" :=
  applyAct_fail hp h hf

/-- C2 counterexample: on `d2FailState` (pending Draw-Two, empty deck and
discard) `useDraw2` returns `success = false` yet has discarded the Draw-Two
and advanced the turn: the state after the failed call differs from the state
before it. -/
theorem C2_counterexample :
    useDraw2 id d2FailState = some d2FailOut
      ∧ (d2FailOut.1).success = false
      ∧ d2FailOut.2 ≠ d2FailState
      ∧ (d2FailOut.2).discardPile ≠ d2FailState.discardPile
      ∧ (d2FailOut.2).currentPlayerIndex ≠ d2FailState.currentPlayerIndex :=
  ⟨rfl, rfl, by decide, by decide, by decide⟩

/-- C2 witness: the amended failure-purity theorem applied to a concrete
rejected call (drawing from the deck while a card is already pending), which
indeed leaves the state unchanged. -/
theorem C2_failure_purity_witness :
    shufflePerm id
      ∧ applyAct id Act.aDrawDeck afterDraw = some (redrawOut.1, redrawOut.2)
      ∧ (redrawOut.1).success = false
      ∧ (redrawOut.2 = afterDraw ∨ (redrawOut.1).error = some "Deck empty") :=
  ⟨fun l => List.Perm.refl l, rfl, rfl,
    C2_failure_purity (fun l => List.Perm.refl l)
      (show applyAct id Act.aDrawDeck afterDraw = some (redrawOut.1, redrawOut.2)
        from rfl) rfl⟩

theorem endTurn_chainFields {sh : Shuffle} {s s' : GameState}
    (h : endTurn sh s = some s') :
    s'.drawnCard = none ∧ s'.draw2CardsRemaining = s.draw2CardsRemaining := by
  rcases endTurn_cases h with ⟨i, _, heq, _⟩ | ⟨_, heq⟩
  · subst heq
    exact ⟨rfl, rfl⟩
  · subst heq
    exact ⟨rfl, rfl⟩

theorem replaceCardInHand_ok {sh : Shuffle} {i : Int} {s : GameState}
    {r : ActionResult} {s' : GameState}
    (h : replaceCardInHand sh i s = some (r, s')) (hs : r.success = true) :
    r.chaining = false ∧ s'.drawnCard = none
      ∧ s'.draw2CardsRemaining = s.draw2CardsRemaining := by
  unfold replaceCardInHand at h
  split at h
  · obtain ⟨hr, _⟩ := someProdInj h
    subst hr
    exact absurd hs (by decide)
  · next dc =>
    split at h
    · exact absurd h (by simp)
    · next p hp =>
      dsimp only at h
      split at h
      · obtain ⟨hr, _⟩ := someProdInj h
        subst hr
        exact absurd hs (by decide)
      · split at h
        · exact absurd h (by simp)
        · next s2 het =>
          obtain ⟨hr, ht⟩ := someProdInj h
          subst hr
          subst ht
          obtain ⟨h1, h2⟩ := endTurn_chainFields het
          exact ⟨rfl, h1, h2⟩

theorem useDraw2_chain_ok {sh : Shuffle} (hp : shufflePerm sh) {s : GameState}
    {r : ActionResult} {s' : GameState}
    (h : useDraw2 sh s = some (r, s')) (hs : r.success = true) :
    s'.draw2CardsRemaining = 2
      ∧ (r.chaining = true → s'.discardPile.getLast? = some Card.draw2)
      ∧ (r.chaining = false → s'.drawnCard ≠ some Card.draw2) := by
  unfold useDraw2 at h
  split at h
  · dsimp only at h
    split at h
    · next s2 hdc =>
      split at h
      · exact absurd h (by simp)
      · next s4 het =>
        obtain ⟨hr, _⟩ := someProdInj h
        subst hr
        exact absurd hs (by decide)
    · next c s2 hdc =>
      split at h
      · next hc =>
        have hpair := Option.some.inj h
        have hrr : r = (chainDraw sh s2).1 := by rw [hpair]
        have hss : s' = (chainDraw sh s2).2 := by rw [hpair]
        have hnd2 : s2.drawnCard = none := by
          obtain ⟨_, _, _, hdcd, _⟩ := drawCard_pot hp hdc
          exact hdcd
        obtain ⟨_, _, _, _, _, hrem2, _, _, _, hch⟩ := chainDraw_spec hp hnd2
        refine ⟨?_, ?_, ?_⟩
        · rw [hss]
          exact hrem2
        · intro _
          rw [hss]
          exact chainDraw_disc_top sh s2
        · intro hcf
          rw [hrr] at hcf
          exact absurd (hch.symm.trans hcf) (by decide)
      · next hc =>
        obtain ⟨hr, ht⟩ := someProdInj h
        subst hr
        subst ht
        obtain ⟨_, _, _, _, _, _, _, _, _, _, _, hrem⟩ := drawCard_pot hp hdc
        refine ⟨?_, ?_, ?_⟩
        · exact hrem
        · intro hct
          exact absurd (show false = true from hct) (by decide)
        · intro _ heq
          exact hc (Option.some.inj heq)
  · obtain ⟨hr, _⟩ := someProdInj h
    subst hr
    exact absurd hs (by decide)

theorem handleD2_chain_ok {sh : Shuffle} (hp : shufflePerm sh) {d : D2Act}
    {s : GameState} {r : ActionResult} {s' : GameState}
    (h : handleDraw2Card sh d s = some (r, s')) (hs : r.success = true)
    (hpre : s.draw2CardsRemaining ≤ 2) :
    s'.draw2CardsRemaining ≤ 2
      ∧ (r.chaining = true → s'.discardPile.getLast? = some Card.draw2
          ∧ s'.draw2CardsRemaining = 2)
      ∧ (r.chaining = false → s'.drawnCard ≠ some Card.draw2) := by
  unfold handleDraw2Card at h
  split at h
  · obtain ⟨hr, _⟩ := someProdInj h
    subst hr
    exact absurd hs (by decide)
  · split at h
    · next i =>
      split at h
      · exact absurd h (by simp)
      · next r0 s0 hrc =>
        split at h
        · next hr0 =>
          obtain ⟨hr, ht⟩ := someProdInj h
          subst hr
          subst ht
          obtain ⟨hch, hnd, _⟩ := replaceCardInHand_ok hrc hr0
          refine ⟨show (0 : Int) ≤ 2 by decide, ?_, ?_⟩
          · intro hct
            exact absurd (hch.symm.trans hct) (by decide)
          · intro _ heq
            have heq2 : s0.drawnCard = some Card.draw2 := heq
            rw [hnd] at heq2
            exact Option.noConfusion heq2
        · next hr0 =>
          obtain ⟨hr, ht⟩ := someProdInj h
          subst hr
          exact absurd hs hr0
    · next =>
      split at h
      · exact absurd h (by simp)
      · next dc =>
        dsimp only at h
        split at h
        · next hpos =>
          split at h
          · next s2 hdc =>
            split at h
            · exact absurd h (by simp)
            · next s4 het =>
              obtain ⟨hr, _⟩ := someProdInj h
              subst hr
              exact absurd hs (by decide)
          · next c s2 hdc =>
            split at h
            · next hc =>
              have hpair := Option.some.inj h
              have hrr : r = (chainDraw sh s2).1 := by rw [hpair]
              have hss : s' = (chainDraw sh s2).2 := by rw [hpair]
              have hnd2 : s2.drawnCard = none := by
                obtain ⟨_, _, _, hdcd, _⟩ := drawCard_pot hp hdc
                exact hdcd
              obtain ⟨_, _, _, _, _, hrem2, _, _, _, hch⟩ := chainDraw_spec hp hnd2
              refine ⟨?_, ?_, ?_⟩
              · rw [hss, hrem2]
              · intro _
                rw [hss]
                exact ⟨chainDraw_disc_top sh s2, hrem2⟩
              · intro hcf
                rw [hrr] at hcf
                exact absurd (hch.symm.trans hcf) (by decide)
            · next hc =>
              obtain ⟨hr, ht⟩ := someProdInj h
              subst hr
              subst ht
              obtain ⟨_, _, _, _, _, _, _, _, _, _, _, hrem⟩ := drawCard_pot hp hdc
              refine ⟨?_, ?_, ?_⟩
              · show s2.draw2CardsRemaining ≤ 2
                rw [hrem]
                show s.draw2CardsRemaining - 1 ≤ 2
                omega
              · intro hct
                exact absurd (show false = true from hct) (by decide)
              · intro _ heq
                exact hc (Option.some.inj heq)
        · next hpos =>
          split at h
          · exact absurd h (by simp)
          · next s3 het =>
            obtain ⟨hr, ht⟩ := someProdInj h
            subst hr
            subst ht
            obtain ⟨hnd3, hrem3⟩ := endTurn_chainFields het
            refine ⟨?_, ?_, ?_⟩
            · rw [hrem3]
              show s.draw2CardsRemaining - 1 ≤ 2
              omega
            · intro hct
              exact absurd (show false = true from hct) (by decide)
            · intro _ heq
              rw [hnd3] at heq
              exact Option.noConfusion heq
    · obtain ⟨hr, _⟩ := someProdInj h
      subst hr
      exact absurd hs (by decide)

/-- C3: CORRECTED.  The Draw-Two-while-chaining check covers only the first
card drawn at each site: the card drawn immediately AFTER a chained Draw-Two
is installed as the pending card unchecked, so a second consecutive Draw-Two
does become the pending card awaiting resolution (see the counterexample).
Amended: at the checked sites the claim holds — on every successful `useDraw2`
or `handleDraw2Card` call (from a remaining-count of at most 2) the
remaining-count stays at most 2; whenever the result reports a chained
Draw-Two (`chaining = true`) that Draw-Two was immediately discarded (it is
the discard top) and the count was reset to exactly 2; and whenever no chaining
is reported the new pending card is not a Draw-Two. -/
theorem C3_chain_checked {sh : Shuffle} (hp : shufflePerm sh) {a : Act}
    {s : GameState} {r : ActionResult} {s' : GameState}
    (h : applyAct sh a s = some (r, s'))
    (ha : a = Act.aUseDraw2 ∨ ∃ d, a = Act.aD2 d)
    (hpre : s.draw2CardsRemaining ≤ 2) (hs : r.success = true) :
    s'.draw2CardsRemaining ≤ 2
      ∧ (r.chaining = true → s'.discardPile.getLast? = some Card.draw2
          ∧ s'.draw2CardsRemaining = 2)
      ∧ (r.chaining = false → s'.drawnCard ≠ some Card.draw2) := by
  rcases ha with ha | ⟨d, ha⟩
  · subst ha
    obtain ⟨h1, h2, h3⟩ := useDraw2_chain_ok hp h hs
    refine ⟨by rw [h1], ?_, h3⟩
    intro hct
    exact ⟨h2 hct, h1⟩
  · subst ha
    exact handleD2_chain_ok hp h hs hpre

/-- C3 counterexample: from `chainState` (pending Draw-Two; the next two deck
cards are both Draw-Twos) `useDraw2` succeeds with the chain active and pending
card `some Card.draw2`: the Draw-Two drawn right after the chained one was not
discarded and awaits resolution as the pending card. -/
theorem C3_counterexample :
    useDraw2 id chainState = some chainOut
      ∧ (chainOut.1).success = true
      ∧ (chainOut.2).draw2ChainActive = true
      ∧ (chainOut.2).drawnCard = some Card.draw2
      ∧ (chainOut.2).draw2CardsRemaining = 2 :=
  ⟨rfl, rfl, rfl, rfl, rfl⟩

/-- C3 witness: the amended chained-draw theorem applied to the concrete
successful `useDraw2` call on `chainState`. -/
theorem C3_chain_checked_witness :
    shufflePerm id
      ∧ applyAct id Act.aUseDraw2 chainState = some (chainOut.1, chainOut.2)
      ∧ chainState.draw2CardsRemaining ≤ 2
      ∧ (chainOut.1).success = true
      ∧ ((chainOut.2).draw2CardsRemaining ≤ 2
          ∧ ((chainOut.1).chaining = true →
              (chainOut.2).discardPile.getLast? = some Card.draw2
                ∧ (chainOut.2).draw2CardsRemaining = 2)
          ∧ ((chainOut.1).chaining = false →
              (chainOut.2).drawnCard ≠ some Card.draw2)) :=
  ⟨fun l => List.Perm.refl l, rfl, by decide, rfl,
    C3_chain_checked (fun l => List.Perm.refl l)
      (show applyAct id Act.aUseDraw2 chainState = some (chainOut.1, chainOut.2)
        from rfl) (Or.inl rfl) (by decide) rfl⟩

theorem reshufflePair_disc_ne_nil (sh : Shuffle) (deck disc : List Card)
    (hd : disc ≠ []) : (reshufflePair sh deck disc).2 ≠ [] := by
  unfold reshufflePair
  split
  · split
    · simp
    · exact hd
  · exact hd

theorem drawCardL_disc_ne_nil (sh : Shuffle) (deck disc : List Card)
    (hd : disc ≠ []) : (drawCardL sh deck disc).2.2 ≠ [] := by
  unfold drawCardL
  split
  · show (reshufflePair sh deck disc).2 ≠ []
    exact reshufflePair_disc_ne_nil sh deck disc hd
  · show (reshufflePair sh deck disc).2 ≠ []
    exact reshufflePair_disc_ne_nil sh deck disc hd

theorem drawCard_disc_ne_nil {sh : Shuffle} {s : GameState} {c? : Option Card}
    {s' : GameState} (h : drawCard sh s = (c?, s'))
    (hd : s.discardPile ≠ []) : s'.discardPile ≠ [] := by
  rw [drawCard_eq] at h
  injection h with h1 h2
  rw [← h2]
  show (drawCardL sh s.deck s.discardPile).2.2 ≠ []
  exact drawCardL_disc_ne_nil sh s.deck s.discardPile hd

theorem endTurn_chainActive {sh : Shuffle} {s s' : GameState}
    (h : endTurn sh s = some s') :
    s'.draw2ChainActive = s.draw2ChainActive := by
  rcases endTurn_cases h with ⟨i, _, heq, _⟩ | ⟨_, heq⟩
  · subst heq
    rfl
  · subst heq
    rfl

theorem replaceCardInHand_err {sh : Shuffle} {i : Int} {s : GameState}
    {r : ActionResult} {s' : GameState}
    (h : replaceCardInHand sh i s = some (r, s')) :
    r.error ≠ some "Deck empty" := by
  unfold replaceCardInHand at h
  split at h
  · obtain ⟨hr, _⟩ := someProdInj h
    subst hr
    decide
  · next dc =>
    split at h
    · exact absurd h (by simp)
    · next p hp =>
      dsimp only at h
      split at h
      · obtain ⟨hr, _⟩ := someProdInj h
        subst hr
        decide
      · split at h
        · exact absurd h (by simp)
        · next s2 het =>
          obtain ⟨hr, _⟩ := someProdInj h
          subst hr
          decide

theorem endTurn_turnEnds {sh : Shuffle} {s s' : GameState}
    (h : endTurn sh s = some s') :
    s'.roundEnded = true ∨ s'.currentPlayerIndex < s'.players.length := by
  rcases endTurn_cases h with ⟨i, hlt, heq, _⟩ | ⟨_, heq⟩
  · subst heq
    right
    exact hlt
  · subst heq
    left
    rfl

theorem useDraw2_exhaust {sh : Shuffle} (hp : shufflePerm sh) {s : GameState}
    {r : ActionResult} {s' : GameState} (h : useDraw2 sh s = some (r, s')) :
    (r.error = some "Deck empty" →
        r.success = false ∧ s'.draw2ChainActive = false ∧ s'.drawnCard = none
          ∧ (s'.roundEnded = true
              ∨ s'.currentPlayerIndex < s'.players.length))
      ∧ (r.success = true → s'.draw2ChainActive = true →
          (s'.drawnCard).isSome = true) := by
  unfold useDraw2 at h
  split at h
  · dsimp only at h
    split at h
    · next s2 hdc =>
      split at h
      · exact absurd h (by simp)
      · next s4 het =>
        obtain ⟨hr, ht⟩ := someProdInj h
        subst hr
        subst ht
        constructor
        · intro _
          refine ⟨rfl, ?_, (endTurn_chainFields het).1,
            endTurn_turnEnds het⟩
          rw [endTurn_chainActive het]
        · intro hsucc
          exact absurd (show false = true from hsucc) (by decide)
    · next c s2 hdc =>
      split at h
      · next hc =>
        have hpair := Option.some.inj h
        have hrr : r = (chainDraw sh s2).1 := by rw [hpair]
        have hss : s' = (chainDraw sh s2).2 := by rw [hpair]
        constructor
        · intro herr
          rw [hrr] at herr
          exact absurd
            (show (none : Option String) = some "Deck empty" from herr)
            (by decide)
        · intro _ _
          rw [hss]
          apply chainDraw_pending (shufflePerm.len hp)
          apply drawCard_disc_ne_nil hdc
          show s.discardPile ++ [Card.draw2] ≠ []
          simp
      · next hc =>
        obtain ⟨hr, ht⟩ := someProdInj h
        subst hr
        subst ht
        constructor
        · intro herr
          exact absurd
            (show (none : Option String) = some "Deck empty" from herr)
            (by decide)
        · intro _ _
          rfl
  · obtain ⟨hr, ht⟩ := someProdInj h
    subst hr
    subst ht
    constructor
    · intro herr
      exact absurd
        (show (some "No draw2 card drawn" : Option String) = some "Deck empty"
          from herr) (by decide)
    · intro hsucc
      exact absurd (show false = true from hsucc) (by decide)

theorem handleD2_exhaust {sh : Shuffle} (hp : shufflePerm sh) {d : D2Act}
    {s : GameState} {r : ActionResult} {s' : GameState}
    (h : handleDraw2Card sh d s = some (r, s')) :
    (r.error = some "Deck empty" →
        r.success = false ∧ s'.draw2ChainActive = false ∧ s'.drawnCard = none
          ∧ (s'.roundEnded = true
              ∨ s'.currentPlayerIndex < s'.players.length))
      ∧ (r.success = true → s'.draw2ChainActive = true →
          (s'.drawnCard).isSome = true) := by
  unfold handleDraw2Card at h
  split at h
  · obtain ⟨hr, ht⟩ := someProdInj h
    subst hr
    subst ht
    constructor
    · intro herr
      exact absurd
        (show (some "No Draw 2 active" : Option String) = some "Deck empty"
          from herr) (by decide)
    · intro hsucc
      exact absurd (show false = true from hsucc) (by decide)
  · split at h
    · next i =>
      split at h
      · exact absurd h (by simp)
      · next r0 s0 hrc =>
        split at h
        · next hr0 =>
          obtain ⟨hr, ht⟩ := someProdInj h
          subst hr
          subst ht
          constructor
          · intro herr
            exact absurd herr (replaceCardInHand_err hrc)
          · intro _ hact
            exact absurd (show false = true from hact) (by decide)
        · next hr0 =>
          obtain ⟨hr, ht⟩ := someProdInj h
          subst hr
          subst ht
          constructor
          · intro herr
            exact absurd herr (replaceCardInHand_err hrc)
          · intro hsucc
            exact absurd hsucc hr0
    · next =>
      split at h
      · exact absurd h (by simp)
      · next dc =>
        dsimp only at h
        split at h
        · next hpos =>
          split at h
          · next s2 hdc =>
            split at h
            · exact absurd h (by simp)
            · next s4 het =>
              obtain ⟨hr, ht⟩ := someProdInj h
              subst hr
              subst ht
              constructor
              · intro _
                refine ⟨rfl, ?_, (endTurn_chainFields het).1,
                  endTurn_turnEnds het⟩
                rw [endTurn_chainActive het]
              · intro hsucc
                exact absurd (show false = true from hsucc) (by decide)
          · next c s2 hdc =>
            split at h
            · next hc =>
              have hpair := Option.some.inj h
              have hrr : r = (chainDraw sh s2).1 := by rw [hpair]
              have hss : s' = (chainDraw sh s2).2 := by rw [hpair]
              constructor
              · intro herr
                rw [hrr] at herr
                exact absurd
                  (show (none : Option String) = some "Deck empty" from herr)
                  (by decide)
              · intro _ _
                rw [hss]
                apply chainDraw_pending (shufflePerm.len hp)
                apply drawCard_disc_ne_nil hdc
                simp
            · next hc =>
              obtain ⟨hr, ht⟩ := someProdInj h
              subst hr
              subst ht
              constructor
              · intro herr
                exact absurd
                  (show (none : Option String) = some "Deck empty" from herr)
                  (by decide)
              · intro _ _
                rfl
        · next hpos =>
          split at h
          · exact absurd h (by simp)
          · next s3 het =>
            obtain ⟨hr, ht⟩ := someProdInj h
            subst hr
            subst ht
            constructor
            · intro herr
              exact absurd
                (show (none : Option String) = some "Deck empty" from herr)
                (by decide)
            · intro _ hact
              rw [endTurn_chainActive het] at hact
              exact absurd (show false = true from hact) (by decide)
    · obtain ⟨hr, ht⟩ := someProdInj h
      subst hr
      subst ht
      constructor
      · intro herr
        exact absurd
          (show (some "Invalid action" : Option String) = some "Deck empty"
            from herr) (by decide)
      · intro hsucc
        exact absurd (show false = true from hsucc) (by decide)

/-- C4: CONFIRMED.  Whenever `useDraw2` or `handleDraw2Card` reports deck
exhaustion (error `"Deck empty"` — the only way the reshuffle-backed draw can
fail at those sites), the chain has been deactivated, the pending card is
cleared and the turn has been passed on (the round ended or the index points
at a player).  Conversely a successful call never leaves the chain active
without a pending card to resolve: the draw after a chained Draw-Two cannot
fail, because the two freshly discarded Draw-Twos make the discard pile
reshuffleable. -/
theorem C4_exhaustion_soft {sh : Shuffle} (hp : shufflePerm sh) {a : Act}
    {s : GameState} {r : ActionResult} {s' : GameState}
    (h : applyAct sh a s = some (r, s'))
    (ha : a = Act.aUseDraw2 ∨ ∃ d, a = Act.aD2 d) :
    (r.error = some "Deck empty" →
        r.success = false ∧ s'.draw2ChainActive = false ∧ s'.drawnCard = none
          ∧ (s'.roundEnded = true
              ∨ s'.currentPlayerIndex < s'.players.length))
      ∧ (r.success = true → s'.draw2ChainActive = true →
          (s'.drawnCard).isSome = true) := by
  rcases ha with ha | ⟨d, ha⟩
  · subst ha
    exact useDraw2_exhaust hp h
  · subst ha
    exact handleD2_exhaust hp h

/-- C4 witness: the exhaustion theorem applied to the concrete deck-empty
`useDraw2` call on `d2FailState`: the chain ends deactivated with no pending
card and the turn passed to the other player. -/
theorem C4_exhaustion_soft_witness :
    shufflePerm id
      ∧ applyAct id Act.aUseDraw2 d2FailState = some (d2FailOut.1, d2FailOut.2)
      ∧ (d2FailOut.1).error = some "Deck empty"
      ∧ (d2FailOut.1).success = false
      ∧ (d2FailOut.2).draw2ChainActive = false
      ∧ (d2FailOut.2).drawnCard = none
      ∧ ((d2FailOut.2).roundEnded = true
          ∨ (d2FailOut.2).currentPlayerIndex < (d2FailOut.2).players.length) :=
  ⟨fun l => List.Perm.refl l, rfl, rfl, rfl, rfl, rfl,
    ((C4_exhaustion_soft (fun l => List.Perm.refl l)
      (show applyAct id Act.aUseDraw2 d2FailState
          = some (d2FailOut.1, d2FailOut.2) from rfl)
      (Or.inl rfl)).1 rfl).2.2.2⟩

/-- C5: CORRECTED.  The swap itself is exact, but when the successful
`useSwap` is the move that completes the final round, the `endTurn` it
performs runs `endRound`, which rewrites freshly swapped power-card slots and
sets their known-flags (see the counterexample).  Amended: whenever `useSwap`
succeeds from a state in which the final round is not active (so the call
cannot end the round), the two slots are exchanged exactly, both touched
known-flags are forced to false, and every other slot, flag and player is
unchanged. -/
theorem C5_swap_exact {sh : Shuffle} {myIdx oppIdx : Int} {oppId : Nat}
    {s : GameState} {r : ActionResult} {s' : GameState}
    (h : useSwap sh myIdx oppId oppIdx s = some (r, s'))
    (hs : r.success = true) (hfr : s.finalRoundActive = false)
    (hwf : ∀ q ∈ s.players, q.knownCards.length = q.hand.length) :
    ∃ j p opp p' opp',
      s.players.findIdx? (fun q => q.id == oppId) = some j
      ∧ s.players[s.currentPlayerIndex]? = some p
      ∧ s.players[j]? = some opp
      ∧ j ≠ s.currentPlayerIndex
      ∧ s'.players[s.currentPlayerIndex]? = some p'
      ∧ s'.players[j]? = some opp'
      ∧ p'.hand[myIdx.toNat]? = opp.hand[oppIdx.toNat]?
      ∧ opp'.hand[oppIdx.toNat]? = p.hand[myIdx.toNat]?
      ∧ p'.knownCards[myIdx.toNat]? = some false
      ∧ opp'.knownCards[oppIdx.toNat]? = some false
      ∧ (∀ k, k ≠ myIdx.toNat →
          p'.hand[k]? = p.hand[k]? ∧ p'.knownCards[k]? = p.knownCards[k]?)
      ∧ (∀ k, k ≠ oppIdx.toNat →
          opp'.hand[k]? = opp.hand[k]? ∧ opp'.knownCards[k]? = opp.knownCards[k]?)
      ∧ (∀ k, k ≠ s.currentPlayerIndex → k ≠ j →
          s'.players[k]? = s.players[k]?) := by
  unfold useSwap at h
  split at h
  · split at h
    · exact absurd h (by simp)
    · next p hgc =>
      split at h
      · obtain ⟨hr, _⟩ := someProdInj h
        subst hr
        exact absurd hs (by decide)
      · next j hfind =>
        split at h
        · exact absurd h (by simp)
        · next opp hopp =>
          split at h
          · obtain ⟨hr, _⟩ := someProdInj h
            subst hr
            exact absurd hs (by decide)
          · next hne =>
            split at h
            · obtain ⟨hr, _⟩ := someProdInj h
              subst hr
              exact absurd hs (by decide)
            · next hmy =>
              split at h
              · obtain ⟨hr, _⟩ := someProdInj h
                subst hr
                exact absurd hs (by decide)
              · next hoppidx =>
                dsimp only at h
                split at h
                · exact absurd h (by simp)
                · next s2 het =>
                  obtain ⟨hr, ht⟩ := someProdInj h
                  subst hr
                  subst ht
                  have hcur : s.players[s.currentPlayerIndex]? = some p := hgc
                  have hci : s.currentPlayerIndex < s.players.length :=
                    (List.getElem?_eq_some.mp hcur).1
                  have hjlen : j < s.players.length :=
                    (List.getElem?_eq_some.mp hopp).1
                  have hmi : myIdx.toNat < p.hand.length := by omega
                  have hoilt : oppIdx.toNat < opp.hand.length := by omega
                  have hjne : j ≠ s.currentPlayerIndex := by
                    intro hjeq
                    rw [hjeq, hcur] at hopp
                    exact hne (by rw [Option.some.inj hopp])
                  have hwfp := hwf p (List.getElem?_mem hcur)
                  have hwfo := hwf opp (List.getElem?_mem hopp)
                  rcases endTurn_cases het with ⟨i, hlt, heq, _⟩ | ⟨hfa, heq⟩
                  · subst heq
                    refine ⟨j, p, opp,
                      swapPlayer p myIdx.toNat
                        (opp.hand.getD oppIdx.toNat (Card.number 0)),
                      swapPlayer opp oppIdx.toNat
                        (p.hand.getD myIdx.toNat (Card.number 0)),
                      hfind, hcur, hopp, hjne, ?_, ?_, ?_, ?_, ?_, ?_, ?_, ?_, ?_⟩
                    · show ((s.players.set s.currentPlayerIndex
                          (swapPlayer p myIdx.toNat
                            (opp.hand.getD oppIdx.toNat (Card.number 0)))).set j
                          (swapPlayer opp oppIdx.toNat
                            (p.hand.getD myIdx.toNat (Card.number 0))))[
                          s.currentPlayerIndex]? = _
                      rw [List.getElem?_set_ne hjne]
                      exact List.getElem?_set_eq_of_lt _ hci
                    · show ((s.players.set s.currentPlayerIndex
                          (swapPlayer p myIdx.toNat
                            (opp.hand.getD oppIdx.toNat (Card.number 0)))).set j
                          (swapPlayer opp oppIdx.toNat
                            (p.hand.getD myIdx.toNat (Card.number 0))))[j]? = _
                      apply List.getElem?_set_eq_of_lt
                      rw [List.length_set]
                      exact hjlen
                    · show (p.hand.set myIdx.toNat
                          (opp.hand.getD oppIdx.toNat (Card.number 0)))[
                          myIdx.toNat]? = opp.hand[oppIdx.toNat]?
                      rw [List.getElem?_set_eq_of_lt _ hmi,
                        List.getD_eq_getElem _ _ hoilt,
                        List.getElem?_eq_getElem hoilt]
                    · show (opp.hand.set oppIdx.toNat
                          (p.hand.getD myIdx.toNat (Card.number 0)))[
                          oppIdx.toNat]? = p.hand[myIdx.toNat]?
                      rw [List.getElem?_set_eq_of_lt _ hoilt,
                        List.getD_eq_getElem _ _ hmi,
                        List.getElem?_eq_getElem hmi]
                    · show (p.knownCards.set myIdx.toNat false)[myIdx.toNat]?
                          = some false
                      apply List.getElem?_set_eq_of_lt
                      rw [hwfp]
                      exact hmi
                    · show (opp.knownCards.set oppIdx.toNat false)[oppIdx.toNat]?
                          = some false
                      apply List.getElem?_set_eq_of_lt
                      rw [hwfo]
                      exact hoilt
                    · intro k hk
                      exact ⟨List.getElem?_set_ne (fun hh => hk hh.symm),
                        List.getElem?_set_ne (fun hh => hk hh.symm)⟩
                    · intro k hk
                      exact ⟨List.getElem?_set_ne (fun hh => hk hh.symm),
                        List.getElem?_set_ne (fun hh => hk hh.symm)⟩
                    · intro k hkci hkj
                      show ((s.players.set s.currentPlayerIndex
                          (swapPlayer p myIdx.toNat
                            (opp.hand.getD oppIdx.toNat (Card.number 0)))).set j
                          (swapPlayer opp oppIdx.toNat
                            (p.hand.getD myIdx.toNat (Card.number 0))))[k]?
                          = s.players[k]?
                      rw [List.getElem?_set_ne (fun hh => hkj hh.symm)]
                      exact List.getElem?_set_ne (fun hh => hkci hh.symm)
                  · have hfa2 : s.finalRoundActive = true := hfa
                    rw [hfr] at hfa2
                    exact Bool.noConfusion hfa2
  · obtain ⟨hr, _⟩ := someProdInj h
    subst hr
    exact absurd hs (by decide)

/-- C5 counterexample: on `swapFinalState` (final round, one turn left) the
successful `useSwap(0, 2, 0)` swaps Alice's Peek into Bob's slot 0, but the
`endRound` triggered by the same call replaces that slot with a deck card
(`number 9`) and marks it known, so after the call the opponent's slot `j`
holds neither the pre-swap `self.hand[0]` (the Peek) nor an unknown card. -/
theorem C5_counterexample :
    useSwap id 0 2 0 swapFinalState = some swapOut
      ∧ (swapOut.1).success = true
      ∧ swapFinalState.players.map (fun q => q.hand)
          = [[Card.peek, Card.number 1, Card.number 2, Card.number 3],
             [Card.number 5, Card.number 6, Card.number 7, Card.number 8]]
      ∧ (swapOut.2).players.map (fun q => q.hand)
          = [[Card.number 5, Card.number 1, Card.number 2, Card.number 3],
             [Card.number 9, Card.number 6, Card.number 7, Card.number 8]]
      ∧ (swapOut.2).players.map (fun q => q.knownCards)
          = [[false, false, false, false], [true, false, false, false]] :=
  ⟨rfl, rfl, rfl, rfl, rfl⟩

/-- C5 witness: the amended swap-exactness theorem applied to the concrete
successful non-round-ending `useSwap(0, 2, 0)` call on `swapMidState`. -/
theorem C5_swap_exact_witness :
    useSwap id 0 2 0 swapMidState = some (swapMidOut.1, swapMidOut.2)
      ∧ (swapMidOut.1).success = true
      ∧ swapMidState.finalRoundActive = false
      ∧ (∀ q ∈ swapMidState.players, q.knownCards.length = q.hand.length)
      ∧ (∃ j p opp p' opp',
          swapMidState.players.findIdx? (fun q => q.id == 2) = some j
          ∧ swapMidState.players[swapMidState.currentPlayerIndex]? = some p
          ∧ swapMidState.players[j]? = some opp
          ∧ j ≠ swapMidState.currentPlayerIndex
          ∧ (swapMidOut.2).players[swapMidState.currentPlayerIndex]? = some p'
          ∧ (swapMidOut.2).players[j]? = some opp'
          ∧ p'.hand[(0 : Int).toNat]? = opp.hand[(0 : Int).toNat]?
          ∧ opp'.hand[(0 : Int).toNat]? = p.hand[(0 : Int).toNat]?
          ∧ p'.knownCards[(0 : Int).toNat]? = some false
          ∧ opp'.knownCards[(0 : Int).toNat]? = some false
          ∧ (∀ k, k ≠ (0 : Int).toNat →
              p'.hand[k]? = p.hand[k]? ∧ p'.knownCards[k]? = p.knownCards[k]?)
          ∧ (∀ k, k ≠ (0 : Int).toNat →
              opp'.hand[k]? = opp.hand[k]?
                ∧ opp'.knownCards[k]? = opp.knownCards[k]?)
          ∧ (∀ k, k ≠ swapMidState.currentPlayerIndex → k ≠ j →
              (swapMidOut.2).players[k]? = swapMidState.players[k]?)) :=
  ⟨rfl, rfl, rfl, by decide,
    C5_swap_exact
      (show useSwap id 0 2 0 swapMidState = some (swapMidOut.1, swapMidOut.2)
        from rfl) rfl rfl (by decide)⟩

theorem isPowerCard_false_number {c : Card} (h : c.isPowerCard = false) :
    ∃ v, c = Card.number v := by
  cases c with
  | number v => exact ⟨v, rfl⟩
  | peek => exact absurd h (by decide)
  | swap => exact absurd h (by decide)
  | draw2 => exact absurd h (by decide)
  | addcard => exact absurd h (by decide)

/-- C6: CONFIRMED.  `startRound` returns the failure pair (leaving the state
untouched) whenever fewer than two players are present; on success every
player's hand has exactly 4 cards with an all-false known mask (no outer slot
is pre-revealed), the discard pile is exactly one Number card, the current
player index is 0 and the match is marked started. -/
theorem C6_startRound_spec {sh : Shuffle} (hp : shufflePerm sh) {s : GameState} :
    (s.players.length < 2 → startRound sh s = some (false, s))
      ∧ (∀ s', startRound sh s = some (true, s') →
          2 ≤ s.players.length
            ∧ s'.currentPlayerIndex = 0
            ∧ s'.gameStarted = true
            ∧ (∃ v, s'.discardPile = [Card.number v])
            ∧ List.Forall₂ (fun q p => q.id = p.id ∧ q.hand.length = 4
                ∧ q.knownCards = List.replicate 4 false) s'.players s.players) := by
  constructor
  · exact startRound_lt2 s
  · intro s' h
    obtain ⟨hge, hidx, hgs, _, _, _, _, _, _, _, _, hdisc, hfor, _⟩ :=
      startRound_true_spec hp h
    refine ⟨hge, hidx, hgs, ?_, ?_⟩
    · obtain ⟨c, hc1, hc2⟩ := hdisc
      obtain ⟨v, hv⟩ := isPowerCard_false_number hc2
      exact ⟨v, by rw [hc1, hv]⟩
    · exact List.Forall₂.imp
        (fun q p hq => ⟨hq.1, hq.2.2.2.2.1, hq.2.2.2.2.2⟩) hfor

/-- C6 witness: the `startRound` specification applied to the concrete
two-player lobby `lobbyTwo` (success half) and to the empty `initialGame`
(failure half). -/
theorem C6_startRound_spec_witness :
    shufflePerm id
      ∧ startRound id initialGame = some (false, initialGame)
      ∧ (2 ≤ lobbyTwo.players.length
          ∧ roundStart.currentPlayerIndex = 0
          ∧ roundStart.gameStarted = true
          ∧ (∃ v, roundStart.discardPile = [Card.number v])
          ∧ List.Forall₂ (fun q p => q.id = p.id ∧ q.hand.length = 4
              ∧ q.knownCards = List.replicate 4 false)
              roundStart.players lobbyTwo.players) :=
  ⟨fun l => List.Perm.refl l,
    (C6_startRound_spec (fun l => List.Perm.refl l)).1 (by decide),
    (C6_startRound_spec (fun l => List.Perm.refl l)).2 roundStart
      startRound_lobbyTwo⟩

theorem forall₂_getElem_map {α β γ : Type} {R : α → β → Prop} {f : α → γ}
    {g : β → γ} (hfg : ∀ a b, R a b → f a = g b) :
    ∀ {l₁ : List α} {l₂ : List β}, List.Forall₂ R l₁ l₂ →
      ∀ n : Nat, l₁[n]?.map f = l₂[n]?.map g := by
  intro l₁ l₂ h
  induction h with
  | nil =>
    intro n
    rfl
  | cons hab hrest ih =>
    intro n
    cases n with
    | zero =>
      next a b l1 l2 =>
      simp only [List.getElem?_cons_zero]
      show some (f a) = some (g b)
      rw [hfg a b hab]
    | succ m =>
      simp only [List.getElem?_cons_succ]
      exact ih m

theorem forall₂_map_eq {α β γ : Type} {R : α → β → Prop} {f : α → γ}
    {g : β → γ} (hfg : ∀ a b, R a b → f a = g b) :
    ∀ {l₁ : List α} {l₂ : List β}, List.Forall₂ R l₁ l₂ →
      l₁.map f = l₂.map g := by
  intro l₁ l₂ h
  induction h with
  | nil => rfl
  | cons hab hrest ih =>
    next a b l1 l2 =>
    simp only [List.map_cons]
    rw [hfg a b hab, ih]

theorem otherHandView_const (hand : List Card) :
    otherHandView false hand
      = List.replicate hand.length
          { card := none, isKnown := false, isOuter := false } := by
  induction hand with
  | nil => rfl
  | cons c cs ih =>
    simp only [otherHandView, List.map_cons, List.length_cons,
      List.replicate_succ] at ih ⊢
    rw [ih]
    simp

/-- C7: CONFIRMED.  While the round has not ended, `getGameState(pid)` is
invariant under changing the identities of cards in any other player's hand
(only its length shows) and under changing the pending drawn card whenever the
requester is not the current player: two states so related project to
identical views. -/
theorem C7_view_hiding {pid : Nat} {s t : GameState}
    (hre : s.roundEnded = false) (hre2 : t.roundEnded = false)
    (hdeck : t.deck = s.deck) (hdisc : t.discardPile = s.discardPile)
    (hidx : t.currentPlayerIndex = s.currentPlayerIndex)
    (hdfd : t.drawnFromDiscard = s.drawnFromDiscard)
    (hgs : t.gameStarted = s.gameStarted)
    (hki : t.knockerId = s.knockerId)
    (hfa : t.finalRoundActive = s.finalRoundActive)
    (hca : t.draw2ChainActive = s.draw2ChainActive)
    (hrem : t.draw2CardsRemaining = s.draw2CardsRemaining)
    (hpl : List.Forall₂ (fun q p => q.id = p.id ∧ q.name = p.name
        ∧ q.score = p.score ∧ q.totalScore = p.totalScore
        ∧ q.hand.length = p.hand.length
        ∧ (q.id = pid → q.hand = p.hand ∧ q.knownCards = p.knownCards))
        t.players s.players)
    (hdrawn : (getCurrentPlayer s).map (fun q => q.id) = some pid →
        t.drawnCard = s.drawnCard) :
    getGameState pid t = getGameState pid s := by
  have hcur : (getCurrentPlayer t).map (fun q => q.id)
      = (getCurrentPlayer s).map (fun q => q.id) := by
    show t.players[t.currentPlayerIndex]?.map (fun q => q.id)
        = (getCurrentPlayer s).map (fun q => q.id)
    rw [hidx]
    exact forall₂_getElem_map (fun q p hqp => hqp.1) hpl s.currentPlayerIndex
  unfold getGameState
  rw [hre, hre2, hdeck, hdisc, hdfd, hgs, hki, hfa, hca, hrem, hcur]
  simp only [GameView.mk.injEq]
  refine ⟨?_, trivial, trivial, trivial, trivial, ?_, trivial, trivial, trivial,
    trivial, trivial, trivial, trivial⟩
  · apply forall₂_map_eq _ hpl
    intro q p hqp
    obtain ⟨h1, h2, h3, h4, h5, h6⟩ := hqp
    simp only [PlayerView.mk.injEq]
    refine ⟨h1, h2, h5, ?_, rfl, h4⟩
    by_cases hq : q.id = pid
    · rw [if_pos hq, if_pos (h1.symm.trans hq)]
      obtain ⟨hh, hk⟩ := h6 hq
      rw [hh, hk]
    · rw [if_neg hq, if_neg (fun hp2 => hq (h1.trans hp2))]
      rw [otherHandView_const, otherHandView_const, h5]
  · by_cases hc : ((getCurrentPlayer s).map (fun q => q.id) == some pid) = true
    · rw [if_pos hc, if_pos hc]
      exact hdrawn (beq_iff_eq.mp hc)
    · rw [if_neg hc, if_neg hc]

/-- C7 witness: `viewStateA` and `viewStateB` differ in every card of Bob's
hand, yet Alice's projection of the two states is identical. -/
theorem C7_view_hiding_witness :
    viewStateB.players.map (fun q => q.hand)
        ≠ viewStateA.players.map (fun q => q.hand)
      ∧ getGameState 1 viewStateB = getGameState 1 viewStateA :=
  ⟨by decide,
    C7_view_hiding rfl rfl rfl rfl rfl rfl rfl rfl rfl rfl rfl
      (List.Forall₂.cons ⟨rfl, rfl, rfl, rfl, rfl, fun _ => ⟨rfl, rfl⟩⟩
        (List.Forall₂.cons
          ⟨rfl, rfl, rfl, rfl, rfl, fun h2 => absurd h2 (by decide)⟩
          List.Forall₂.nil))
      (fun _ => rfl)⟩

theorem endTurn_knockInv {sh : Shuffle} {s1 s2 : GameState}
    (h : endTurn sh s1 = some s2) {kid : Nat}
    (hka : s1.knockerId = some kid) (hfa : s1.finalRoundActive = true) :
    s2.knockerId = some kid ∧ s2.finalRoundActive = true
      ∧ (s2.roundEnded = false → ∀ p,
          s2.players[s2.currentPlayerIndex]? = some p → p.id ≠ kid) := by
  rcases endTurn_cases h with ⟨i, hlt, heq, hskip⟩ | ⟨hf, heq⟩
  · subst heq
    refine ⟨hka, hfa, ?_⟩
    intro _ p hp
    have hsk := hskip hfa p hp
    intro hpid
    rw [hka, hpid] at hsk
    simp at hsk
  · subst heq
    refine ⟨hka, hfa, ?_⟩
    intro hfalse
    exact absurd (show true = false from hfalse.symm ▸ rfl) (by decide)

theorem knock_ok {s : GameState} {r : ActionResult} {s' : GameState}
    (h : knock s = some (r, s')) (hs : r.success = true) :
    ∃ p, s.players[s.currentPlayerIndex]? = some p
      ∧ s'.knockerId = some p.id ∧ s'.finalRoundActive = true
      ∧ s'.roundEnded = s.roundEnded
      ∧ (∀ q, s'.players[s'.currentPlayerIndex]? = some q → q.id ≠ p.id) := by
  unfold knock at h
  dsimp only at h
  split at h
  · obtain ⟨hr, _⟩ := someProdInj h
    subst hr
    exact absurd hs (by decide)
  · split at h
    · exact absurd h (by simp)
    · next p hgc =>
      split at h
      · next i hnil =>
        obtain ⟨hr, ht⟩ := someProdInj h
        subst hr
        subst ht
        refine ⟨p, hgc, rfl, rfl, rfl, ?_⟩
        intro q hq hqid
        have hsk := (nextIndexLoop_spec hnil).2 q hq
        rw [hqid] at hsk
        simp at hsk
      · exact absurd h (by simp)

theorem knockInv_congr {kid : Nat} {s t : GameState}
    (hps : t.players = s.players)
    (hidx : t.currentPlayerIndex = s.currentPlayerIndex)
    (hk : t.knockerId = s.knockerId) (hf : t.finalRoundActive = s.finalRoundActive)
    (hre : t.roundEnded = s.roundEnded) (hinv : KnockInv kid s) :
    KnockInv kid t := by
  obtain ⟨h1, h2, h3⟩ := hinv
  refine ⟨hf.trans h1, hk.trans h2, ?_⟩
  intro hre2 p hp
  refine h3 (hre.symm.trans hre2) p ?_
  rw [hps, hidx] at hp
  exact hp

theorem knockInv_of_endTurn {sh : Shuffle} {s1 s2 s : GameState} {kid : Nat}
    (h : endTurn sh s1 = some s2)
    (hka : s1.knockerId = s.knockerId)
    (hfa : s1.finalRoundActive = s.finalRoundActive)
    (hinv : KnockInv kid s) : KnockInv kid s2 := by
  obtain ⟨hf, hk, _⟩ := hinv
  obtain ⟨h1, h2, h3⟩ := endTurn_knockInv h (hka.trans hk) (hfa.trans hf)
  exact ⟨h2, h1, h3⟩

theorem drawFromDiscardPile_knockInv {s : GameState} {r : ActionResult}
    {s' : GameState} (h : drawFromDiscardPile s = some (r, s')) {kid : Nat}
    (hinv : KnockInv kid s) : KnockInv kid s' := by
  unfold drawFromDiscardPile at h
  split at h
  · rw [(someProdInj h).2]
    exact hinv
  · split at h
    · rw [(someProdInj h).2]
      exact hinv
    · split at h
      · exact absurd h (by simp)
      · next c hgl =>
        split at h
        · rw [(someProdInj h).2]
          exact knockInv_congr rfl rfl rfl rfl rfl hinv
        · rw [(someProdInj h).2]
          exact knockInv_congr rfl rfl rfl rfl rfl hinv

theorem drawFromDeck_knockInv {sh : Shuffle} (hp : shufflePerm sh)
    {s : GameState} {r : ActionResult} {s' : GameState}
    (h : drawFromDeck sh s = some (r, s')) {kid : Nat}
    (hinv : KnockInv kid s) : KnockInv kid s' := by
  unfold drawFromDeck at h
  split at h
  · rw [(someProdInj h).2]
    exact hinv
  · split at h
    · next c? st hdc =>
      rw [(someProdInj h).2]
      rw [drawCard_none_eq (shufflePerm.len hp) hdc]
      exact hinv
    · next c st hdc =>
      rw [(someProdInj h).2]
      obtain ⟨_, hps, hidx, _, _, _, hre, hki, hfa, _⟩ := drawCard_pot hp hdc
      exact knockInv_congr hps hidx hki hfa hre hinv

theorem knock_knockInv {s : GameState} {r : ActionResult} {s' : GameState}
    (h : knock s = some (r, s')) {kid : Nat}
    (hinv : KnockInv kid s) : KnockInv kid s' := by
  unfold knock at h
  dsimp only at h
  split at h
  · rw [(someProdInj h).2]
    exact hinv
  · next hnone =>
    have hk := hinv.2.1
    rw [hk] at hnone
    simp at hnone

theorem replaceCardInHand_knockInv {sh : Shuffle} {i : Int} {s : GameState}
    {r : ActionResult} {s' : GameState}
    (h : replaceCardInHand sh i s = some (r, s')) {kid : Nat}
    (hinv : KnockInv kid s) : KnockInv kid s' := by
  unfold replaceCardInHand at h
  split at h
  · rw [(someProdInj h).2]
    exact hinv
  · next dc =>
    split at h
    · exact absurd h (by simp)
    · next p hgc =>
      dsimp only at h
      split at h
      · rw [(someProdInj h).2]
        exact hinv
      · split at h
        · exact absurd h (by simp)
        · next s2 het =>
          rw [(someProdInj h).2]
          refine knockInv_of_endTurn het ?_ ?_ hinv
          · rfl
          · rfl

theorem discardDrawnCard_knockInv {sh : Shuffle} {s : GameState}
    {r : ActionResult} {s' : GameState}
    (h : discardDrawnCard sh s = some (r, s')) {kid : Nat}
    (hinv : KnockInv kid s) : KnockInv kid s' := by
  unfold discardDrawnCard at h
  split at h
  · rw [(someProdInj h).2]
    exact hinv
  · next dc =>
    split at h
    · rw [(someProdInj h).2]
      exact hinv
    · dsimp only at h
      split at h
      · exact absurd h (by simp)
      · next s2 het =>
        rw [(someProdInj h).2]
        refine knockInv_of_endTurn het ?_ ?_ hinv
        · rfl
        · rfl

theorem usePeek_knockInv {sh : Shuffle} {i : Int} {s : GameState}
    {r : ActionResult} {s' : GameState}
    (h : usePeek sh i s = some (r, s')) {kid : Nat}
    (hinv : KnockInv kid s) : KnockInv kid s' := by
  unfold usePeek at h
  split at h
  · split at h
    · exact absurd h (by simp)
    · next p hgc =>
      split at h
      · rw [(someProdInj h).2]
        exact hinv
      · dsimp only at h
        split at h
        · exact absurd h (by simp)
        · next s2 het =>
          rw [(someProdInj h).2]
          refine knockInv_of_endTurn het ?_ ?_ hinv
          · rfl
          · rfl
  · rw [(someProdInj h).2]
    exact hinv

theorem useSwap_knockInv {sh : Shuffle} {myIdx oppIdx : Int} {oppId : Nat}
    {s : GameState} {r : ActionResult} {s' : GameState}
    (h : useSwap sh myIdx oppId oppIdx s = some (r, s')) {kid : Nat}
    (hinv : KnockInv kid s) : KnockInv kid s' := by
  unfold useSwap at h
  split at h
  · split at h
    · exact absurd h (by simp)
    · next p hgc =>
      split at h
      · rw [(someProdInj h).2]
        exact hinv
      · next j hfind =>
        split at h
        · exact absurd h (by simp)
        · next opp hopp =>
          split at h
          · rw [(someProdInj h).2]
            exact hinv
          · split at h
            · rw [(someProdInj h).2]
              exact hinv
            · split at h
              · rw [(someProdInj h).2]
                exact hinv
              · dsimp only at h
                split at h
                · exact absurd h (by simp)
                · next s2 het =>
                  rw [(someProdInj h).2]
                  refine knockInv_of_endTurn het ?_ ?_ hinv
                  · rfl
                  · rfl
  · rw [(someProdInj h).2]
    exact hinv

theorem declineSwap_knockInv {sh : Shuffle} {s : GameState}
    {r : ActionResult} {s' : GameState}
    (h : declineSwap sh s = some (r, s')) {kid : Nat}
    (hinv : KnockInv kid s) : KnockInv kid s' := by
  unfold declineSwap at h
  split at h
  · dsimp only at h
    split at h
    · exact absurd h (by simp)
    · next s2 het =>
      rw [(someProdInj h).2]
      refine knockInv_of_endTurn het ?_ ?_ hinv
      · rfl
      · rfl
  · rw [(someProdInj h).2]
    exact hinv

theorem useDraw2_knockInv {sh : Shuffle} (hp : shufflePerm sh) {s : GameState}
    {r : ActionResult} {s' : GameState}
    (h : useDraw2 sh s = some (r, s')) {kid : Nat}
    (hinv : KnockInv kid s) : KnockInv kid s' := by
  unfold useDraw2 at h
  split at h
  · dsimp only at h
    split at h
    · next s2 hdc =>
      split at h
      · exact absurd h (by simp)
      · next s4 het =>
        rw [(someProdInj h).2]
        obtain ⟨_, _, _, _, _, _, _, hki, hfa, _⟩ := drawCard_pot hp hdc
        exact knockInv_of_endTurn het hki hfa hinv
    · next c s2 hdc =>
      obtain ⟨_, hps, hidx, _, _, _, hre, hki, hfa, _⟩ := drawCard_pot hp hdc
      have hinv2 : KnockInv kid s2 := knockInv_congr hps hidx hki hfa hre hinv
      split at h
      · next hc =>
        have hss : s' = (chainDraw sh s2).2 := by
          rw [(Option.some.inj h)]
        rw [hss]
        have hnd2 : s2.drawnCard = none := by
          obtain ⟨_, _, _, hdcd, _⟩ := drawCard_pot hp hdc
          exact hdcd
        obtain ⟨_, hre2, _, hps2, _, _, hidx2, hfa2, hki2, _⟩ :=
          chainDraw_spec hp hnd2
        exact knockInv_congr hps2 hidx2 hki2 hfa2 hre2 hinv2
      · next hc =>
        rw [(someProdInj h).2]
        exact knockInv_congr rfl rfl rfl rfl rfl hinv2
  · rw [(someProdInj h).2]
    exact hinv

theorem handleD2_knockInv {sh : Shuffle} (hp : shufflePerm sh) {d : D2Act}
    {s : GameState} {r : ActionResult} {s' : GameState}
    (h : handleDraw2Card sh d s = some (r, s')) {kid : Nat}
    (hinv : KnockInv kid s) : KnockInv kid s' := by
  unfold handleDraw2Card at h
  split at h
  · rw [(someProdInj h).2]
    exact hinv
  · split at h
    · next i =>
      split at h
      · exact absurd h (by simp)
      · next r0 s0 hrc =>
        have hinv0 : KnockInv kid s0 := replaceCardInHand_knockInv hrc hinv
        split at h
        · next hr0 =>
          rw [(someProdInj h).2]
          exact knockInv_congr rfl rfl rfl rfl rfl hinv0
        · next hr0 =>
          rw [(someProdInj h).2]
          exact hinv0
    · next =>
      split at h
      · exact absurd h (by simp)
      · next dc =>
        dsimp only at h
        split at h
        · next hpos =>
          split at h
          · next s2 hdc =>
            split at h
            · exact absurd h (by simp)
            · next s4 het =>
              rw [(someProdInj h).2]
              obtain ⟨_, _, _, _, _, _, _, hki, hfa, _⟩ := drawCard_pot hp hdc
              exact knockInv_of_endTurn het hki hfa hinv
          · next c s2 hdc =>
            obtain ⟨_, hps, hidx, _, _, _, hre, hki, hfa, _⟩ := drawCard_pot hp hdc
            have hinv2 : KnockInv kid s2 := knockInv_congr hps hidx hki hfa hre hinv
            split at h
            · next hc =>
              have hss : s' = (chainDraw sh s2).2 := by
                rw [(Option.some.inj h)]
              rw [hss]
              have hnd2 : s2.drawnCard = none := by
                obtain ⟨_, _, _, hdcd, _⟩ := drawCard_pot hp hdc
                exact hdcd
              obtain ⟨_, hre2, _, hps2, _, _, hidx2, hfa2, hki2, _⟩ :=
                chainDraw_spec hp hnd2
              exact knockInv_congr hps2 hidx2 hki2 hfa2 hre2 hinv2
            · next hc =>
              rw [(someProdInj h).2]
              exact knockInv_congr rfl rfl rfl rfl rfl hinv2
        · next hpos =>
          split at h
          · exact absurd h (by simp)
          · next s3 het =>
            rw [(someProdInj h).2]
            refine knockInv_of_endTurn het ?_ ?_ hinv
            · rfl
            · rfl
    · rw [(someProdInj h).2]
      exact hinv

theorem addDrawn_fields (p : Player) (idx : Nat) (c? : Option Card)
    (t : GameState) :
    (addDrawn p idx c? t).knockerId = t.knockerId
      ∧ (addDrawn p idx c? t).finalRoundActive = t.finalRoundActive := by
  cases c? with
  | none => exact ⟨rfl, rfl⟩
  | some c => exact ⟨rfl, rfl⟩

theorem useAddCard_knockInv {sh : Shuffle} (hp : shufflePerm sh) {s : GameState}
    {r : ActionResult} {s' : GameState}
    (h : useAddCard sh s = some (r, s')) {kid : Nat}
    (hinv : KnockInv kid s) : KnockInv kid s' := by
  unfold useAddCard at h
  split at h
  · split at h
    · exact absurd h (by simp)
    · next p hgc =>
      split at h
      · next newC s2 hdc =>
        dsimp only at h
        split at h
        · exact absurd h (by simp)
        · next s4 het =>
          rw [(someProdInj h).2]
          obtain ⟨_, _, _, _, _, _, _, hki, hfa, _⟩ := drawCard_pot hp hdc
          refine knockInv_of_endTurn het ?_ ?_ hinv
          · exact ((addDrawn_fields p s2.currentPlayerIndex newC s2).1).trans hki
          · exact ((addDrawn_fields p s2.currentPlayerIndex newC s2).2).trans hfa
  · rw [(someProdInj h).2]
    exact hinv

theorem applyAct_knockInv {sh : Shuffle} (hp : shufflePerm sh) {a : Act}
    {s : GameState} {r : ActionResult} {s' : GameState}
    (h : applyAct sh a s = some (r, s')) {kid : Nat}
    (hinv : KnockInv kid s) : KnockInv kid s' := by
  cases a with
  | aDrawDeck => exact drawFromDeck_knockInv hp h hinv
  | aDrawDiscard => exact drawFromDiscardPile_knockInv h hinv
  | aReplace i => exact replaceCardInHand_knockInv h hinv
  | aDiscardDrawn => exact discardDrawnCard_knockInv h hinv
  | aPeek i => exact usePeek_knockInv h hinv
  | aSwap m oid oi => exact useSwap_knockInv h hinv
  | aDeclineSwap => exact declineSwap_knockInv h hinv
  | aUseDraw2 => exact useDraw2_knockInv hp h hinv
  | aD2 d => exact handleD2_knockInv hp h hinv
  | aAddCard => exact useAddCard_knockInv hp h hinv
  | aKnock => exact knock_knockInv h hinv

theorem steps_knockInv {sh : Shuffle} (hp : shufflePerm sh)
    {G : Act → GameState → Prop} {s t : GameState}
    (hst : Steps sh G s t) {kid : Nat} (hinv : KnockInv kid s) :
    KnockInv kid t := by
  induction hst with
  | refl => exact hinv
  | tail hst hstep ih =>
    obtain ⟨a, r, _, happ⟩ := hstep
    exact applyAct_knockInv hp happ ih

/-- C8: CORRECTED.  Turn advancement (`knock` itself and `endTurn`) does skip
the knocker while the final round is active, but `removePlayer` does not:
removing a player can reset `currentPlayerIndex` to 0, which may be the
knocker's seat (see the counterexample trace).  Amended: restricted to action
calls only (no removals), after a successful `knock` the knocker never becomes
the current player while the round has not ended. -/
theorem C8_knock_exclusion {sh : Shuffle} (hp : shufflePerm sh)
    {s : GameState} {r : ActionResult} {s' : GameState}
    (hk : knock s = some (r, s')) (hs : r.success = true)
    {t : GameState} (hsteps : Steps sh anyGuard s' t)
    (hre : t.roundEnded = false) :
    ∃ p, s.players[s.currentPlayerIndex]? = some p
      ∧ t.knockerId = some p.id ∧ t.finalRoundActive = true
      ∧ ∀ q, t.players[t.currentPlayerIndex]? = some q → q.id ≠ p.id := by
  obtain ⟨p, hcur, hki, hfa, hre0, hskip⟩ := knock_ok hk hs
  have hinv : KnockInv p.id s' := ⟨hfa, hki, fun _ => hskip⟩
  obtain ⟨h1, h2, h3⟩ := steps_knockInv hp hsteps hinv
  exact ⟨p, hcur, h2, h1, h3 hre⟩

/-- C8 counterexample: Kay (id 1) knocks in the three-player `knockBase`; Ann
takes her final turn and is then removed.  `removePlayer` resets the index to
0, so with the round still running and the final round active the current
player is the knocker again. -/
theorem C8_counterexample :
    knock knockBase = some knockOut1
      ∧ (knockOut1.1).success = true
      ∧ StepsRem id knockOut1.2 removedS4
      ∧ removedS4.roundEnded = false
      ∧ removedS4.knockerId = some 1
      ∧ removedS4.finalRoundActive = true
      ∧ (removedS4.players[removedS4.currentPlayerIndex]?).map (fun q => q.id)
          = some 1 := by
  refine ⟨rfl, rfl, ?_, rfl, rfl, rfl, rfl⟩
  have h1 : StepsRem id knockOut1.2 drawOut2.2 :=
    StepsRem.tail (StepsRem.refl _)
      (Or.inl ⟨Act.aDrawDeck, drawOut2.1, trivial, rfl⟩)
  have h2 : StepsRem id knockOut1.2 discOut3.2 :=
    StepsRem.tail h1
      (Or.inl ⟨Act.aDiscardDrawn, discOut3.1, trivial, rfl⟩)
  exact StepsRem.tail h2 (Or.inr ⟨2, rfl⟩)

/-- C8 witness: the amended knock-exclusion theorem applied to the concrete
trace (knock, deck draw, discard) from `knockBase`: after Ann's completed
turn the current player Ben is not the knocker. -/
theorem C8_knock_exclusion_witness :
    shufflePerm id
      ∧ knock knockBase = some (knockOut1.1, knockOut1.2)
      ∧ (knockOut1.1).success = true
      ∧ (discOut3.2).roundEnded = false
      ∧ (∃ p, knockBase.players[knockBase.currentPlayerIndex]? = some p
          ∧ (discOut3.2).knockerId = some p.id
          ∧ (discOut3.2).finalRoundActive = true
          ∧ ∀ q, (discOut3.2).players[(discOut3.2).currentPlayerIndex]?
                = some q → q.id ≠ p.id) :=
  by
  have h1 : Steps id anyGuard knockOut1.2 drawOut2.2 :=
    Steps.tail (Steps.refl knockOut1.2)
      ⟨Act.aDrawDeck, drawOut2.1, trivial, rfl⟩
  have h2 : Steps id anyGuard knockOut1.2 discOut3.2 :=
    Steps.tail h1 ⟨Act.aDiscardDrawn, discOut3.1, trivial, rfl⟩
  exact ⟨fun l => List.Perm.refl l, rfl, rfl, rfl,
    C8_knock_exclusion (fun l => List.Perm.refl l)
      (show knock knockBase = some (knockOut1.1, knockOut1.2) from rfl) rfl
      h2 rfl⟩

theorem drawCardL_some_len {sh : Shuffle} (hp : shufflePerm sh)
    {deck disc : List Card} {r : Card} {d' p' : List Card}
    (h : drawCardL sh deck disc = (some r, d', p')) :
    d'.length + p'.length + 1 = deck.length + disc.length := by
  have hc := congrArg Multiset.card (drawCardL_pot hp h)
  simp only [Multiset.card_add, Multiset.coe_card, pendingCards,
    Multiset.card_singleton] at hc
  omega

theorem replaceSlotLoop_num {sh : Shuffle} (fuel : Nat) (c : Card) (k : Bool)
    (deck disc : List Card) (hc : c.isPowerCard = false) :
    replaceSlotLoop sh fuel c k deck disc = (c, k, deck, disc) := by
  cases fuel with
  | zero => rfl
  | succ n =>
    unfold replaceSlotLoop
    rw [if_neg (by rw [hc]; exact fun hh => Bool.noConfusion hh)]

theorem replaceSlotLoop_spec {sh : Shuffle} (hp : shufflePerm sh) :
    ∀ {fuel : Nat} {c : Card} {k : Bool} {deck disc : List Card},
      deck.length + disc.length < fuel → c.isPowerCard = true →
      ((replaceSlotLoop sh fuel c k deck disc).1.isPowerCard = false
          ∧ (replaceSlotLoop sh fuel c k deck disc).2.1 = true)
        ∨ ((replaceSlotLoop sh fuel c k deck disc).1 = c
            ∧ (replaceSlotLoop sh fuel c k deck disc).2.1 = k
            ∧ (replaceSlotLoop sh fuel c k deck disc).2.2.1 = []
            ∧ (replaceSlotLoop sh fuel c k deck disc).2.2.2.length ≤ 1) := by
  intro fuel
  induction fuel with
  | zero =>
    intro c k deck disc hfuel hc
    omega
  | succ n ih =>
    intro c k deck disc hfuel hc
    unfold replaceSlotLoop
    rw [if_pos hc]
    cases hd : drawCardL sh deck disc with
    | mk r? rest =>
      cases rest with
      | mk d' p' =>
        cases r? with
        | none =>
          obtain ⟨h1, h2, h3, h4⟩ := drawCardL_none (shufflePerm.len hp) hd
          right
          refine ⟨rfl, rfl, ?_, ?_⟩
          · show d' = []
            rw [h1, h3]
          · show p'.length ≤ 1
            rw [h2]
            exact h4
        | some r =>
          have hlen2 : d'.length + p'.length < n := by
            have := drawCardL_some_len hp hd
            omega
          dsimp only
          by_cases hr : r.isPowerCard = true
          · rw [if_pos hr]
            exact ih hlen2 hc
          · have hnum : r.isPowerCard = false := by
              cases hh : r.isPowerCard
              · rfl
              · exact absurd hh hr
            rw [if_neg hr]
            rw [replaceSlotLoop_num n r true d' p' hnum]
            left
            exact ⟨hnum, rfl⟩

theorem drawCardL_exhausted (sh : Shuffle) (disc : List Card)
    (hl : disc.length ≤ 1) : drawCardL sh [] disc = (none, [], disc) := by
  unfold drawCardL reshufflePair
  have hcond : ¬(([] : List Card).length = 0 ∧ 1 < disc.length) := by
    intro hc
    omega
  rw [if_neg hcond]
  rfl

theorem replaceSlotLoop_exhausted (sh : Shuffle) :
    ∀ (fuel : Nat) (c : Card) (k : Bool) (disc : List Card),
      disc.length ≤ 1 →
      replaceSlotLoop sh fuel c k [] disc = (c, k, [], disc)
  | 0, c, k, disc, _ => rfl
  | fuel + 1, c, k, disc, hl => by
    unfold replaceSlotLoop
    by_cases hc : c.isPowerCard = true
    · rw [if_pos hc, drawCardL_exhausted sh disc hl]
    · rw [if_neg hc]

theorem replaceHandLoop_exhausted (sh : Shuffle) :
    ∀ (cs : List Card) (ks : List Bool) (disc : List Card),
      disc.length ≤ 1 →
      replaceHandLoop sh cs ks [] disc = (cs, ks, [], disc)
  | [], ks, disc, _ => by rw [replaceHandLoop_nil]
  | c :: cs, [], disc, _ => rfl
  | c :: cs, k :: ks, disc, hl => by
    rw [replaceHandLoop_cons]
    rw [replaceSlotLoop_exhausted sh (([] : List Card).length + disc.length + 1)
      c k disc hl]
    dsimp only
    rw [replaceHandLoop_exhausted sh cs ks disc hl]

theorem endRoundPlayers_exhausted (sh : Shuffle) :
    ∀ (ps : List Player) (disc : List Card), disc.length ≤ 1 →
      (endRoundPlayers sh ps [] disc).2.1 = []
        ∧ (endRoundPlayers sh ps [] disc).2.2 = disc
  | [], disc, _ => ⟨rfl, rfl⟩
  | p :: ps, disc, hl => by
    rw [endRoundPlayers_cons]
    rw [replaceHandLoop_exhausted sh p.hand p.knownCards disc hl]
    dsimp only
    exact endRoundPlayers_exhausted sh ps disc hl

theorem replaceHandLoop_spec {sh : Shuffle} (hp : shufflePerm sh) :
    ∀ (cs : List Card) (ks : List Bool) (deck disc : List Card),
      ks.length = cs.length →
      ∀ (n : Nat) (c : Card), cs[n]? = some c →
        ((c.isPowerCard = false →
            (replaceHandLoop sh cs ks deck disc).1[n]? = some c
              ∧ (replaceHandLoop sh cs ks deck disc).2.1[n]? = ks[n]?)
          ∧ (c.isPowerCard = true →
              (∃ c', (replaceHandLoop sh cs ks deck disc).1[n]? = some c'
                  ∧ c'.isPowerCard = false
                  ∧ (replaceHandLoop sh cs ks deck disc).2.1[n]? = some true)
                ∨ ((replaceHandLoop sh cs ks deck disc).1[n]? = some c
                    ∧ (replaceHandLoop sh cs ks deck disc).2.1[n]? = ks[n]?
                    ∧ (replaceHandLoop sh cs ks deck disc).2.2.1 = []
                    ∧ (replaceHandLoop sh cs ks deck disc).2.2.2.length ≤ 1))) := by
  intro cs
  induction cs with
  | nil =>
    intro ks deck disc hk n c hc
    exact absurd hc (by simp)
  | cons c0 cs ih =>
    intro ks deck disc hk n c hc
    cases ks with
    | nil => exact absurd hk (by simp)
    | cons k0 ks =>
      rw [replaceHandLoop_cons]
      cases n with
      | zero =>
        have hc0 : c0 = c := by simpa using hc
        subst hc0
        constructor
        · intro hnum
          constructor
          · simp only [List.getElem?_cons_zero]
            rw [replaceSlotLoop_num (deck.length + disc.length + 1)
              c0 k0 deck disc hnum]
          · simp only [List.getElem?_cons_zero]
            rw [replaceSlotLoop_num (deck.length + disc.length + 1)
              c0 k0 deck disc hnum]
        · intro hpow
          rcases replaceSlotLoop_spec hp
              (show deck.length + disc.length < deck.length + disc.length + 1
                by omega) hpow with ⟨h1, h2⟩ | ⟨h1, h2, h3, h4⟩
          · left
            refine ⟨(replaceSlotLoop sh (deck.length + disc.length + 1)
                c0 k0 deck disc).1, ?_, h1, ?_⟩
            · simp only [List.getElem?_cons_zero]
            · simp only [List.getElem?_cons_zero]
              rw [h2]
          · right
            have hfin := replaceHandLoop_exhausted sh cs ks
              (replaceSlotLoop sh (deck.length + disc.length + 1)
                c0 k0 deck disc).2.2.2 h4
            refine ⟨?_, ?_, ?_, ?_⟩
            · simp only [List.getElem?_cons_zero]
              rw [h1]
            · simp only [List.getElem?_cons_zero]
              rw [h2]
            · show (replaceHandLoop sh cs ks
                  (replaceSlotLoop sh (deck.length + disc.length + 1)
                    c0 k0 deck disc).2.2.1
                  (replaceSlotLoop sh (deck.length + disc.length + 1)
                    c0 k0 deck disc).2.2.2).2.2.1 = []
              rw [h3, hfin]
            · show (replaceHandLoop sh cs ks
                  (replaceSlotLoop sh (deck.length + disc.length + 1)
                    c0 k0 deck disc).2.2.1
                  (replaceSlotLoop sh (deck.length + disc.length + 1)
                    c0 k0 deck disc).2.2.2).2.2.2.length ≤ 1
              rw [h3, hfin]
              exact h4
      | succ m =>
        have hk' : ks.length = cs.length := by simpa using hk
        have hcm : cs[m]? = some c := by simpa using hc
        have hrec := ih ks
          (replaceSlotLoop sh (deck.length + disc.length + 1)
            c0 k0 deck disc).2.2.1
          (replaceSlotLoop sh (deck.length + disc.length + 1)
            c0 k0 deck disc).2.2.2 hk' m c hcm
        simpa only [List.getElem?_cons_succ] using hrec

theorem endRoundPlayers_spec {sh : Shuffle} (hp : shufflePerm sh) :
    ∀ (ps : List Player) (deck disc : List Card) (qs : List Player)
      (deck2 disc2 : List Card),
      endRoundPlayers sh ps deck disc = (qs, deck2, disc2) →
      List.Forall₂ (fun q p => q.id = p.id ∧ q.name = p.name
          ∧ q.score = handPoints q.hand
          ∧ q.totalScore = p.totalScore + handPoints q.hand
          ∧ q.hand.length = p.hand.length
          ∧ (p.knownCards.length = p.hand.length →
              ∀ (n : Nat) (c : Card), p.hand[n]? = some c →
                ((c.isPowerCard = false →
                    q.hand[n]? = some c ∧ q.knownCards[n]? = p.knownCards[n]?)
                  ∧ (c.isPowerCard = true →
                      (∃ c', q.hand[n]? = some c' ∧ c'.isPowerCard = false
                          ∧ q.knownCards[n]? = some true)
                        ∨ (q.hand[n]? = some c
                            ∧ q.knownCards[n]? = p.knownCards[n]?
                            ∧ deck2 = [] ∧ disc2.length ≤ 1)))))
        qs ps := by
  intro ps
  induction ps with
  | nil =>
    intro deck disc qs deck2 disc2 h
    injection h with hq hrest
    subst hq
    exact List.Forall₂.nil
  | cons p ps ih =>
    intro deck disc qs deck2 disc2 h
    rw [endRoundPlayers_cons] at h
    injection h with hq hrest
    subst hq
    have hd2 : deck2 = (endRoundPlayers sh ps
        (replaceHandLoop sh p.hand p.knownCards deck disc).2.2.1
        (replaceHandLoop sh p.hand p.knownCards deck disc).2.2.2).2.1 :=
      (congrArg Prod.fst hrest).symm
    have hp2 : disc2 = (endRoundPlayers sh ps
        (replaceHandLoop sh p.hand p.knownCards deck disc).2.2.1
        (replaceHandLoop sh p.hand p.knownCards deck disc).2.2.2).2.2 :=
      (congrArg Prod.snd hrest).symm
    subst hd2
    subst hp2
    refine List.Forall₂.cons ⟨rfl, rfl, rfl, rfl, ?_, ?_⟩
      (ih (replaceHandLoop sh p.hand p.knownCards deck disc).2.2.1
        (replaceHandLoop sh p.hand p.knownCards deck disc).2.2.2
        (endRoundPlayers sh ps
          (replaceHandLoop sh p.hand p.knownCards deck disc).2.2.1
          (replaceHandLoop sh p.hand p.knownCards deck disc).2.2.2).1
        (endRoundPlayers sh ps
          (replaceHandLoop sh p.hand p.knownCards deck disc).2.2.1
          (replaceHandLoop sh p.hand p.knownCards deck disc).2.2.2).2.1
        (endRoundPlayers sh ps
          (replaceHandLoop sh p.hand p.knownCards deck disc).2.2.1
          (replaceHandLoop sh p.hand p.knownCards deck disc).2.2.2).2.2 rfl)
    · exact (replaceHandLoop_len sh p.hand p.knownCards deck disc).1
    · intro hkl n c hc
      have hs := replaceHandLoop_spec hp p.hand p.knownCards deck disc hkl n c hc
      refine ⟨hs.1, ?_⟩
      intro hpow
      rcases hs.2 hpow with hex | ⟨hh, hk, hd, hl⟩
      · left
        exact hex
      · right
        have hrest := endRoundPlayers_exhausted sh ps
          (replaceHandLoop sh p.hand p.knownCards deck disc).2.2.2 hl
        refine ⟨hh, hk, ?_, ?_⟩
        · rw [hd]
          exact hrest.1
        · rw [hd, hrest.2]
          exact hl

/-- C9: CONFIRMED.  `endRound` marks the round ended and, player by player,
replaces every hand slot that held a power card by a drawn Number card with
its known-flag set to true, unless the reshuffle-backed draw was exhausted
for that slot — evidenced by the final state having an empty draw pile and
at most one discard (so nothing was drawable, even via reshuffle) — in which
case the slot and its flag are left as they were; number slots are untouched;
the round score of each player becomes the point sum of the final hand
(`handPoints`, with power cards contributing 0) and is added to the
cumulative total. -/
theorem C9_endRound_spec {sh : Shuffle} (hp : shufflePerm sh) (s : GameState) :
    (endRound sh s).roundEnded = true
      ∧ List.Forall₂ (fun q p => q.id = p.id ∧ q.name = p.name
          ∧ q.score = handPoints q.hand
          ∧ q.totalScore = p.totalScore + handPoints q.hand
          ∧ q.hand.length = p.hand.length
          ∧ (p.knownCards.length = p.hand.length →
              ∀ (n : Nat) (c : Card), p.hand[n]? = some c →
                ((c.isPowerCard = false →
                    q.hand[n]? = some c ∧ q.knownCards[n]? = p.knownCards[n]?)
                  ∧ (c.isPowerCard = true →
                      (∃ c', q.hand[n]? = some c' ∧ c'.isPowerCard = false
                          ∧ q.knownCards[n]? = some true)
                        ∨ (q.hand[n]? = some c
                            ∧ q.knownCards[n]? = p.knownCards[n]?
                            ∧ (endRound sh s).deck = []
                            ∧ (endRound sh s).discardPile.length ≤ 1)))))
        (endRound sh s).players s.players := by
  refine ⟨(endRound_flag_eq sh s).1, ?_⟩
  exact endRoundPlayers_spec hp s.players s.deck s.discardPile
    (endRound sh s).players (endRound sh s).deck (endRound sh s).discardPile rfl

/-- C9 witness: the `endRound` specification applied to the concrete
`scoreState` (a hidden Peek and a hidden Swap), whose scored result
`scoredState` replaces both power cards by Number cards, marks them known and
accumulates the scores. -/
theorem C9_endRound_spec_witness :
    shufflePerm id
      ∧ scoredState.players.map
          (fun q => (q.hand, q.knownCards, q.score, q.totalScore))
        = [([Card.number 5, Card.number 2], [true, false], 7, 17),
           ([Card.number 3, Card.number 7], [true, true], 10, 10)]
      ∧ (scoredState.roundEnded = true
          ∧ List.Forall₂ (fun q p => q.id = p.id ∧ q.name = p.name
              ∧ q.score = handPoints q.hand
              ∧ q.totalScore = p.totalScore + handPoints q.hand
              ∧ q.hand.length = p.hand.length
              ∧ (p.knownCards.length = p.hand.length →
                  ∀ (n : Nat) (c : Card), p.hand[n]? = some c →
                    ((c.isPowerCard = false →
                        q.hand[n]? = some c
                          ∧ q.knownCards[n]? = p.knownCards[n]?)
                      ∧ (c.isPowerCard = true →
                          (∃ c', q.hand[n]? = some c'
                              ∧ c'.isPowerCard = false
                              ∧ q.knownCards[n]? = some true)
                            ∨ (q.hand[n]? = some c
                                ∧ q.knownCards[n]? = p.knownCards[n]?
                                ∧ scoredState.deck = []
                                ∧ scoredState.discardPile.length ≤ 1)))))
            scoredState.players scoreState.players) :=
  ⟨fun l => List.Perm.refl l, rfl,
    C9_endRound_spec (fun l => List.Perm.refl l) scoreState⟩

theorem idxInv_congr {s t : GameState}
    (hl : t.players.length = s.players.length)
    (hidx : t.currentPlayerIndex = s.currentPlayerIndex)
    (h : IdxInv s) : IdxInv t := by
  rcases h with h | h
  · left
    rw [hidx, h]
  · right
    rw [hidx, hl]
    exact h

theorem endTurn_idxInv {sh : Shuffle} {s1 s2 : GameState}
    (h : endTurn sh s1 = some s2) (hinv : IdxInv s1) : IdxInv s2 := by
  rcases endTurn_cases h with ⟨i, hlt, heq, _⟩ | ⟨_, heq⟩
  · subst heq
    right
    exact hlt
  · subst heq
    refine idxInv_congr ?_ ?_ hinv
    · rw [endRound_players_len]
    · rfl

theorem drawFromDiscardPile_idxInv {s : GameState} {r : ActionResult}
    {s' : GameState} (h : drawFromDiscardPile s = some (r, s'))
    (hinv : IdxInv s) : IdxInv s' := by
  unfold drawFromDiscardPile at h
  split at h
  · rw [(someProdInj h).2]
    exact hinv
  · split at h
    · rw [(someProdInj h).2]
      exact hinv
    · split at h
      · exact absurd h (by simp)
      · next c hgl =>
        split at h
        · rw [(someProdInj h).2]
          exact idxInv_congr rfl rfl hinv
        · rw [(someProdInj h).2]
          exact idxInv_congr rfl rfl hinv

theorem drawFromDeck_idxInv {sh : Shuffle} (hp : shufflePerm sh)
    {s : GameState} {r : ActionResult} {s' : GameState}
    (h : drawFromDeck sh s = some (r, s')) (hinv : IdxInv s) : IdxInv s' := by
  unfold drawFromDeck at h
  split at h
  · rw [(someProdInj h).2]
    exact hinv
  · split at h
    · next c? st hdc =>
      rw [(someProdInj h).2]
      rw [drawCard_none_eq (shufflePerm.len hp) hdc]
      exact hinv
    · next c st hdc =>
      rw [(someProdInj h).2]
      obtain ⟨_, hps, hidx, _⟩ := drawCard_pot hp hdc
      refine idxInv_congr ?_ ?_ hinv
      · rw [hps]
      · exact hidx

theorem replaceCardInHand_idxInv {sh : Shuffle} {i : Int} {s : GameState}
    {r : ActionResult} {s' : GameState}
    (h : replaceCardInHand sh i s = some (r, s')) (hinv : IdxInv s) :
    IdxInv s' := by
  unfold replaceCardInHand at h
  split at h
  · rw [(someProdInj h).2]
    exact hinv
  · next dc =>
    split at h
    · exact absurd h (by simp)
    · next p hgc =>
      dsimp only at h
      split at h
      · rw [(someProdInj h).2]
        exact hinv
      · split at h
        · exact absurd h (by simp)
        · next s2 het =>
          rw [(someProdInj h).2]
          refine endTurn_idxInv het (idxInv_congr ?_ ?_ hinv)
          · rw [List.length_set]
          · rfl

theorem discardDrawnCard_idxInv {sh : Shuffle} {s : GameState}
    {r : ActionResult} {s' : GameState}
    (h : discardDrawnCard sh s = some (r, s')) (hinv : IdxInv s) :
    IdxInv s' := by
  unfold discardDrawnCard at h
  split at h
  · rw [(someProdInj h).2]
    exact hinv
  · next dc =>
    split at h
    · rw [(someProdInj h).2]
      exact hinv
    · dsimp only at h
      split at h
      · exact absurd h (by simp)
      · next s2 het =>
        rw [(someProdInj h).2]
        exact endTurn_idxInv het (idxInv_congr rfl rfl hinv)

theorem usePeek_idxInv {sh : Shuffle} {i : Int} {s : GameState}
    {r : ActionResult} {s' : GameState}
    (h : usePeek sh i s = some (r, s')) (hinv : IdxInv s) : IdxInv s' := by
  unfold usePeek at h
  split at h
  · split at h
    · exact absurd h (by simp)
    · next p hgc =>
      split at h
      · rw [(someProdInj h).2]
        exact hinv
      · dsimp only at h
        split at h
        · exact absurd h (by simp)
        · next s2 het =>
          rw [(someProdInj h).2]
          exact endTurn_idxInv het (idxInv_congr rfl rfl hinv)
  · rw [(someProdInj h).2]
    exact hinv

theorem useSwap_idxInv {sh : Shuffle} {myIdx oppIdx : Int} {oppId : Nat}
    {s : GameState} {r : ActionResult} {s' : GameState}
    (h : useSwap sh myIdx oppId oppIdx s = some (r, s')) (hinv : IdxInv s) :
    IdxInv s' := by
  unfold useSwap at h
  split at h
  · split at h
    · exact absurd h (by simp)
    · next p hgc =>
      split at h
      · rw [(someProdInj h).2]
        exact hinv
      · next j hfind =>
        split at h
        · exact absurd h (by simp)
        · next opp hopp =>
          split at h
          · rw [(someProdInj h).2]
            exact hinv
          · split at h
            · rw [(someProdInj h).2]
              exact hinv
            · split at h
              · rw [(someProdInj h).2]
                exact hinv
              · dsimp only at h
                split at h
                · exact absurd h (by simp)
                · next s2 het =>
                  rw [(someProdInj h).2]
                  refine endTurn_idxInv het (idxInv_congr ?_ ?_ hinv)
                  · rw [List.length_set, List.length_set]
                  · rfl
  · rw [(someProdInj h).2]
    exact hinv

theorem declineSwap_idxInv {sh : Shuffle} {s : GameState}
    {r : ActionResult} {s' : GameState}
    (h : declineSwap sh s = some (r, s')) (hinv : IdxInv s) : IdxInv s' := by
  unfold declineSwap at h
  split at h
  · dsimp only at h
    split at h
    · exact absurd h (by simp)
    · next s2 het =>
      rw [(someProdInj h).2]
      exact endTurn_idxInv het (idxInv_congr rfl rfl hinv)
  · rw [(someProdInj h).2]
    exact hinv

theorem useDraw2_idxInv {sh : Shuffle} (hp : shufflePerm sh) {s : GameState}
    {r : ActionResult} {s' : GameState}
    (h : useDraw2 sh s = some (r, s')) (hinv : IdxInv s) : IdxInv s' := by
  unfold useDraw2 at h
  split at h
  · dsimp only at h
    split at h
    · next s2 hdc =>
      split at h
      · exact absurd h (by simp)
      · next s4 het =>
        rw [(someProdInj h).2]
        obtain ⟨_, hps, hidx, _⟩ := drawCard_pot hp hdc
        refine endTurn_idxInv het (idxInv_congr ?_ ?_ hinv)
        · show s2.players.length = s.players.length
          rw [hps]
        · exact hidx
    · next c s2 hdc =>
      obtain ⟨_, hps, hidx, _⟩ := drawCard_pot hp hdc
      have hinv2 : IdxInv s2 := by
        refine idxInv_congr ?_ hidx hinv
        rw [hps]
      split at h
      · next hc =>
        have hss : s' = (chainDraw sh s2).2 := by
          rw [(Option.some.inj h)]
        rw [hss]
        have hnd2 : s2.drawnCard = none := by
          obtain ⟨_, _, _, hdcd, _⟩ := drawCard_pot hp hdc
          exact hdcd
        obtain ⟨_, _, _, hps2, _, _, hidx2, _⟩ := chainDraw_spec hp hnd2
        refine idxInv_congr ?_ hidx2 hinv2
        rw [hps2]
      · next hc =>
        rw [(someProdInj h).2]
        exact idxInv_congr rfl rfl hinv2
  · rw [(someProdInj h).2]
    exact hinv

theorem handleD2_idxInv {sh : Shuffle} (hp : shufflePerm sh) {d : D2Act}
    {s : GameState} {r : ActionResult} {s' : GameState}
    (h : handleDraw2Card sh d s = some (r, s')) (hinv : IdxInv s) :
    IdxInv s' := by
  unfold handleDraw2Card at h
  split at h
  · rw [(someProdInj h).2]
    exact hinv
  · split at h
    · next i =>
      split at h
      · exact absurd h (by simp)
      · next r0 s0 hrc =>
        have hinv0 : IdxInv s0 := replaceCardInHand_idxInv hrc hinv
        split at h
        · next hr0 =>
          rw [(someProdInj h).2]
          exact idxInv_congr rfl rfl hinv0
        · next hr0 =>
          rw [(someProdInj h).2]
          exact hinv0
    · next =>
      split at h
      · exact absurd h (by simp)
      · next dc =>
        dsimp only at h
        split at h
        · next hpos =>
          split at h
          · next s2 hdc =>
            split at h
            · exact absurd h (by simp)
            · next s4 het =>
              rw [(someProdInj h).2]
              obtain ⟨_, hps, hidx, _⟩ := drawCard_pot hp hdc
              refine endTurn_idxInv het (idxInv_congr ?_ ?_ hinv)
              · show s2.players.length = s.players.length
                rw [hps]
              · exact hidx
          · next c s2 hdc =>
            obtain ⟨_, hps, hidx, _⟩ := drawCard_pot hp hdc
            have hinv2 : IdxInv s2 := by
              refine idxInv_congr ?_ hidx hinv
              rw [hps]
            split at h
            · next hc =>
              have hss : s' = (chainDraw sh s2).2 := by
                rw [(Option.some.inj h)]
              rw [hss]
              have hnd2 : s2.drawnCard = none := by
                obtain ⟨_, _, _, hdcd, _⟩ := drawCard_pot hp hdc
                exact hdcd
              obtain ⟨_, _, _, hps2, _, _, hidx2, _⟩ := chainDraw_spec hp hnd2
              refine idxInv_congr ?_ hidx2 hinv2
              rw [hps2]
            · next hc =>
              rw [(someProdInj h).2]
              exact idxInv_congr rfl rfl hinv2
        · next hpos =>
          split at h
          · exact absurd h (by simp)
          · next s3 het =>
            rw [(someProdInj h).2]
            exact endTurn_idxInv het (idxInv_congr rfl rfl hinv)
    · rw [(someProdInj h).2]
      exact hinv

theorem addDrawn_len (p : Player) (idx : Nat) (c? : Option Card)
    (t : GameState) :
    (addDrawn p idx c? t).players.length = t.players.length
      ∧ (addDrawn p idx c? t).currentPlayerIndex = t.currentPlayerIndex := by
  cases c? with
  | none => exact ⟨rfl, rfl⟩
  | some c =>
    constructor
    · show (t.players.set idx (p.addCard c)).length = t.players.length
      rw [List.length_set]
    · rfl

theorem useAddCard_idxInv {sh : Shuffle} (hp : shufflePerm sh) {s : GameState}
    {r : ActionResult} {s' : GameState}
    (h : useAddCard sh s = some (r, s')) (hinv : IdxInv s) : IdxInv s' := by
  unfold useAddCard at h
  split at h
  · split at h
    · exact absurd h (by simp)
    · next p hgc =>
      split at h
      · next newC s2 hdc =>
        dsimp only at h
        split at h
        · exact absurd h (by simp)
        · next s4 het =>
          rw [(someProdInj h).2]
          obtain ⟨_, hps, hidx, _⟩ := drawCard_pot hp hdc
          refine endTurn_idxInv het (idxInv_congr ?_ ?_ hinv)
          · show (addDrawn p s2.currentPlayerIndex newC s2).players.length
                = s.players.length
            rw [(addDrawn_len p s2.currentPlayerIndex newC s2).1, hps]
          · show (addDrawn p s2.currentPlayerIndex newC s2).currentPlayerIndex
                = s.currentPlayerIndex
            rw [(addDrawn_len p s2.currentPlayerIndex newC s2).2, hidx]
  · rw [(someProdInj h).2]
    exact hinv

theorem knock_idxInv {s : GameState} {r : ActionResult} {s' : GameState}
    (h : knock s = some (r, s')) (hinv : IdxInv s) : IdxInv s' := by
  unfold knock at h
  dsimp only at h
  split at h
  · rw [(someProdInj h).2]
    exact hinv
  · split at h
    · exact absurd h (by simp)
    · next p hgc =>
      split at h
      · next i hnil =>
        rw [(someProdInj h).2]
        right
        exact (nextIndexLoop_spec hnil).1
      · exact absurd h (by simp)

theorem applyAct_idxInv {sh : Shuffle} (hp : shufflePerm sh) {a : Act}
    {s : GameState} {r : ActionResult} {s' : GameState}
    (h : applyAct sh a s = some (r, s')) (hinv : IdxInv s) : IdxInv s' := by
  cases a with
  | aDrawDeck => exact drawFromDeck_idxInv hp h hinv
  | aDrawDiscard => exact drawFromDiscardPile_idxInv h hinv
  | aReplace i => exact replaceCardInHand_idxInv h hinv
  | aDiscardDrawn => exact discardDrawnCard_idxInv h hinv
  | aPeek i => exact usePeek_idxInv h hinv
  | aSwap m oid oi => exact useSwap_idxInv h hinv
  | aDeclineSwap => exact declineSwap_idxInv h hinv
  | aUseDraw2 => exact useDraw2_idxInv hp h hinv
  | aD2 d => exact handleD2_idxInv hp h hinv
  | aAddCard => exact useAddCard_idxInv hp h hinv
  | aKnock => exact knock_idxInv h hinv

theorem addPlayer_idxInv {pid : Nat} {pname : String} {s : GameState}
    (hinv : IdxInv s) : IdxInv (addPlayer pid pname s).2 := by
  unfold addPlayer
  split
  · exact hinv
  · split
    · exact hinv
    · rcases hinv with h | h
      · left
        exact h
      · right
        dsimp only
        simp only [List.length_append, List.length_cons, List.length_nil]
        omega

theorem removePlayer_idxInv (pid : Nat) (s : GameState) :
    IdxInv (removePlayer pid s).2 := by
  unfold removePlayer IdxInv
  dsimp only
  by_cases hc : (s.players.filter (fun p => p.id ≠ pid)).length
      ≤ s.currentPlayerIndex
  · left
    rw [if_pos hc]
  · right
    rw [if_neg hc]
    omega

theorem startRound_idxInv {sh : Shuffle} {s : GameState} {b : Bool}
    {s' : GameState} (h : startRound sh s = some (b, s')) (hinv : IdxInv s) :
    IdxInv s' := by
  unfold startRound at h
  split at h
  · rw [(someProdInj h).2]
    exact hinv
  · dsimp only at h
    split at h
    · exact absurd h (by simp)
    · split at h
      · exact absurd h (by simp)
      · next c0 s4 hdc =>
        split at h
        · exact absurd h (by simp)
        · next c s5 hfl =>
          rw [(someProdInj h).2]
          left
          rfl

theorem reachAll_idxInv {sh : Shuffle} (hp : shufflePerm sh) {s : GameState}
    (h : ReachAll sh s) : IdxInv s := by
  induction h with
  | init =>
    left
    rfl
  | add pid pname _ ih => exact addPlayer_idxInv ih
  | remove pid _ ih => exact removePlayer_idxInv _ _
  | start _ hsr ih =>
    exact startRound_idxInv hsr ih
  | act _ hstep ih =>
    obtain ⟨a, r, _, happ⟩ := hstep
    exact applyAct_idxInv hp happ ih

/-- C10: CONFIRMED.  In every state reachable through the public surface
(`addPlayer`, `removePlayer`, `startRound` and all action calls interleaved),
whenever players remain the current player index is strictly in range — turn
advancement wraps modulo the player count and `removePlayer` resets an
out-of-range index to 0 — so `getCurrentPlayer` finds a player whenever any
remain. -/
theorem C10_index_in_range {sh : Shuffle} (hp : shufflePerm sh) {s : GameState}
    (h : ReachAll sh s) :
    IdxOk s ∧ (s.players ≠ [] → (getCurrentPlayer s).isSome = true) := by
  have hok : IdxOk s := by
    intro hne
    rcases reachAll_idxInv hp h with h0 | hlt
    · rw [h0]
      cases hps : s.players with
      | nil => exact absurd hps hne
      | cons q qs =>
        simp
    · exact hlt
  refine ⟨hok, ?_⟩
  intro hne
  show (s.players[s.currentPlayerIndex]?).isSome = true
  rw [List.getElem?_eq_getElem (hok hne)]
  rfl

/-- C10 witness: the index-sanity theorem applied to the concrete reachable
state `afterDraw` (two adds, a round start and a deck draw). -/
theorem C10_index_in_range_witness :
    shufflePerm id ∧ ReachAll id afterDraw
      ∧ (IdxOk afterDraw
          ∧ (afterDraw.players ≠ [] →
              (getCurrentPlayer afterDraw).isSome = true)) := by
  have hra : ReachAll id afterDraw :=
    ReachAll.act
      (ReachAll.start (ReachAll.add 2 "Bob" (ReachAll.add 1 "Alice" ReachAll.init))
        startRound_lobbyTwo)
      ⟨Act.aDrawDeck, drawRes, trivial, drawStep_afterDraw⟩
  exact ⟨fun l => List.Perm.refl l, hra,
    C10_index_in_range (fun l => List.Perm.refl l) hra⟩
